import Mathlib

/-!
# Line-of-sight engine (VisCheck): shallow embedding and verified properties

The C++ sources embedded here are `include/VisCheck.h`, `src/VisCheck.cpp`,
`src/OptimizedGeometry.cpp` and `src/main.cpp`.

## Scalars

The program computes with `float`.  The embedding is in *exact arithmetic with overflow*: a
finite `float` is an element of an arbitrary linearly ordered field `F` (the rationals when
a definition is evaluated, the reals when a theorem is read mathematically).  An operation
is carried out without rounding as long as its exact result is in the float range, and
gives an infinity when it is not, at the places where the program can leave the range.

* The float literals `1e-7f` and `0.001f` are the floats they denote:
  `EPSILON = 14073749 * 2^-47` and `MIN_DISTANCE = 8589935 * 2^-33`, both a little larger
  than the decimal numbers.
* `std::numeric_limits<float>::max()` is the number `FLT_MAX = (2 - 2^-23) * 2^127` and
  `lowest()` is `-FLT_MAX`, as in the source; they are not infinities.  `OVERFLOW =
  2^128 - 2^103` is the least magnitude that float arithmetic rounds to an infinity.
* The slab test `AABB::RayIntersects` divides by a direction component that may be zero, or
  so small that the quotient overflows.  There the intermediate values live in `Flt F`: the
  finite values extended by `+inf`, `-inf` and `NaN`, with the IEEE rules for `*`, `<`, `>=`
  (`0 * inf` is `NaN`, every comparison with `NaN` is false).
* In `IsVisible` a squared length from `OVERFLOW` on is `+inf`, and so is `distance`.
* `BuildBVH` compares float differences (the split axis) and float sums (the sort key).
  They are computed by a float unit, `FloatUnit`, a parameter with a contract that IEEE
  rounding to nearest meets: never NaN, monotone, an infinity from `OVERFLOW` on.
  `exactUnit`, which does not round within the float range, is the instance used to
  evaluate `BuildBVH` on concrete lists.
* `std::sqrt` is passed to `IsVisible` as a parameter `sqrt : F → F`; `std::sort` is passed
  to `BuildBVH` as a parameter with its contract (`StdSort`).

## Pointers and state

A `std::unique_ptr<BVHNode>` is a value of the inductive type `BVHNode`, whose constructor
`null` is `nullptr`.  A member function that changes the engine takes the engine and
returns the result together with the new engine; a reference parameter that is written
(`hitDistance`, `t`, `meshCount`) is returned with the result.

## Files

A file is the list of its bytes and an input stream is the list of the bytes not yet read;
the section on files below says how a read that falls short is modelled.
-/

namespace Vis

/-! ## Data model (`Types.h`, `VisCheck.h`) -/

/-- Modelled from the spec: `Types.h` is not part of the sources; the spec's vector is
three finite float components `x, y, z`. -/
structure Vec3 (F : Type) where
  x : F
  y : F
  z : F
deriving DecidableEq, Repr

/-- The struct `AABB` of `VisCheck.h`. -/
structure AABB (F : Type) where
  min : Vec3 F
  max : Vec3 F
deriving DecidableEq, Repr

/-- The struct `TriangleCombined` of `VisCheck.h`. -/
structure TriangleCombined (F : Type) where
  v0 : Vec3 F
  v1 : Vec3 F
  v2 : Vec3 F
deriving DecidableEq, Repr

/-- A `std::unique_ptr<BVHNode>`: `null` is `nullptr`, `node bounds left right triangles`
is a pointer to a `BVHNode` with these four fields. -/
inductive BVHNode (F : Type) where
  | null : BVHNode F
  | node (bounds : AABB F) (left right : BVHNode F)
      (triangles : List (TriangleCombined F)) : BVHNode F
deriving DecidableEq, Repr

/-- The data members of class `VisCheck`. -/
structure VisCheck (F : Type) where
  meshes : List (List (TriangleCombined F))
  bvhNodes : List (BVHNode F)
  geometryLoaded : Bool
deriving DecidableEq, Repr

/-- A float value in exact arithmetic: a finite value, an infinity or NaN. -/
inductive Flt (F : Type) where
  | nan : Flt F
  | ninf : Flt F
  | fin (x : F) : Flt F
  | pinf : Flt F
deriving DecidableEq, Repr

section Defs

variable {F : Type} [LinearOrderedField F]

/-! ## IEEE-754 operations on extended values -/

/-- IEEE `a < b`: false as soon as one side is NaN. -/
def Flt.lt : Flt F → Flt F → Bool
  | .nan, _ => false
  | _, .nan => false
  | .ninf, .ninf => false
  | .ninf, _ => true
  | .fin _, .ninf => false
  | .fin a, .fin b => decide (a < b)
  | .fin _, .pinf => true
  | .pinf, _ => false

/-- IEEE `a >= b`: false as soon as one side is NaN. -/
def Flt.ge : Flt F → Flt F → Bool
  | .nan, _ => false
  | _, .nan => false
  | _, .ninf => true
  | .ninf, _ => false
  | .pinf, _ => true
  | .fin _, .pinf => false
  | .fin a, .fin b => decide (b ≤ a)

/-- IEEE `a * b` without rounding: `0 * inf` is NaN, otherwise the sign rule. -/
def Flt.mul : Flt F → Flt F → Flt F
  | .nan, _ => .nan
  | _, .nan => .nan
  | .fin a, .fin b => .fin (a * b)
  | .fin a, .pinf => if a = 0 then .nan else if 0 < a then .pinf else .ninf
  | .fin a, .ninf => if a = 0 then .nan else if 0 < a then .ninf else .pinf
  | .pinf, .fin b => if b = 0 then .nan else if 0 < b then .pinf else .ninf
  | .ninf, .fin b => if b = 0 then .nan else if 0 < b then .ninf else .pinf
  | .pinf, .pinf => .pinf
  | .pinf, .ninf => .ninf
  | .ninf, .pinf => .ninf
  | .ninf, .ninf => .pinf

/-- The least real number that rounds to an infinity in float arithmetic,
`2^128 - 2^103`, half an ulp above `FLT_MAX`: an operation whose exact result `x` has
`|x| ≥ OVERFLOW` returns an infinity, every other operation a finite float. -/
def OVERFLOW : F := 340282356779733661637539395458142568448

/-- IEEE `1.0f / d` for a finite `d`: a signed infinity when `d` is a zero, whose sign bit
is `negz` (`+0` when `negz = false`, `-0` when `negz = true`), and also when the quotient
overflows (`|d| ≤ 2^-128`, a subnormal `d`); otherwise the quotient, without rounding. -/
def Flt.recip (negz : Bool) (d : F) : Flt F :=
  if d = 0 then (if negz then .ninf else .pinf)
  else if OVERFLOW ≤ 1 / d then .pinf
  else if 1 / d ≤ -OVERFLOW then .ninf
  else .fin (1 / d)

/-- `std::max(a, b)` on floats: `(a < b) ? b : a`. -/
def Flt.stdMax (a b : Flt F) : Flt F := if Flt.lt a b then b else a

/-- `std::min(a, b)` on floats: `(b < a) ? b : a`. -/
def Flt.stdMin (a b : Flt F) : Flt F := if Flt.lt b a then b else a

/-- `std::numeric_limits<float>::max()`, the largest finite float `(2 - 2^-23) * 2^127`;
`std::numeric_limits<float>::lowest()` is its negation. -/
def FLT_MAX : F := 340282346638528859811704183484516925440

/-! ## `Vec3Helpers` -/

namespace Vec3Helpers

/-- `Vec3Helpers::Subtract`. -/
def Subtract (a b : Vec3 F) : Vec3 F := ⟨a.x - b.x, a.y - b.y, a.z - b.z⟩

/-- `Vec3Helpers::Dot`. -/
def Dot (a b : Vec3 F) : F := a.x * b.x + a.y * b.y + a.z * b.z

/-- `Vec3Helpers::Cross`. -/
def Cross (a b : Vec3 F) : Vec3 F :=
  ⟨a.y * b.z - a.z * b.y, a.z * b.x - a.x * b.z, a.x * b.y - a.y * b.x⟩

/-- `Vec3Helpers::LengthSquared`. -/
def LengthSquared (v : Vec3 F) : F := v.x * v.x + v.y * v.y + v.z * v.z

end Vec3Helpers

open Vec3Helpers

/-! ## `AABB::RayIntersects` -/

/-- One iteration of the loop of `AABB::RayIntersects` (axis `i`): `mn`, `mx`, `o`, `d` are
`minArr[i]`, `maxArr[i]`, `rayOriginArr[i]`, `rayDirArr[i]`; the pair is `(tmin, tmax)`. -/
def AABB.slabAxis (negz : Bool) (mn mx o d : F) (acc : Flt F × Flt F) : Flt F × Flt F :=
  let invDir := Flt.recip negz d
  let t0 := Flt.mul (.fin (mn - o)) invDir
  let t1 := Flt.mul (.fin (mx - o)) invDir
  let sw := Flt.lt invDir (.fin 0)
  let t0s := if sw then t1 else t0
  let t1s := if sw then t0 else t1
  (Flt.stdMax acc.1 t0s, Flt.stdMin acc.2 t1s)

/-- `AABB::RayIntersects` with the sign bits of the zero components of `rayDir` given by
`nx`, `ny`, `nz` (a component that is not zero ignores its flag). -/
def AABB.RayIntersectsSigned (nx ny nz : Bool) (b : AABB F) (rayOrigin rayDir : Vec3 F) :
    Bool :=
  let acc0 : Flt F × Flt F := (.fin (-FLT_MAX), .fin FLT_MAX)
  let acc1 := AABB.slabAxis nx b.min.x b.max.x rayOrigin.x rayDir.x acc0
  let acc2 := AABB.slabAxis ny b.min.y b.max.y rayOrigin.y rayDir.y acc1
  let acc3 := AABB.slabAxis nz b.min.z b.max.z rayOrigin.z rayDir.z acc2
  Flt.ge acc3.2 acc3.1 && Flt.ge acc3.2 (.fin 0)

/-- `AABB::RayIntersects` in exact arithmetic, where a zero is `+0`. -/
def AABB.RayIntersects (b : AABB F) (rayOrigin rayDir : Vec3 F) : Bool :=
  AABB.RayIntersectsSigned false false false b rayOrigin rayDir

/-- The quotient `1.0f / d` does not overflow: `d` is a zero (the quotient is then an exact
infinity) or `|1 / d| < OVERFLOW`, which for a float `d` means `|d| > 2^-128`. -/
def RecipExact (d : F) : Prop :=
  d = 0 ∨ (-OVERFLOW < 1 / d ∧ 1 / d < OVERFLOW)

/-- None of the three quotients `1.0f / rayDirArr[i]` of the slab test overflows. -/
def DirExact (rayDir : Vec3 F) : Prop :=
  RecipExact rayDir.x ∧ RecipExact rayDir.y ∧ RecipExact rayDir.z

/-! ## `TriangleCombined::ComputeAABB` -/

/-- `TriangleCombined::ComputeAABB`: `std::min({a, b, c})` and `std::max({a, b, c})` on
each axis. -/
def TriangleCombined.ComputeAABB (t : TriangleCombined F) : AABB F :=
  { min := ⟨min (min t.v0.x t.v1.x) t.v2.x, min (min t.v0.y t.v1.y) t.v2.y,
            min (min t.v0.z t.v1.z) t.v2.z⟩
    max := ⟨max (max t.v0.x t.v1.x) t.v2.x, max (max t.v0.y t.v1.y) t.v2.y,
            max (max t.v0.z t.v1.z) t.v2.z⟩ }

/-! ## `VisCheck::BuildBVH` -/

/-- `VisCheck::LEAF_THRESHOLD`. -/
def LEAF_THRESHOLD : Nat := 4

/-- One iteration of the loop of lines 81-89 of `VisCheck.cpp`: `bounds` grown by the AABB
of `tri`. -/
def growBounds (bounds : AABB F) (tri : TriangleCombined F) : AABB F :=
  let triAABB := tri.ComputeAABB
  { min := ⟨min bounds.min.x triAABB.min.x, min bounds.min.y triAABB.min.y,
            min bounds.min.z triAABB.min.z⟩
    max := ⟨max bounds.max.x triAABB.max.x, max bounds.max.y triAABB.max.y,
            max bounds.max.z triAABB.max.z⟩ }

/-- Lines 80-89 of `VisCheck.cpp`: the bounds of a triangle list `tris[0] :: rest`. -/
def computeBounds (first : TriangleCombined F) (rest : List (TriangleCombined F)) : AABB F :=
  rest.foldl growBounds first.ComputeAABB

/-- The float unit that `BuildBVH` computes with: `round x` is the float an arithmetic
operation returns when its exact result is the real number `x`.  It is a parameter with a
contract, of which IEEE-754 rounding to nearest is an instance: the result is never NaN,
it is an infinity from `OVERFLOW` on, and rounding keeps the order.  How a number within
the float range is rounded is left open. -/
structure FloatUnit (F : Type) [LinearOrderedField F] where
  round : F → Flt F
  round_ne_nan : ∀ x, round x ≠ Flt.nan
  round_pinf : ∀ x, OVERFLOW ≤ x → round x = Flt.pinf
  round_ninf : ∀ x, x ≤ -OVERFLOW → round x = Flt.ninf
  round_mono : ∀ x y, x ≤ y → Flt.lt (round y) (round x) = false

/-- The float quotient `s / 2.0f`: an infinity stays an infinity. -/
def FloatUnit.half (R : FloatUnit F) : Flt F → Flt F
  | .fin s => R.round (s / 2)
  | .pinf => .pinf
  | .ninf => .ninf
  | .nan => .nan

/-- Line 97 of `VisCheck.cpp`: the component of `diff = Subtract(bounds.max, bounds.min)`
on `axis` (`0` is x, `1` is y, any other index z), a float difference. -/
def extent (R : FloatUnit F) (bounds : AABB F) (axis : Nat) : Flt F :=
  if axis = 0 then R.round (bounds.max.x - bounds.min.x)
  else if axis = 1 then R.round (bounds.max.y - bounds.min.y)
  else R.round (bounds.max.z - bounds.min.z)

/-- Line 98 of `VisCheck.cpp`: the split axis, `0`, `1` or `2`, from the float components
of `diff`; `diff.x > diff.y` is `Flt.lt diff.y diff.x`. -/
def splitAxis (R : FloatUnit F) (bounds : AABB F) : Nat :=
  if Flt.lt (extent R bounds 1) (extent R bounds 0) = true
      ∧ Flt.lt (extent R bounds 2) (extent R bounds 0) = true then 0
  else (if Flt.lt (extent R bounds 2) (extent R bounds 1) = true then 1 else 2)

/-- The key `centerA` of the comparator of lines 101-118 of `VisCheck.cpp`: the float
`(aabbA.min + aabbA.max) / 2.0f` on the axis; the sum may round and may overflow. -/
def centerKey (R : FloatUnit F) (axis : Nat) (a : TriangleCombined F) : Flt F :=
  let aabbA := a.ComputeAABB
  if axis = 0 then R.half (R.round (aabbA.min.x + aabbA.max.x))
  else if axis = 1 then R.half (R.round (aabbA.min.y + aabbA.max.y))
  else R.half (R.round (aabbA.min.z + aabbA.max.z))

/-- The centroid of the spec: the real number `(aabb.min + aabb.max) / 2` on the axis,
which `centerKey` approximates. -/
def centroid (axis : Nat) (a : TriangleCombined F) : F :=
  let aabbA := a.ComputeAABB
  if axis = 0 then (aabbA.min.x + aabbA.max.x) / 2
  else if axis = 1 then (aabbA.min.y + aabbA.max.y) / 2
  else (aabbA.min.z + aabbA.max.z) / 2

/-- What `BuildBVH` runs on: the float unit `fpu`, and the library function `std::sort`
called with the comparator `centerA < centerB`, taken as a parameter with its contract:
the result is a rearrangement of the input in which no element comes after one of strictly
larger key.  The order of elements with equal keys is left open, as it is by `std::sort`. -/
structure StdSort (F : Type) [LinearOrderedField F] where
  fpu : FloatUnit F
  sort : Nat → List (TriangleCombined F) → List (TriangleCombined F)
  perm : ∀ axis l, List.Perm (sort axis l) l
  sorted : ∀ axis l,
    List.Pairwise (fun a b => Flt.lt (centerKey fpu axis b) (centerKey fpu axis a) = false)
      (sort axis l)

/-- `VisCheck::BuildBVH`.  On the empty list the source returns a node whose bounds are not
initialised; the embedding puts zeros there. -/
def BuildBVH (S : StdSort F) (tris : List (TriangleCombined F)) : BVHNode F :=
  match tris with
  | [] => .node ⟨⟨0, 0, 0⟩, ⟨0, 0, 0⟩⟩ .null .null []
  | first :: rest =>
    let bounds := computeBounds first rest
    if (first :: rest).length ≤ LEAF_THRESHOLD then
      .node bounds .null .null (first :: rest)
    else
      let axis := splitAxis S.fpu bounds
      let sortedTris := S.sort axis (first :: rest)
      let mid := sortedTris.length / 2
      let leftTris := sortedTris.take mid
      let rightTris := sortedTris.drop mid
      .node bounds (BuildBVH S leftTris) (BuildBVH S rightTris) []
termination_by tris.length
decreasing_by
  all_goals simp_wf
  · have hl := (S.perm (splitAxis S.fpu (computeBounds first rest)) (first :: rest)).length_eq
    simp only [List.length_cons] at hl
    rename_i h
    simp only [List.length_cons, LEAF_THRESHOLD, not_le] at h
    omega
  · have hl := (S.perm (splitAxis S.fpu (computeBounds first rest)) (first :: rest)).length_eq
    simp only [List.length_cons] at hl
    rename_i h
    simp only [List.length_cons, LEAF_THRESHOLD, not_le] at h
    omega

/-! ## `VisCheck::RayIntersectsTriangle` -/

/-- The constant `EPSILON = 1e-7f` of `RayIntersectsTriangle`: the float nearest to
`1e-7`, which is `14073749 * 2^-47` (a little more than `1e-7`). -/
def EPSILON : F := 14073749 / 140737488355328

/-- `VisCheck::RayIntersectsTriangle`: `some t` when the source returns `true` with the
output parameter set to `t`, `none` when it returns `false`. -/
def RayIntersectsTriangle (rayOrigin rayDir : Vec3 F) (triangle : TriangleCombined F) :
    Option F :=
  let edge1 := Subtract triangle.v1 triangle.v0
  let edge2 := Subtract triangle.v2 triangle.v0
  let h := Cross rayDir edge2
  let a := Dot edge1 h
  if a > -EPSILON ∧ a < EPSILON then none
  else
    let f := 1 / a
    let s := Subtract rayOrigin triangle.v0
    let u := f * Dot s h
    if u < 0 ∨ u > 1 then none
    else
      let q := Cross s edge1
      let v := f * Dot rayDir q
      if v < 0 ∨ u + v > 1 then none
      else
        let t := f * Dot edge2 q
        if t > EPSILON then some t else none

/-! ## `VisCheck::IntersectBVH` -/

/-- `BVHNode::IsLeaf` applied to the two child pointers. -/
def IsLeaf (left right : BVHNode F) : Bool :=
  decide (left = .null) && decide (right = .null)

/-- The body of the loop over `node->triangles` in `IntersectBVH` (lines 137-145): the
state is `(hit, hitDistance)`. -/
def leafStep (rayOrigin rayDir : Vec3 F) (maxDistance : F) (st : Bool × F)
    (tri : TriangleCombined F) : Bool × F :=
  match RayIntersectsTriangle rayOrigin rayDir tri with
  | some t => if t < maxDistance ∧ t < st.2 then (true, t) else st
  | none => st

/-- `VisCheck::IntersectBVH`: the result is the returned `bool` and the final value of the
reference parameter `hitDistance`.  The source dereferences `node` and is only called on
non-null pointers (the callers test the pointer first); `null` stands for a call the
caller skipped, which neither hits nor writes. -/
def IntersectBVH : BVHNode F → Vec3 F → Vec3 F → F → F → Bool × F
  | .null, _, _, _, hitDistance => (false, hitDistance)
  | .node bounds left right triangles, rayOrigin, rayDir, maxDistance, hitDistance =>
    if !bounds.RayIntersects rayOrigin rayDir then (false, hitDistance)
    else if IsLeaf left right then
      triangles.foldl (leafStep rayOrigin rayDir maxDistance) (false, hitDistance)
    else
      let r1 := IntersectBVH left rayOrigin rayDir maxDistance hitDistance
      let r2 := IntersectBVH right rayOrigin rayDir maxDistance r1.2
      (r1.1 || r2.1, r2.2)

/-! ## `VisCheck::LoadGeometry` -/

/-- The body of the loop of `LoadGeometry` (lines 196-204): the state is `bvhNodes`. -/
def loadStep (S : StdSort F) (bvhNodes : List (BVHNode F)) (mesh : List (TriangleCombined F)) :
    List (BVHNode F) :=
  if mesh.isEmpty then bvhNodes else bvhNodes ++ [BuildBVH S mesh]

/-- `VisCheck::LoadGeometry`: the returned `bool` and the engine after the call. -/
def LoadGeometry (S : StdSort F) (e : VisCheck F) (geometryMeshes : List (List (TriangleCombined F))) :
    Bool × VisCheck F :=
  if geometryMeshes.isEmpty then (false, e)
  else
    let meshes := geometryMeshes
    let bvhNodes := meshes.foldl (loadStep S) []
    let geometryLoaded := decide (meshes.length > 0) && decide (bvhNodes.length > 0)
    (geometryLoaded, { meshes := meshes, bvhNodes := bvhNodes, geometryLoaded := geometryLoaded })

/-- The constructor `VisCheck::VisCheck()`: the empty engine. -/
def VisCheck.empty : VisCheck F := { meshes := [], bvhNodes := [], geometryLoaded := false }

/-! ## `VisCheck::IsVisible` -/

/-- The loop over `bvhNodes` of `IsVisible` (lines 488-496), from the roots not yet
visited and the current `hitDistance`; the result is the value `IsVisible` returns. -/
def visibleLoop (point1 rayDir : Vec3 F) (distance : F) : List (BVHNode F) → F → Bool
  | [], _ => true
  | .null :: rest, hitDistance => visibleLoop point1 rayDir distance rest hitDistance
  | .node b l r ts :: rest, hitDistance =>
    let res := IntersectBVH (.node b l r ts) point1 rayDir distance hitDistance
    if res.1 then
      (if res.2 < distance then false else visibleLoop point1 rayDir distance rest res.2)
    else visibleLoop point1 rayDir distance rest res.2

/-- The float literal `0.001f` of `IsVisible`: the float nearest to `0.001`, which is
`8589935 * 2^-33` (a little more than `0.001`; no float lies between the two). -/
def MIN_DISTANCE : F := 8589935 / 8589934592

/-- `VisCheck::IsVisible`; `sqrt` is `std::sqrt`.

When the squared length of `point2 - point1` is beyond the float range, the source has
`LengthSquared(rayDir) = +inf` and `distance = +inf`; every component of
`rayDir / distance` is then a zero or NaN, so in `RayIntersectsTriangle` the determinant
`a` is a zero or NaN, no triangle is hit, and the loop over the roots ends in
`return true`. -/
def IsVisible (sqrt : F → F) (e : VisCheck F) (point1 point2 : Vec3 F) : Bool :=
  if !e.geometryLoaded || e.bvhNodes.isEmpty then false
  else
    let rayDir := Subtract point2 point1
    let lengthSquared := LengthSquared rayDir
    if OVERFLOW ≤ lengthSquared then true
    else
      let distance := sqrt lengthSquared
      if distance < MIN_DISTANCE then true
      else
        let rayDir : Vec3 F := ⟨rayDir.x / distance, rayDir.y / distance, rayDir.z / distance⟩
        visibleLoop point1 rayDir distance e.bvhNodes FLT_MAX

/-! ## The quantities computed by `RayIntersectsTriangle` -/

/-- The determinant `a` of `RayIntersectsTriangle`. -/
def detA (rayDir : Vec3 F) (T : TriangleCombined F) : F :=
  Dot (Subtract T.v1 T.v0) (Cross rayDir (Subtract T.v2 T.v0))

/-- The barycentric coordinate `u` of `RayIntersectsTriangle`. -/
def baryU (o d : Vec3 F) (T : TriangleCombined F) : F :=
  1 / detA d T * Dot (Subtract o T.v0) (Cross d (Subtract T.v2 T.v0))

/-- The barycentric coordinate `v` of `RayIntersectsTriangle`. -/
def baryV (o d : Vec3 F) (T : TriangleCombined F) : F :=
  1 / detA d T * Dot d (Cross (Subtract o T.v0) (Subtract T.v1 T.v0))

/-- The ray parameter `t` of `RayIntersectsTriangle`. -/
def paramT (o d : Vec3 F) (T : TriangleCombined F) : F :=
  1 / detA d T * Dot (Subtract T.v2 T.v0) (Cross (Subtract o T.v0) (Subtract T.v1 T.v0))

/-- The triangle is degenerate: its vertices are collinear, that is the edges `v1 - v0` and
`v2 - v0` are linearly dependent (two coincident vertices are a special case). -/
def Degenerate (T : TriangleCombined F) : Prop :=
  ∃ a b : F, (a ≠ 0 ∨ b ≠ 0) ∧
    a * (T.v1.x - T.v0.x) + b * (T.v2.x - T.v0.x) = 0 ∧
    a * (T.v1.y - T.v0.y) + b * (T.v2.y - T.v0.y) = 0 ∧
    a * (T.v1.z - T.v0.z) + b * (T.v2.z - T.v0.z) = 0

/-! ## Reading a tree -/

/-- The lambda `extractTriangles` of `LoadBVHCache` (lines 440-448): the triangle lists of
the leaves of a tree, concatenated from left to right. -/
def extractTriangles : BVHNode F → List (TriangleCombined F)
  | .null => []
  | .node _ left right triangles =>
    if IsLeaf left right then triangles else extractTriangles left ++ extractTriangles right

/-- All the nodes of a tree (the root first), the null pointers left out. -/
def subnodes : BVHNode F → List (BVHNode F)
  | .null => []
  | .node bounds left right triangles =>
    .node bounds left right triangles :: (subnodes left ++ subnodes right)

/-- The three vertices of a triangle. -/
def vertices (T : TriangleCombined F) : List (Vec3 F) := [T.v0, T.v1, T.v2]

/-- `m` is the least value of the coordinate `c` over the vertices of the triangles `ts`. -/
def IsMinOver (c : Vec3 F → F) (ts : List (TriangleCombined F)) (m : F) : Prop :=
  (∀ T ∈ ts, ∀ v ∈ vertices T, m ≤ c v) ∧ (∃ T ∈ ts, ∃ v ∈ vertices T, c v = m)

/-- `m` is the greatest value of the coordinate `c` over the vertices of the triangles `ts`. -/
def IsMaxOver (c : Vec3 F → F) (ts : List (TriangleCombined F)) (m : F) : Prop :=
  (∀ T ∈ ts, ∀ v ∈ vertices T, c v ≤ m) ∧ (∃ T ∈ ts, ∃ v ∈ vertices T, c v = m)

/-- The box `b` is the tight bounding box of the triangles `ts`. -/
def TightBounds (b : AABB F) (ts : List (TriangleCombined F)) : Prop :=
  IsMinOver Vec3.x ts b.min.x ∧ IsMinOver Vec3.y ts b.min.y ∧ IsMinOver Vec3.z ts b.min.z ∧
  IsMaxOver Vec3.x ts b.max.x ∧ IsMaxOver Vec3.y ts b.max.y ∧ IsMaxOver Vec3.z ts b.max.z

/-- The box `inner` lies inside the box `outer`. -/
def AABB.Inside (inner outer : AABB F) : Prop :=
  outer.min.x ≤ inner.min.x ∧ outer.min.y ≤ inner.min.y ∧ outer.min.z ≤ inner.min.z ∧
  inner.max.x ≤ outer.max.x ∧ inner.max.y ≤ outer.max.y ∧ inner.max.z ≤ outer.max.z

/-- The box is not empty: `min ≤ max` on every axis. -/
def AABB.NonEmpty (b : AABB F) : Prop :=
  b.min.x ≤ b.max.x ∧ b.min.y ≤ b.max.y ∧ b.min.z ≤ b.max.z

/-- The point `p` lies in the box `b`. -/
def AABB.Contains (b : AABB F) (p : Vec3 F) : Prop :=
  b.min.x ≤ p.x ∧ p.x ≤ b.max.x ∧ b.min.y ≤ p.y ∧ p.y ≤ b.max.y ∧ b.min.z ≤ p.z ∧ p.z ≤ b.max.z

/-- The bounds of the node a pointer points to lie inside `outer` (nothing to say of a null
pointer). -/
def BoundsInside (outer : AABB F) : BVHNode F → Prop
  | .null => True
  | .node bounds _ _ _ => AABB.Inside bounds outer

/-- The shape of a node as the spec's data model has it: an internal node with two non-null
children and no triangles, or a leaf without children holding 1 to `LEAF_THRESHOLD`
triangles. -/
def WellShaped : BVHNode F → Prop
  | .null => False
  | .node _ left right triangles =>
    (left ≠ .null ∧ right ≠ .null ∧ triangles = []) ∨
    (left = .null ∧ right = .null ∧ 1 ≤ triangles.length ∧ triangles.length ≤ LEAF_THRESHOLD)

/-- The pointer points to a leaf (`BVHNode::IsLeaf` on a non-null pointer). -/
def RootIsLeaf : BVHNode F → Prop
  | .null => False
  | .node _ left right _ => IsLeaf left right = true

/-- The statement of tight bounds for one node: its bounds are the tight box of the
triangles in the leaves below it, hence a non-empty box that contains the AABB of each of
these triangles and the bounds of both children. -/
def TightNode : BVHNode F → Prop
  | .null => True
  | .node bounds left right triangles =>
    TightBounds bounds (extractTriangles (.node bounds left right triangles)) ∧
    AABB.NonEmpty bounds ∧
    (∀ T ∈ extractTriangles (.node bounds left right triangles),
      AABB.Inside T.ComputeAABB bounds) ∧
    BoundsInside bounds left ∧ BoundsInside bounds right

/-- Every node of the tree has bounds that contain the vertices of all triangles in the
leaves below it. -/
def Encloses : BVHNode F → Prop
  | .null => True
  | .node bounds left right triangles =>
    (∀ T ∈ extractTriangles (.node bounds left right triangles), ∀ v ∈ vertices T,
      AABB.Contains bounds v) ∧ Encloses left ∧ Encloses right

/-! ## An instance of the float unit and of the `std::sort` contract -/

/-- The float unit without rounding error: an operation returns its exact result, or an
infinity when the result is beyond the float range.  On operands whose exact result is a
float this is what the hardware returns. -/
def exactUnit : FloatUnit F where
  round x := if OVERFLOW ≤ x then .pinf else if x ≤ -OVERFLOW then .ninf else .fin x
  round_ne_nan x := by
    by_cases h1 : OVERFLOW ≤ x
    · simp [h1]
    · by_cases h2 : x ≤ -OVERFLOW <;> simp [h1, h2]
  round_pinf x h := by simp [h]
  round_ninf x h := by
    have hp : (0 : F) < OVERFLOW := by unfold OVERFLOW; norm_num
    have h1 : ¬ OVERFLOW ≤ x := by
      intro h2; linarith
    simp [h1, h]
  round_mono x y hxy := by
    by_cases hy1 : OVERFLOW ≤ y
    · simp only [hy1, if_true]
      split_ifs <;> rfl
    · by_cases hy2 : y ≤ -OVERFLOW
      · have hx1 : ¬ OVERFLOW ≤ x := fun h => hy1 (le_trans h hxy)
        have hx2 : x ≤ -OVERFLOW := le_trans hxy hy2
        simp only [hy1, hy2, hx1, hx2, if_true, if_false]
        rfl
      · have hx1 : ¬ OVERFLOW ≤ x := fun h => hy1 (le_trans h hxy)
        by_cases hx2 : x ≤ -OVERFLOW
        · simp only [hy1, hy2, hx1, hx2, if_true, if_false]
          rfl
        · simp only [hy1, hy2, hx1, hx2, if_false]
          simp only [Flt.lt, decide_eq_false_iff_not, not_lt]
          exact hxy

/-- A rank that orders the float values as `<` does (NaN is put with `-inf`). -/
def Flt.rank : Flt F → WithBot (WithTop F)
  | .nan => ⊥
  | .ninf => ⊥
  | .fin x => ((x : WithTop F) : WithBot (WithTop F))
  | .pinf => ((⊤ : WithTop F) : WithBot (WithTop F))

instance keyLe.total (R : FloatUnit F) (axis : Nat) :
    IsTotal (TriangleCombined F)
      (fun a b => Flt.rank (centerKey R axis a) ≤ Flt.rank (centerKey R axis b)) :=
  ⟨fun _ _ => le_total _ _⟩

instance keyLe.trans (R : FloatUnit F) (axis : Nat) :
    IsTrans (TriangleCombined F)
      (fun a b => Flt.rank (centerKey R axis a) ≤ Flt.rank (centerKey R axis b)) :=
  ⟨fun _ _ _ h1 h2 => le_trans h1 h2⟩

/-- Insertion sort on the key, with the float unit `exactUnit`: one instance of the
contract `StdSort`.  It keeps the order of elements with equal keys. -/
def insertionSort : StdSort F where
  fpu := exactUnit
  sort axis l := l.insertionSort
    (fun a b => Flt.rank (centerKey exactUnit axis a) ≤ Flt.rank (centerKey exactUnit axis b))
  perm axis l := List.perm_insertionSort _ l
  sorted axis l := by
    have h := List.sorted_insertionSort
      (fun a b => Flt.rank (centerKey exactUnit axis a) ≤ Flt.rank (centerKey exactUnit axis b)) l
    refine List.Pairwise.imp (fun {a b} hab => ?_) h
    revert hab
    generalize centerKey exactUnit axis a = x
    generalize centerKey exactUnit axis b = y
    intro hab
    cases x <;> cases y <;> simp [Flt.rank, Flt.lt] at hab ⊢
    exact hab

/-! ## What a traversal may return -/

/-- The possible outcomes of a traversal over the triangles `ts` started with
`hitDistance = h0`: nothing accepted and `hitDistance` untouched, or a hit accepted and
`hitDistance` lowered to the parameter of a triangle of `ts`, below `maxDistance`. -/
def Outcome (rayOrigin rayDir : Vec3 F) (maxDistance h0 : F) (ts : List (TriangleCombined F))
    (res : Bool × F) : Prop :=
  (res.1 = false ∧ res.2 = h0) ∨
  (res.1 = true ∧ res.2 < h0 ∧ res.2 < maxDistance ∧
    ∃ T ∈ ts, RayIntersectsTriangle rayOrigin rayDir T = some res.2)

/-- The brute-force scan of the claim: the triangles of the scene and a ray, and whether
some triangle is hit at a parameter `t < bound`. -/
def BruteForceHit (meshes : List (List (TriangleCombined F))) (rayOrigin rayDir : Vec3 F)
    (bound : F) : Prop :=
  ∃ mesh ∈ meshes, ∃ T ∈ mesh, ∃ t, RayIntersectsTriangle rayOrigin rayDir T = some t ∧ t < bound

/-- The direction `IsVisible` passes to the traversal, `point2 - point1` divided by
`distance`, when the squared length is in the float range. -/
def rayDirOf (sqrt : F → F) (point1 point2 : Vec3 F) : Vec3 F :=
  let rayDir := Subtract point2 point1
  let distance := sqrt (LengthSquared rayDir)
  ⟨rayDir.x / distance, rayDir.y / distance, rayDir.z / distance⟩

/-- The variable `distance` of `IsVisible` when the squared length is in the float range
(beyond it the source has `+inf`, see `IsVisible`). -/
def distanceOf (sqrt : F → F) (point1 point2 : Vec3 F) : F :=
  sqrt (LengthSquared (Subtract point2 point1))

/-! ## The demo scene of `main.cpp` -/

/-- The two ground triangles of `main.cpp` (lines 14-23). -/
def demoGround : List (TriangleCombined F) :=
  [⟨⟨-1000, 0, -1000⟩, ⟨1000, 0, -1000⟩, ⟨1000, 0, 1000⟩⟩,
   ⟨⟨-1000, 0, -1000⟩, ⟨1000, 0, 1000⟩, ⟨-1000, 0, 1000⟩⟩]

/-- The two wall triangles of `main.cpp` (lines 26-35). -/
def demoWall : List (TriangleCombined F) :=
  [⟨⟨-100, 0, 500⟩, ⟨100, 0, 500⟩, ⟨100, 1000, 500⟩⟩,
   ⟨⟨-100, 0, 500⟩, ⟨100, 1000, 500⟩, ⟨-100, 1000, 500⟩⟩]

/-- The scene as `main.cpp` builds it: one mesh holding the four triangles. -/
def mainScene : List (List (TriangleCombined F)) := [demoGround ++ demoWall]

/-- The scene as the spec describes it: the ground quad as one mesh, the wall as a second. -/
def demoScene : List (List (TriangleCombined F)) := [demoGround, demoWall]

/-- The six queries of the spec's end-to-end scenarios, as pairs `(point1, point2)`. -/
def demoQueries : List (Vec3 F × Vec3 F) :=
  [(⟨0, 100, 0⟩, ⟨0, 100, 200⟩), (⟨0, 100, 0⟩, ⟨0, 100, 1000⟩), (⟨0, 100, 0⟩, ⟨0, 100, 0⟩),
   (⟨0, 50, 400⟩, ⟨0, 50, 600⟩), (⟨0, 1500, 400⟩, ⟨0, 1500, 600⟩),
   (⟨500, 100, 0⟩, ⟨500, 100, 1000⟩)]

/-- The answers of `IsVisible` to the six queries on the engine that `LoadGeometry` makes
of `scene` (`true` is VISIBLE, `false` is BLOCKED). -/
def demoAnswers (S : StdSort F) (sqrt : F → F) (scene : List (List (TriangleCombined F))) :
    List Bool :=
  demoQueries.map (fun q => IsVisible sqrt (LoadGeometry S VisCheck.empty scene).2 q.1 q.2)

/-! ## Concrete scenes used as test inputs -/

/-- One triangle in the plane `z = 2^-24`, crossed by the z axis. -/
def nearWall : List (TriangleCombined ℚ) :=
  [⟨⟨-1, -1, 1 / 16777216⟩, ⟨1, -1, 1 / 16777216⟩, ⟨0, 1, 1 / 16777216⟩⟩]

/-- Six triangles along the x axis, more than one leaf holds. -/
def sixTriangles : List (TriangleCombined ℚ) :=
  [⟨⟨0, 0, 0⟩, ⟨1, 0, 0⟩, ⟨0, 1, 0⟩⟩, ⟨⟨5, 0, 0⟩, ⟨6, 0, 0⟩, ⟨5, 1, 0⟩⟩,
   ⟨⟨2, 0, 0⟩, ⟨3, 0, 0⟩, ⟨2, 1, 0⟩⟩, ⟨⟨4, 0, 0⟩, ⟨5, 0, 0⟩, ⟨4, 1, 0⟩⟩,
   ⟨⟨1, 0, 0⟩, ⟨2, 0, 0⟩, ⟨1, 1, 0⟩⟩, ⟨⟨3, 0, 0⟩, ⟨4, 0, 0⟩, ⟨3, 1, 0⟩⟩]

/-! ## The split axis -/

/-- The exact extent `bounds.max - bounds.min` on `axis`, which `extent` approximates. -/
def exactExtent (bounds : AABB F) (axis : Nat) : F :=
  if axis = 0 then bounds.max.x - bounds.min.x
  else if axis = 1 then bounds.max.y - bounds.min.y
  else bounds.max.z - bounds.min.z

/-- Five triangles whose bounds have the same extent on x and on y and none on z. -/
def tieTriangles : List (TriangleCombined ℚ) :=
  [⟨⟨0, 0, 0⟩, ⟨1, 0, 0⟩, ⟨0, 1, 0⟩⟩, ⟨⟨1, 1, 0⟩, ⟨1, 0, 0⟩, ⟨0, 1, 0⟩⟩,
   ⟨⟨0, 0, 0⟩, ⟨1, 0, 0⟩, ⟨1, 1, 0⟩⟩, ⟨⟨0, 0, 0⟩, ⟨1, 1, 0⟩, ⟨0, 1, 0⟩⟩,
   ⟨⟨0, 0, 0⟩, ⟨1, 0, 0⟩, ⟨0, 1, 0⟩⟩]

/-! ## Files and object representations

A file is the list of its bytes; a file that cannot be opened is `none`.  The platform is
the usual 64-bit little-endian one: `sizeof(size_t) = 8`, `sizeof(uint32_t) = 4`,
`sizeof(bool) = 1`, `sizeof(Vec3) = 12` (three floats, no padding).  The four bytes of a
`float` are given by a parameter, the codec.

An `std::ifstream` is the list of the bytes not yet read.  `in.read(p, n)` with `n` bytes
left copies them; with fewer bytes left it copies what is left, leaves the rest of the
object as it was and puts the stream in the failed state, in which every later read does
nothing: this is what reading from the empty list does.  The source never tests the stream
after a read.  When a read that falls short targets an uninitialised local variable
(`numMeshes`, `numTris`, `version`, `isNull`, `isLeaf`), the variable stays indeterminate
and the source goes on to use it, which is undefined behaviour: the readers then return
`none`.

Memory allocation is taken to succeed: no `std::bad_alloc` or `std::length_error` is
thrown, so the `catch` blocks of the loaders are not entered. -/

/-- A byte of a file. -/
abbrev Byte := Fin 256

/-- The object representation of an unsigned integer on `width` bytes, little-endian (the
value is reduced modulo `256 ^ width`). -/
def encodeLE : Nat → Nat → List Byte
  | 0, _ => []
  | width + 1, n => ⟨n % 256, Nat.mod_lt n (by decide)⟩ :: encodeLE width (n / 256)

/-- The unsigned integer whose little-endian object representation is the list. -/
def decodeLE : List Byte → Nat
  | [] => 0
  | b :: bs => b.val + 256 * decodeLE bs

/-- The object representation of `float`, taken as a parameter: the four bytes of a value
and the value four bytes stand for. -/
structure FloatCodec (F : Type) where
  toBytes : F → List Byte
  ofBytes : List Byte → F
  toBytes_length : ∀ x, (toBytes x).length = 4

/-- The value `x` is a float of the codec: its four bytes stand for it. -/
def FloatCodec.Exact (C : FloatCodec F) (x : F) : Prop := C.ofBytes (C.toBytes x) = x

/-- All nine coordinates of the triangle are floats of the codec. -/
def FloatCodec.ExactTriangle (C : FloatCodec F) (T : TriangleCombined F) : Prop :=
  ∀ v ∈ vertices T, C.Exact v.x ∧ C.Exact v.y ∧ C.Exact v.z

/-- Modelled from the spec: the value-initialised `Vec3` (`Types.h` is not part of the
sources): three zero floats. -/
def Vec3.zero : Vec3 F := ⟨0, 0, 0⟩

/-- A value-initialised `TriangleCombined`, as `std::vector::resize` makes them. -/
def TriangleCombined.zero : TriangleCombined F := ⟨Vec3.zero, Vec3.zero, Vec3.zero⟩

/-! ### Writing -/

/-- `out.write` of a `size_t`. -/
def writeSizeT (n : Nat) : List Byte := encodeLE 8 n

/-- `out.write` of a `uint32_t`. -/
def writeUInt32 (n : Nat) : List Byte := encodeLE 4 n

/-- `out.write` of a `bool`. -/
def writeBool (b : Bool) : List Byte := [if b then 1 else 0]

/-- `out.write` of a `Vec3`. -/
def writeVec3 (C : FloatCodec F) (v : Vec3 F) : List Byte :=
  C.toBytes v.x ++ C.toBytes v.y ++ C.toBytes v.z

/-- The three `out.write` calls for one triangle (`v0`, `v1`, `v2`). -/
def writeTriangle (C : FloatCodec F) (T : TriangleCombined F) : List Byte :=
  writeVec3 C T.v0 ++ writeVec3 C T.v1 ++ writeVec3 C T.v2

/-- The loop writing the triangles of a list. -/
def writeTriangles (C : FloatCodec F) : List (TriangleCombined F) → List Byte
  | [] => []
  | T :: ts => writeTriangle C T ++ writeTriangles C ts

/-! ### Reading -/

/-- `in.read` of `n` bytes into an object whose bytes were `old`: the bytes of the object
after the read and the stream after the read. -/
def readBytes (n : Nat) (old : List Byte) (data : List Byte) : List Byte × List Byte :=
  if n ≤ data.length then (data.take n, data.drop n) else (data ++ old.drop data.length, [])

/-- `in.read` into an uninitialised unsigned integer of `n` bytes that is used afterwards. -/
def readUInt (n : Nat) (data : List Byte) : Option (Nat × List Byte) :=
  if n ≤ data.length then some (decodeLE (data.take n), data.drop n) else none

/-- `in.read` into an uninitialised `bool` that is used afterwards; a byte other than `0`
reads as true. -/
def readBool (data : List Byte) : Option (Bool × List Byte) :=
  match data with
  | [] => none
  | b :: rest => some (decide (b ≠ 0), rest)

/-- `in.read` into a `size_t` that held `old`. -/
def readSizeTInto (old : Nat) (data : List Byte) : Nat × List Byte :=
  (decodeLE (readBytes 8 (encodeLE 8 old) data).1, (readBytes 8 (encodeLE 8 old) data).2)

/-- The part of `in.read` into a `Vec3` that fills one `float` which held `old`. -/
def readFloat (C : FloatCodec F) (old : F) (data : List Byte) : F × List Byte :=
  if data = [] then (old, [])
  else (C.ofBytes (readBytes 4 (C.toBytes old) data).1, (readBytes 4 (C.toBytes old) data).2)

/-- `in.read` of `sizeof(Vec3)` bytes into a `Vec3` that held `old`. -/
def readVec3 (C : FloatCodec F) (old : Vec3 F) (data : List Byte) : Vec3 F × List Byte :=
  let rx := readFloat C old.x data
  let ry := readFloat C old.y rx.2
  let rz := readFloat C old.z ry.2
  (⟨rx.1, ry.1, rz.1⟩, rz.2)

/-- The three `in.read` calls for one triangle that held `old`. -/
def readTriangle (C : FloatCodec F) (old : TriangleCombined F) (data : List Byte) :
    TriangleCombined F × List Byte :=
  let r0 := readVec3 C old.v0 data
  let r1 := readVec3 C old.v1 r0.2
  let r2 := readVec3 C old.v2 r1.2
  (⟨r0.1, r1.1, r2.1⟩, r2.2)

/-- `mesh.resize(numTris)` followed by the loop reading `numTris` triangles. -/
def readTriangles (C : FloatCodec F) : Nat → List Byte → List (TriangleCombined F) × List Byte
  | 0, data => ([], data)
  | n + 1, data =>
    let r := readTriangle C TriangleCombined.zero data
    let rs := readTriangles C n r.2
    (r.1 :: rs.1, rs.2)

/-! ## The BVH cache file -/

/-- `VisCheck::SerializeBVHNode`: the bytes it writes. -/
def SerializeBVHNode (C : FloatCodec F) : BVHNode F → List Byte
  | .null => writeBool true
  | .node bounds left right triangles =>
    writeBool false ++ writeVec3 C bounds.min ++ writeVec3 C bounds.max ++
      writeBool (IsLeaf left right) ++
      (if IsLeaf left right then writeSizeT triangles.length ++ writeTriangles C triangles
       else SerializeBVHNode C left ++ SerializeBVHNode C right)

/-- `VisCheck::DeserializeBVHNode`: the pointer it returns and the stream after the call.
Every call reads at least one byte before it calls itself, so a recursion depth of
`fuel = number of bytes left + 1` is never exceeded; `none` is undefined behaviour (an
uninitialised variable is used after a read that fell short). -/
def DeserializeBVHNode (C : FloatCodec F) : Nat → List Byte → Option (BVHNode F × List Byte)
  | 0, _ => none
  | fuel + 1, data =>
    match readBool data with
    | none => none
    | some (isNull, d1) =>
      if isNull then some (.null, d1)
      else
        let rmin := readVec3 C Vec3.zero d1
        let rmax := readVec3 C Vec3.zero rmin.2
        match readBool rmax.2 with
        | none => none
        | some (isLeaf, d4) =>
          if isLeaf then
            match readUInt 8 d4 with
            | none => none
            | some (numTris, d5) =>
              let rt := readTriangles C numTris d5
              some (.node ⟨rmin.1, rmax.1⟩ .null .null rt.1, rt.2)
          else
            match DeserializeBVHNode C fuel d4 with
            | none => none
            | some (left, d5) =>
              match DeserializeBVHNode C fuel d5 with
              | none => none
              | some (right, d6) => some (.node ⟨rmin.1, rmax.1⟩ left right [], d6)

/-- The loop of `SaveBVHCache` writing one triangle count per mesh (lines 362-365). -/
def writeCounts : List (List (TriangleCombined F)) → List Byte
  | [] => []
  | mesh :: rest => writeSizeT mesh.length ++ writeCounts rest

/-- The loop of `SaveBVHCache` writing the trees (lines 367-369). -/
def writeTrees (C : FloatCodec F) : List (BVHNode F) → List Byte
  | [] => []
  | root :: rest => SerializeBVHNode C root ++ writeTrees C rest

/-- The bytes `SaveBVHCache` writes to the file it created. -/
def cacheFileBytes (C : FloatCodec F) (e : VisCheck F) : List Byte :=
  writeUInt32 1 ++ writeSizeT e.meshes.length ++ writeCounts e.meshes ++ writeTrees C e.bvhNodes

/-- `VisCheck::SaveBVHCache` (and `SaveBVHToFile`, which only calls it): the returned `bool`
and the file; `created` tells whether the file could be created. -/
def SaveBVHCache (C : FloatCodec F) (e : VisCheck F) (created : Bool) :
    Bool × Option (List Byte) :=
  if !created then (false, none) else (true, some (cacheFileBytes C e))

/-- The loop of `LoadBVHCache` reading the triangle counts into the zero-filled vector
`triangleCounts` (lines 419-423). -/
def readCounts : Nat → List Byte → List Nat × List Byte
  | 0, data => ([], data)
  | n + 1, data =>
    let r := readSizeTInto 0 data
    let rs := readCounts n r.2
    (r.1 :: rs.1, rs.2)

/-- The loop of `LoadBVHCache` reading the trees (lines 426-434), `n` trees to go: whether
it ran to its end (false: it met a null root and `LoadBVHCache` returns false there),
`bvhNodes` and the stream. -/
def readTrees (C : FloatCodec F) :
    Nat → List (BVHNode F) → List Byte → Option (Bool × List (BVHNode F) × List Byte)
  | 0, bvhNodes, data => some (true, bvhNodes, data)
  | n + 1, bvhNodes, data =>
    match DeserializeBVHNode C (data.length + 1) data with
    | none => none
    | some (.null, d1) => some (false, bvhNodes, d1)
    | some (.node b l r ts, d1) => readTrees C n (bvhNodes ++ [.node b l r ts]) d1

/-- Lines 436-450 of `VisCheck.cpp`: `meshes.resize(numMeshes)` and, for each index below
`bvhNodes.size()`, the triangles extracted from that tree (`none`: an index beyond
`numMeshes`). -/
def meshesFromTrees (numMeshes : Nat) (bvhNodes : List (BVHNode F)) :
    Option (List (List (TriangleCombined F))) :=
  if bvhNodes.length ≤ numMeshes then
    some (bvhNodes.map extractTriangles ++ List.replicate (numMeshes - bvhNodes.length) [])
  else none

/-- `VisCheck::LoadBVHCache`: the returned `bool`, the engine and the reference parameter
`meshCount` after the call. -/
def LoadBVHCache (C : FloatCodec F) (e : VisCheck F) (file : Option (List Byte))
    (meshCount : Nat) : Option (Bool × VisCheck F × Nat) :=
  match file with
  | none => some (false, e, meshCount)
  | some data =>
    match readUInt 4 data with
    | none => none
    | some (version, d1) =>
      if version ≠ 1 then some (false, e, meshCount)
      else
        match readUInt 8 d1 with
        | none => none
        | some (numMeshes, d2) =>
          if numMeshes = 0 then some (false, e, numMeshes)
          else
            let counts := readCounts numMeshes d2
            match readTrees C numMeshes [] counts.2 with
            | none => none
            | some (false, bvhNodes, _) =>
              some (false, { e with bvhNodes := bvhNodes }, numMeshes)
            | some (true, bvhNodes, _) =>
              match meshesFromTrees numMeshes bvhNodes with
              | none => none
              | some meshes =>
                some (true, { e with meshes := meshes, bvhNodes := bvhNodes }, numMeshes)

/-- `VisCheck::LoadBVHFromFile`: the returned `bool` and the engine after the call. -/
def LoadBVHFromFile (C : FloatCodec F) (e : VisCheck F) (file : Option (List Byte)) :
    Option (Bool × VisCheck F) :=
  match LoadBVHCache C e file 0 with
  | none => none
  | some (ok, e1, meshCount) =>
    if ok then (if meshCount = e1.meshes.length then some (true, e1) else some (false, e1))
    else some (false, e1)

/-! ## The raw geometry file -/

/-- The loop of `LoadFromOptFile` over the meshes (lines 237-258), `n` meshes to go: the
state is `meshes`, `bvhNodes` and the stream. -/
def readMeshesBuild (S : StdSort F) (C : FloatCodec F) :
    Nat → List (List (TriangleCombined F)) → List (BVHNode F) → List Byte →
      Option (List (List (TriangleCombined F)) × List (BVHNode F) × List Byte)
  | 0, meshes, bvhNodes, data => some (meshes, bvhNodes, data)
  | n + 1, meshes, bvhNodes, data =>
    match readUInt 8 data with
    | none => none
    | some (numTris, d1) =>
      if numTris = 0 then readMeshesBuild S C n meshes bvhNodes d1
      else
        let rt := readTriangles C numTris d1
        readMeshesBuild S C n (meshes ++ [rt.1]) (bvhNodes ++ [BuildBVH S rt.1]) rt.2

/-- `VisCheck::LoadFromOptFile` (and `LoadOptFile`, which only calls it): the returned
`bool` and the engine after the call, for the runs of the `try` block in which nothing is
thrown.  The `catch` blocks, which return false, are not part of the embedding: the only
statements that can throw are the allocations (`mesh.resize(numTris)`, `push_back`,
`BuildBVH`), and they are taken to succeed.  A read that falls short does not throw. -/
def LoadFromOptFile (S : StdSort F) (C : FloatCodec F) (e : VisCheck F)
    (file : Option (List Byte)) : Option (Bool × VisCheck F) :=
  match file with
  | none => some (false, e)
  | some data =>
    match readUInt 8 data with
    | none => none
    | some (numMeshes, d1) =>
      if numMeshes = 0 then some (false, { e with meshes := [], bvhNodes := [] })
      else
        match readMeshesBuild S C numMeshes [] [] d1 with
        | none => none
        | some (meshes, bvhNodes, _) =>
          some (decide (meshes.length > 0) && decide (bvhNodes.length > 0),
            { meshes := meshes, bvhNodes := bvhNodes,
              geometryLoaded := decide (meshes.length > 0) && decide (bvhNodes.length > 0) })

/-- The data member of class `OptimizedGeometry`. -/
structure OptimizedGeometry (F : Type) where
  meshes : List (List (TriangleCombined F))

/-- The loop of `CreateOptimizedFile` over the meshes (lines 22-32). -/
def writeMeshes (C : FloatCodec F) : List (List (TriangleCombined F)) → List Byte
  | [] => []
  | mesh :: rest => writeSizeT mesh.length ++ writeTriangles C mesh ++ writeMeshes C rest

/-- The bytes `CreateOptimizedFile` writes to the file it created (lines 19-32). -/
def optFileBytes (C : FloatCodec F) (meshes : List (List (TriangleCombined F))) : List Byte :=
  writeSizeT meshes.length ++ writeMeshes C meshes

/-- `OptimizedGeometry::CreateOptimizedFile`: the returned `bool`, the object and the file.
`parsed` is what `Parser::GetCombinedList` returns (`Parser.h` is not part of the sources)
and `created` tells whether the output file could be created. -/
def OptimizedGeometry.CreateOptimizedFile (C : FloatCodec F)
    (parsed : List (List (TriangleCombined F))) (created : Bool) :
    Bool × OptimizedGeometry F × Option (List Byte) :=
  if !created then (false, { meshes := parsed }, none)
  else (true, { meshes := parsed }, some (optFileBytes C parsed))

/-- The loop of `OptimizedGeometry::LoadFromFile` over the meshes (lines 49-63). -/
def readMeshes (C : FloatCodec F) :
    Nat → List (List (TriangleCombined F)) → List Byte →
      Option (List (List (TriangleCombined F)) × List Byte)
  | 0, meshes, data => some (meshes, data)
  | n + 1, meshes, data =>
    match readUInt 8 data with
    | none => none
    | some (numTris, d1) =>
      let rt := readTriangles C numTris d1
      readMeshes C n (meshes ++ [rt.1]) rt.2

/-- `OptimizedGeometry::LoadFromFile`: the returned `bool` and the object after the call. -/
def OptimizedGeometry.LoadFromFile (C : FloatCodec F) (og : OptimizedGeometry F)
    (file : Option (List Byte)) : Option (Bool × OptimizedGeometry F) :=
  match file with
  | none => some (false, og)
  | some data =>
    match readUInt 8 data with
    | none => none
    | some (numMeshes, d1) =>
      match readMeshes C numMeshes [] d1 with
      | none => none
      | some (meshes, _) => some (true, { meshes := meshes })

/-- The three coordinates of the vector are floats of the codec. -/
def FloatCodec.ExactVec3 (C : FloatCodec F) (v : Vec3 F) : Prop :=
  C.Exact v.x ∧ C.Exact v.y ∧ C.Exact v.z

/-- A tree that a cache file can hold as it is: the bounds and the leaf triangles are
floats of the codec, a leaf holds fewer than `2^64` triangles, and a node with a child
holds no triangles (the file has no place for them). -/
def Storable (C : FloatCodec F) : BVHNode F → Prop
  | .null => True
  | .node bounds left right triangles =>
    C.ExactVec3 bounds.min ∧ C.ExactVec3 bounds.max ∧
    (IsLeaf left right = true →
      triangles.length < 2 ^ 64 ∧ ∀ T ∈ triangles, C.ExactTriangle T) ∧
    (IsLeaf left right = false → triangles = []) ∧
    Storable C left ∧ Storable C right

/-- A codec on the rationals used for test inputs: a natural number below `2^32` is stored
as its four little-endian bytes (other values are not floats of this codec). -/
def natCodec : FloatCodec ℚ where
  toBytes x := encodeLE 4 x.num.toNat
  ofBytes bs := (decodeLE bs : ℚ)
  toBytes_length x := by simp [encodeLE]

/-! ## Measures of a tree -/

/-- The height of a tree: `0` for a leaf, one more than the higher child for an internal
node (a null pointer counts `0`). -/
def height : BVHNode F → Nat
  | .null => 0
  | .node _ left right _ =>
    if IsLeaf left right then 0 else 1 + max (height left) (height right)

/-- The triangle lists of the leaves of a tree, one entry for each leaf, from left to
right. -/
def leafLists : BVHNode F → List (List (TriangleCombined F))
  | .null => []
  | .node _ left right triangles =>
    if IsLeaf left right then [triangles] else leafLists left ++ leafLists right

/-- The number of internal nodes of a tree: the nodes that are not leaves. -/
def internalCount : BVHNode F → Nat
  | .null => 0
  | .node _ left right _ =>
    if IsLeaf left right then 0 else 1 + internalCount left + internalCount right

/-- `VisCheck::BuildBVH` run with at most `depth` nested calls: `none` when the recursion of
the source would go deeper.  The recursion is the one of `BuildBVH`; nothing about the sort
is needed to define it. -/
def BuildBVHWithin (S : StdSort F) : Nat → List (TriangleCombined F) → Option (BVHNode F)
  | 0, _ => none
  | _ + 1, [] => some (.node ⟨⟨0, 0, 0⟩, ⟨0, 0, 0⟩⟩ .null .null [])
  | depth + 1, first :: rest =>
    let bounds := computeBounds first rest
    if (first :: rest).length ≤ LEAF_THRESHOLD then
      some (.node bounds .null .null (first :: rest))
    else
      let axis := splitAxis S.fpu bounds
      let sortedTris := S.sort axis (first :: rest)
      let mid := sortedTris.length / 2
      match BuildBVHWithin S depth (sortedTris.take mid),
          BuildBVHWithin S depth (sortedTris.drop mid) with
      | some left, some right => some (.node bounds left right [])
      | _, _ => none

/-- The hit parameters a leaf loop may accept: the `t` of the triangles of `ts`, in order,
for which `RayIntersectsTriangle` succeeds with `t < maxDistance`. -/
def hitParams (rayOrigin rayDir : Vec3 F) (maxDistance : F) (ts : List (TriangleCombined F)) :
    List F :=
  ts.filterMap (fun tri =>
    match RayIntersectsTriangle rayOrigin rayDir tri with
    | some t => if t < maxDistance then some t else none
    | none => none)

/-- Nine copies of one triangle: all centroids are equal on every axis. -/
def sameTriangles : List (TriangleCombined ℚ) :=
  List.replicate 9 ⟨⟨0, 0, 0⟩, ⟨1, 0, 0⟩, ⟨0, 1, 0⟩⟩

/-- A wall far from the origin, in the plane `x = k·2^124`. -/
def hugeWall (k : ℚ) : TriangleCombined ℚ :=
  ⟨⟨k * 21267647932558653966460912964485513216, 0, 0⟩,
   ⟨k * 21267647932558653966460912964485513216, 1, 0⟩,
   ⟨k * 21267647932558653966460912964485513216, 0, 1⟩⟩

/-- Five walls at `x = 1.75·2^127, 1.5·2^127, 1.25·2^127, 1.125·2^127, 1.875·2^127`:
the float sum `aabb.min.x + aabb.max.x` of each overflows. -/
def hugeTriangles : List (TriangleCombined ℚ) :=
  [hugeWall 14, hugeWall 12, hugeWall 10, hugeWall 9, hugeWall 15]

/-- The wall behind the observer, in the plane `z = -200`. -/
def backWall : TriangleCombined ℚ := ⟨⟨-8, -4, -200⟩, ⟨8, -4, -200⟩, ⟨-8, 4, -200⟩⟩

/-- A wall in the plane `z`, whose least `x` coordinate is `2^-125`. -/
def sliverWall (z : ℚ) : TriangleCombined ℚ :=
  ⟨⟨1 / 42535295865117307932921825928971026432, -4, z⟩, ⟨8, -4, z⟩,
   ⟨1 / 42535295865117307932921825928971026432, 4, z⟩⟩

/-- One mesh: the wall behind the observer and a wall in the plane `z = 64`. -/
def sparseScene : List (List (TriangleCombined ℚ)) := [[backWall, sliverWall 64]]

/-- The mesh of `sparseScene` with three more walls, at `z = -100`, `200` and `300`. -/
def denseScene : List (List (TriangleCombined ℚ)) :=
  [[backWall, sliverWall (-100), sliverWall 64, sliverWall 200, sliverWall 300]]

/-- The target `(2^-123, 0, 128)`. -/
def grazingTarget : Vec3 ℚ := ⟨1 / 10633823966279326983230456482242756608, 0, 128⟩

end Defs

section Theorems

variable {F : Type} [LinearOrderedField F]

open Vec3Helpers

/-! ## Constants -/

theorem FLT_MAX_pos : (0 : F) < FLT_MAX := by
  unfold FLT_MAX; norm_num

theorem EPSILON_pos : (0 : F) < EPSILON := by
  unfold EPSILON; norm_num

theorem EPSILON_gt : (1e-7 : F) < EPSILON := by
  unfold EPSILON; norm_num

theorem OVERFLOW_pos : (0 : F) < OVERFLOW := by
  unfold OVERFLOW; norm_num

theorem FLT_MAX_lt_OVERFLOW : (FLT_MAX : F) < OVERFLOW := by
  unfold FLT_MAX OVERFLOW; norm_num

theorem MIN_DISTANCE_pos : (0 : F) < MIN_DISTANCE := by
  unfold MIN_DISTANCE; norm_num

theorem MIN_DISTANCE_gt : (0.001 : F) < MIN_DISTANCE := by
  unfold MIN_DISTANCE; norm_num

/-! ## The slab test -/

theorem mul_pinf_nonpos (x : F) (h : x ≤ 0) :
    Flt.mul (Flt.fin x) Flt.pinf = Flt.nan ∨ Flt.mul (Flt.fin x) Flt.pinf = Flt.ninf := by
  simp only [Flt.mul]
  split_ifs with h0 h1
  · exact Or.inl rfl
  · exact absurd h1 (not_lt.mpr h)
  · exact Or.inr rfl

theorem mul_pinf_nonneg (x : F) (h : 0 ≤ x) :
    Flt.mul (Flt.fin x) Flt.pinf = Flt.nan ∨ Flt.mul (Flt.fin x) Flt.pinf = Flt.pinf := by
  simp only [Flt.mul]
  split_ifs with h0 h1
  · exact Or.inl rfl
  · exact Or.inr rfl
  · exact absurd (lt_of_le_of_ne h (Ne.symm h0)) h1

theorem mul_ninf_nonpos (x : F) (h : x ≤ 0) :
    Flt.mul (Flt.fin x) Flt.ninf = Flt.nan ∨ Flt.mul (Flt.fin x) Flt.ninf = Flt.pinf := by
  simp only [Flt.mul]
  split_ifs with h0 h1
  · exact Or.inl rfl
  · exact absurd h1 (not_lt.mpr h)
  · exact Or.inr rfl

theorem mul_ninf_nonneg (x : F) (h : 0 ≤ x) :
    Flt.mul (Flt.fin x) Flt.ninf = Flt.nan ∨ Flt.mul (Flt.fin x) Flt.ninf = Flt.ninf := by
  simp only [Flt.mul]
  split_ifs with h0 h1
  · exact Or.inl rfl
  · exact Or.inr rfl
  · exact absurd (lt_of_le_of_ne h (Ne.symm h0)) h1

theorem lt_pinf_fin (x : F) : Flt.lt (Flt.pinf : Flt F) (Flt.fin x) = false := rfl

theorem lt_ninf_fin (x : F) : Flt.lt (Flt.ninf : Flt F) (Flt.fin x) = true := rfl


theorem lt_fin_fin (a b : F) : Flt.lt (Flt.fin a) (Flt.fin b) = decide (a < b) := rfl

theorem mul_fin_fin (a b : F) : Flt.mul (Flt.fin a) (Flt.fin b) = Flt.fin (a * b) := rfl

theorem stdMax_fin_fin (a b : F) : Flt.stdMax (Flt.fin a) (Flt.fin b) = Flt.fin (max a b) := by
  simp only [Flt.stdMax, lt_fin_fin]
  by_cases h : a < b
  · simp [h, max_eq_right (le_of_lt h)]
  · simp [h, max_eq_left (not_lt.mp h)]

theorem stdMin_fin_fin (a b : F) : Flt.stdMin (Flt.fin a) (Flt.fin b) = Flt.fin (min a b) := by
  simp only [Flt.stdMin, lt_fin_fin]
  by_cases h : b < a
  · simp [h, min_eq_right (le_of_lt h)]
  · simp [h, min_eq_left (not_lt.mp h)]

/-- The value of `1.0f / d`: an infinity, or the exact quotient of a non-zero `d` when it
does not overflow. -/
theorem recip_cases (negz : Bool) (d : F) :
    (Flt.recip negz d = Flt.pinf ∨ Flt.recip negz d = Flt.ninf) ∨
    (d ≠ 0 ∧ ¬ OVERFLOW ≤ 1 / d ∧ ¬ 1 / d ≤ -OVERFLOW ∧ Flt.recip negz d = Flt.fin (1 / d)) := by
  unfold Flt.recip
  by_cases hd : d = 0
  · left
    rw [if_pos hd]
    cases negz
    · exact Or.inl rfl
    · exact Or.inr rfl
  · rw [if_neg hd]
    by_cases h1 : OVERFLOW ≤ 1 / d
    · rw [if_pos h1]; exact Or.inl (Or.inl rfl)
    · rw [if_neg h1]
      by_cases h2 : 1 / d ≤ -OVERFLOW
      · rw [if_pos h2]; exact Or.inl (Or.inr rfl)
      · rw [if_neg h2]; exact Or.inr ⟨hd, h1, h2, rfl⟩

theorem recip_of_exact (negz : Bool) (d : F) (hd : d ≠ 0) (h : RecipExact d) :
    Flt.recip negz d = Flt.fin (1 / d) := by
  rcases h with h | ⟨h1, h2⟩
  · exact absurd h hd
  · unfold Flt.recip
    rw [if_neg hd, if_neg (not_le.mpr h2), if_neg (not_le.mpr h1)]

/-- A slab step whose quotient is an infinity leaves the interval as it is when the origin
lies in the slab. -/
theorem slabAxis_inf (negz : Bool) (mn mx o d lo hi : F) (e1 : mn - o ≤ 0) (e2 : 0 ≤ mx - o)
    (hr : Flt.recip negz d = Flt.pinf ∨ Flt.recip negz d = Flt.ninf) :
    AABB.slabAxis negz mn mx o d (Flt.fin lo, Flt.fin hi) = (Flt.fin lo, Flt.fin hi) := by
  have m1 := mul_pinf_nonpos (mn - o) e1
  have m2 := mul_pinf_nonneg (mx - o) e2
  have m3 := mul_ninf_nonpos (mn - o) e1
  have m4 := mul_ninf_nonneg (mx - o) e2
  rcases hr with hr | hr
  · simp only [AABB.slabAxis, hr, lt_pinf_fin, Bool.false_eq_true, if_false]
    rcases m1 with m1 | m1 <;> rcases m2 with m2 | m2 <;> rw [m1, m2] <;>
      simp [Flt.stdMax, Flt.stdMin, Flt.lt]
  · simp only [AABB.slabAxis, hr, lt_ninf_fin, if_true]
    rcases m3 with m3 | m3 <;> rcases m4 with m4 | m4 <;> rw [m3, m4] <;>
      simp [Flt.stdMax, Flt.stdMin, Flt.lt]

/-- One slab step keeps a finite interval around a parameter `t` whose point is inside the
slab, when `t = 0` or the quotient `1.0f / d` does not overflow. -/
theorem slabAxis_keeps (negz : Bool) (mn mx o d t lo hi : F)
    (h1 : mn ≤ o + t * d) (h2 : o + t * d ≤ mx) (hlo : lo ≤ t) (hhi : t ≤ hi)
    (hfin : t = 0 ∨ RecipExact d) :
    ∃ lo2 hi2, AABB.slabAxis negz mn mx o d (Flt.fin lo, Flt.fin hi) = (Flt.fin lo2, Flt.fin hi2)
      ∧ lo2 ≤ t ∧ t ≤ hi2 := by
  rcases recip_cases negz d with hinf | ⟨hd, _, _, hr⟩
  · have hz : t * d = 0 := by
      rcases hfin with h0 | hre
      · rw [h0, zero_mul]
      · by_cases hd : d = 0
        · rw [hd, mul_zero]
        · rw [recip_of_exact negz d hd hre] at hinf
          rcases hinf with h | h <;> cases h
    rw [hz, add_zero] at h1 h2
    exact ⟨lo, hi, slabAxis_inf negz mn mx o d lo hi (by linarith) (by linarith) hinf, hlo, hhi⟩
  · rcases lt_or_gt_of_ne hd with hneg | hpos
    · have hinv : (1 : F) / d < 0 := one_div_neg.mpr hneg
      have k1 : (mx - o) * (1 / d) ≤ t := by
        rw [mul_one_div, div_le_iff_of_neg hneg]; linarith
      have k2 : t ≤ (mn - o) * (1 / d) := by
        rw [mul_one_div, le_div_iff_of_neg hneg]; linarith
      refine ⟨max lo ((mx - o) * (1 / d)), min hi ((mn - o) * (1 / d)), ?_,
        max_le hlo k1, le_min hhi k2⟩
      simp only [AABB.slabAxis, hr, mul_fin_fin, lt_fin_fin,
        decide_eq_true hinv, if_true, stdMax_fin_fin, stdMin_fin_fin]
    · have hinv : ¬ (1 : F) / d < 0 := not_lt.mpr (le_of_lt (one_div_pos.mpr hpos))
      have k1 : (mn - o) * (1 / d) ≤ t := by
        rw [mul_one_div, div_le_iff₀ hpos]; linarith
      have k2 : t ≤ (mx - o) * (1 / d) := by
        rw [mul_one_div, le_div_iff₀ hpos]; linarith
      refine ⟨max lo ((mn - o) * (1 / d)), min hi ((mx - o) * (1 / d)), ?_,
        max_le hlo k1, le_min hhi k2⟩
      simp only [AABB.slabAxis, hr, mul_fin_fin, lt_fin_fin,
        decide_eq_false hinv, Bool.false_eq_true, if_false, stdMax_fin_fin, stdMin_fin_fin]

/-- The slab test accepts every ray that reaches a point of the box at a parameter `t` in
`[0, FLT_MAX]`, when `t = 0` or no quotient `1.0f / rayDirArr[i]` overflows. -/
theorem RayIntersectsSigned_of_point (nx ny nz : Bool) (b : AABB F) (o d : Vec3 F) (t : F)
    (ht0 : 0 ≤ t) (htM : t ≤ FLT_MAX) (hfin : t = 0 ∨ DirExact d)
    (hx1 : b.min.x ≤ o.x + t * d.x) (hx2 : o.x + t * d.x ≤ b.max.x)
    (hy1 : b.min.y ≤ o.y + t * d.y) (hy2 : o.y + t * d.y ≤ b.max.y)
    (hz1 : b.min.z ≤ o.z + t * d.z) (hz2 : o.z + t * d.z ≤ b.max.z) :
    AABB.RayIntersectsSigned nx ny nz b o d = true := by
  have hM : (0 : F) < FLT_MAX := FLT_MAX_pos
  have fx : t = 0 ∨ RecipExact d.x := hfin.imp id (fun h => h.1)
  have fy : t = 0 ∨ RecipExact d.y := hfin.imp id (fun h => h.2.1)
  have fz : t = 0 ∨ RecipExact d.z := hfin.imp id (fun h => h.2.2)
  obtain ⟨l1, u1, e1, a1, b1⟩ := slabAxis_keeps nx b.min.x b.max.x o.x d.x t (-FLT_MAX) FLT_MAX
    hx1 hx2 (by linarith) htM fx
  obtain ⟨l2, u2, e2, a2, b2⟩ :=
    slabAxis_keeps ny b.min.y b.max.y o.y d.y t l1 u1 hy1 hy2 a1 b1 fy
  obtain ⟨l3, u3, e3, a3, b3⟩ :=
    slabAxis_keeps nz b.min.z b.max.z o.z d.z t l2 u2 hz1 hz2 a2 b2 fz
  simp only [AABB.RayIntersectsSigned, e1, e2, e3, Flt.ge, Bool.and_eq_true, decide_eq_true_eq]
  exact ⟨le_trans a3 b3, le_trans ht0 b3⟩

/-! ## The ray/triangle test -/

theorem RayIntersectsTriangle_eq_some (o d : Vec3 F) (T : TriangleCombined F) (t : F) :
    RayIntersectsTriangle o d T = some t ↔
      (¬ (detA d T > -EPSILON ∧ detA d T < EPSILON)) ∧ 0 ≤ baryU o d T ∧ baryU o d T ≤ 1 ∧
      0 ≤ baryV o d T ∧ baryU o d T + baryV o d T ≤ 1 ∧ EPSILON < paramT o d T ∧
      t = paramT o d T := by
  simp only [RayIntersectsTriangle, baryU, baryV, paramT, detA]
  constructor
  · intro h
    split_ifs at h with h1 h2 h3 h4
    push_neg at h2 h3
    exact ⟨h1, h2.1, h2.2, h3.1, h3.2, h4, (Option.some.inj h).symm⟩
  · rintro ⟨h1, h2, h3, h4, h5, h6, h7⟩
    rw [if_neg h1, if_neg (by push_neg; exact ⟨h2, h3⟩), if_neg (by push_neg; exact ⟨h4, h5⟩),
      if_pos h6, h7]

theorem detA_ne_zero (d : Vec3 F) (T : TriangleCombined F)
    (h : ¬ (detA d T > -EPSILON ∧ detA d T < EPSILON)) : detA d T ≠ 0 := by
  intro h0
  apply h
  rw [h0]
  have hp : (0 : F) < EPSILON := EPSILON_pos
  exact ⟨by linarith, hp⟩

/-- Cramer's rule behind Moller-Trumbore: the hit point in barycentric form. -/
theorem hit_point (o d : Vec3 F) (T : TriangleCombined F) (ha : detA d T ≠ 0) :
    o.x + paramT o d T * d.x
        = T.v0.x + baryU o d T * (T.v1.x - T.v0.x) + baryV o d T * (T.v2.x - T.v0.x) ∧
    o.y + paramT o d T * d.y
        = T.v0.y + baryU o d T * (T.v1.y - T.v0.y) + baryV o d T * (T.v2.y - T.v0.y) ∧
    o.z + paramT o d T * d.z
        = T.v0.z + baryU o d T * (T.v1.z - T.v0.z) + baryV o d T * (T.v2.z - T.v0.z) := by
  unfold paramT baryU baryV
  refine ⟨?_, ?_, ?_⟩ <;>
  · field_simp
    simp only [detA, Dot, Cross, Subtract]
    ring

/-! ## The builder -/

theorem BuildBVH_leaf (S : StdSort F) (first : TriangleCombined F)
    (rest : List (TriangleCombined F)) (h : (first :: rest).length ≤ LEAF_THRESHOLD) :
    BuildBVH S (first :: rest)
      = .node (computeBounds first rest) .null .null (first :: rest) := by
  rw [BuildBVH]
  simp only [if_pos h]

theorem BuildBVH_split (S : StdSort F) (first : TriangleCombined F)
    (rest : List (TriangleCombined F)) (h : ¬ (first :: rest).length ≤ LEAF_THRESHOLD) :
    BuildBVH S (first :: rest)
      = .node (computeBounds first rest)
          (BuildBVH S ((S.sort (splitAxis S.fpu (computeBounds first rest)) (first :: rest)).take
            ((S.sort (splitAxis S.fpu (computeBounds first rest)) (first :: rest)).length / 2)))
          (BuildBVH S ((S.sort (splitAxis S.fpu (computeBounds first rest)) (first :: rest)).drop
            ((S.sort (splitAxis S.fpu (computeBounds first rest)) (first :: rest)).length / 2)))
          [] := by
  rw [BuildBVH]
  simp only [if_neg h]

/-- Induction along the recursion of `BuildBVH` on non-empty lists. -/
theorem BuildBVH_induct (S : StdSort F) (P : List (TriangleCombined F) → BVHNode F → Prop)
    (hleaf : ∀ first rest, (first :: rest).length ≤ LEAF_THRESHOLD →
      P (first :: rest) (.node (computeBounds first rest) .null .null (first :: rest)))
    (hsplit : ∀ first rest l r, ¬ (first :: rest).length ≤ LEAF_THRESHOLD →
      l = (S.sort (splitAxis S.fpu (computeBounds first rest)) (first :: rest)).take
            ((S.sort (splitAxis S.fpu (computeBounds first rest)) (first :: rest)).length / 2) →
      r = (S.sort (splitAxis S.fpu (computeBounds first rest)) (first :: rest)).drop
            ((S.sort (splitAxis S.fpu (computeBounds first rest)) (first :: rest)).length / 2) →
      l ≠ [] → r ≠ [] → l.length = (first :: rest).length / 2 →
      List.Perm (l ++ r) (first :: rest) →
      P l (BuildBVH S l) → P r (BuildBVH S r) →
      P (first :: rest) (.node (computeBounds first rest) (BuildBVH S l) (BuildBVH S r) []))
    (tris : List (TriangleCombined F)) (hne : tris ≠ []) : P tris (BuildBVH S tris) := by
  obtain ⟨n, hn⟩ : ∃ n, tris.length = n := ⟨_, rfl⟩
  induction n using Nat.strong_induction_on generalizing tris with
  | _ n ih =>
    cases tris with
    | nil => exact absurd rfl hne
    | cons first rest =>
      by_cases h : (first :: rest).length ≤ LEAF_THRESHOLD
      · rw [BuildBVH_leaf S first rest h]
        exact hleaf first rest h
      · rw [BuildBVH_split S first rest h]
        have hp := S.perm (splitAxis S.fpu (computeBounds first rest)) (first :: rest)
        have hlen := hp.length_eq
        have h4 : 4 < (first :: rest).length := by
          unfold LEAF_THRESHOLD at h; omega
        set srt := S.sort (splitAxis S.fpu (computeBounds first rest)) (first :: rest) with hs
        have hl : (srt.take (srt.length / 2)).length = (first :: rest).length / 2 := by
          rw [List.length_take, hlen]; omega
        have hr : (srt.drop (srt.length / 2)).length
            = (first :: rest).length - (first :: rest).length / 2 := by
          rw [List.length_drop, hlen]
        have hlne : srt.take (srt.length / 2) ≠ [] := by
          intro h0; rw [h0] at hl; simp only [List.length_nil] at hl; omega
        have hrne : srt.drop (srt.length / 2) ≠ [] := by
          intro h0; rw [h0] at hr; simp only [List.length_nil] at hr; omega
        refine hsplit first rest _ _ h rfl rfl hlne hrne hl ?_ ?_ ?_
        · rw [List.take_append_drop]; exact hp
        · exact ih _ (by rw [hl, ← hn]; omega) _ hlne rfl
        · exact ih _ (by rw [hr, ← hn]; omega) _ hrne rfl

theorem BuildBVH_ne_null (S : StdSort F) (tris : List (TriangleCombined F)) :
    BuildBVH S tris ≠ .null := by
  cases tris with
  | nil => rw [BuildBVH]; exact BVHNode.noConfusion
  | cons first rest =>
    by_cases h : (first :: rest).length ≤ LEAF_THRESHOLD
    · rw [BuildBVH_leaf S first rest h]; exact BVHNode.noConfusion
    · rw [BuildBVH_split S first rest h]; exact BVHNode.noConfusion

theorem IsLeaf_null : IsLeaf (BVHNode.null : BVHNode F) BVHNode.null = true := by
  simp [IsLeaf]

theorem IsLeaf_left_ne (l r : BVHNode F) (h : l ≠ .null) : IsLeaf l r = false := by
  simp [IsLeaf, h]

/-- The leaves of a built tree hold a rearrangement of the input. -/
theorem extractTriangles_BuildBVH_perm (S : StdSort F) (tris : List (TriangleCombined F))
    (hne : tris ≠ []) : List.Perm (extractTriangles (BuildBVH S tris)) tris := by
  refine BuildBVH_induct S (fun ts n => List.Perm (extractTriangles n) ts) ?_ ?_ tris hne
  · intro first rest _
    simp only [extractTriangles, IsLeaf_null, if_true]
    exact List.Perm.refl _
  · intro first rest l r _ _ _ _ _ _ hperm ihl ihr
    simp only [extractTriangles, IsLeaf_left_ne _ _ (BuildBVH_ne_null S l),
      Bool.false_eq_true, if_false]
    exact (List.Perm.append ihl ihr).trans hperm

/-- Every node of a built tree is itself the tree built from a non-empty list. -/
theorem subnodes_BuildBVH (S : StdSort F) (tris : List (TriangleCombined F)) (hne : tris ≠ []) :
    ∀ n ∈ subnodes (BuildBVH S tris), ∃ ts, ts ≠ [] ∧ n = BuildBVH S ts := by
  refine BuildBVH_induct S
    (fun ts t => t = BuildBVH S ts → ∀ n ∈ subnodes t, ∃ ts2, ts2 ≠ [] ∧ n = BuildBVH S ts2)
    ?_ ?_ tris hne rfl
  · intro first rest h heq n hn
    simp only [subnodes, List.append_nil, List.mem_singleton] at hn
    exact ⟨first :: rest, List.cons_ne_nil _ _, by rw [hn, heq]⟩
  · intro first rest l r h _ _ hl hr _ _ ihl ihr heq n hn
    simp only [subnodes, List.mem_cons, List.mem_append] at hn
    rcases hn with hn | hn | hn
    · exact ⟨first :: rest, List.cons_ne_nil _ _, by rw [hn, heq]⟩
    · exact ihl rfl n hn
    · exact ihr rfl n hn

/-! ## Tight bounds -/

theorem IsMinOver_single (c : Vec3 F → F) (T : TriangleCombined F) :
    IsMinOver c [T] (min (min (c T.v0) (c T.v1)) (c T.v2)) := by
  constructor
  · intro T2 hT2 v hv
    rw [List.mem_singleton] at hT2
    subst hT2
    simp only [vertices, List.mem_cons, List.mem_singleton, List.not_mem_nil, or_false] at hv
    rcases hv with rfl | rfl | rfl
    · exact le_trans (min_le_left _ _) (min_le_left _ _)
    · exact le_trans (min_le_left _ _) (min_le_right _ _)
    · exact min_le_right _ _
  · refine ⟨T, List.mem_singleton_self T, ?_⟩
    rcases min_choice (min (c T.v0) (c T.v1)) (c T.v2) with h | h
    · rcases min_choice (c T.v0) (c T.v1) with h2 | h2
      · exact ⟨T.v0, by simp [vertices], by rw [h, h2]⟩
      · exact ⟨T.v1, by simp [vertices], by rw [h, h2]⟩
    · exact ⟨T.v2, by simp [vertices], by rw [h]⟩

theorem IsMaxOver_single (c : Vec3 F → F) (T : TriangleCombined F) :
    IsMaxOver c [T] (max (max (c T.v0) (c T.v1)) (c T.v2)) := by
  constructor
  · intro T2 hT2 v hv
    rw [List.mem_singleton] at hT2
    subst hT2
    simp only [vertices, List.mem_cons, List.mem_singleton, List.not_mem_nil, or_false] at hv
    rcases hv with rfl | rfl | rfl
    · exact le_trans (le_max_left _ _) (le_max_left _ _)
    · exact le_trans (le_max_right _ _) (le_max_left _ _)
    · exact le_max_right _ _
  · refine ⟨T, List.mem_singleton_self T, ?_⟩
    rcases max_choice (max (c T.v0) (c T.v1)) (c T.v2) with h | h
    · rcases max_choice (c T.v0) (c T.v1) with h2 | h2
      · exact ⟨T.v0, by simp [vertices], by rw [h, h2]⟩
      · exact ⟨T.v1, by simp [vertices], by rw [h, h2]⟩
    · exact ⟨T.v2, by simp [vertices], by rw [h]⟩

theorem IsMinOver_append (c : Vec3 F → F) (ts us : List (TriangleCombined F)) (m n : F)
    (h1 : IsMinOver c ts m) (h2 : IsMinOver c us n) : IsMinOver c (ts ++ us) (min m n) := by
  constructor
  · intro T hT v hv
    rcases List.mem_append.mp hT with h | h
    · exact le_trans (min_le_left _ _) (h1.1 T h v hv)
    · exact le_trans (min_le_right _ _) (h2.1 T h v hv)
  · rcases min_choice m n with h | h
    · obtain ⟨T, hT, v, hv, e⟩ := h1.2
      exact ⟨T, List.mem_append_left _ hT, v, hv, by rw [h, e]⟩
    · obtain ⟨T, hT, v, hv, e⟩ := h2.2
      exact ⟨T, List.mem_append_right _ hT, v, hv, by rw [h, e]⟩

theorem IsMaxOver_append (c : Vec3 F → F) (ts us : List (TriangleCombined F)) (m n : F)
    (h1 : IsMaxOver c ts m) (h2 : IsMaxOver c us n) : IsMaxOver c (ts ++ us) (max m n) := by
  constructor
  · intro T hT v hv
    rcases List.mem_append.mp hT with h | h
    · exact le_trans (h1.1 T h v hv) (le_max_left _ _)
    · exact le_trans (h2.1 T h v hv) (le_max_right _ _)
  · rcases max_choice m n with h | h
    · obtain ⟨T, hT, v, hv, e⟩ := h1.2
      exact ⟨T, List.mem_append_left _ hT, v, hv, by rw [h, e]⟩
    · obtain ⟨T, hT, v, hv, e⟩ := h2.2
      exact ⟨T, List.mem_append_right _ hT, v, hv, by rw [h, e]⟩

theorem IsMinOver_congr (c : Vec3 F → F) (ts us : List (TriangleCombined F)) (m : F)
    (h : ∀ T, T ∈ ts ↔ T ∈ us) (h1 : IsMinOver c ts m) : IsMinOver c us m := by
  obtain ⟨a, T, hT, rest⟩ := h1
  exact ⟨fun T2 hT2 => a T2 ((h T2).mpr hT2), T, (h T).mp hT, rest⟩

theorem IsMaxOver_congr (c : Vec3 F → F) (ts us : List (TriangleCombined F)) (m : F)
    (h : ∀ T, T ∈ ts ↔ T ∈ us) (h1 : IsMaxOver c ts m) : IsMaxOver c us m := by
  obtain ⟨a, T, hT, rest⟩ := h1
  exact ⟨fun T2 hT2 => a T2 ((h T2).mpr hT2), T, (h T).mp hT, rest⟩

theorem TightBounds_congr (b : AABB F) (ts us : List (TriangleCombined F))
    (h : ∀ T, T ∈ ts ↔ T ∈ us) (h1 : TightBounds b ts) : TightBounds b us := by
  obtain ⟨a1, a2, a3, a4, a5, a6⟩ := h1
  exact ⟨IsMinOver_congr _ _ _ _ h a1, IsMinOver_congr _ _ _ _ h a2,
    IsMinOver_congr _ _ _ _ h a3, IsMaxOver_congr _ _ _ _ h a4, IsMaxOver_congr _ _ _ _ h a5,
    IsMaxOver_congr _ _ _ _ h a6⟩

theorem ComputeAABB_tight (T : TriangleCombined F) : TightBounds T.ComputeAABB [T] :=
  ⟨IsMinOver_single Vec3.x T, IsMinOver_single Vec3.y T, IsMinOver_single Vec3.z T,
   IsMaxOver_single Vec3.x T, IsMaxOver_single Vec3.y T, IsMaxOver_single Vec3.z T⟩

theorem growBounds_tight (b : AABB F) (ts : List (TriangleCombined F)) (T : TriangleCombined F)
    (h : TightBounds b ts) : TightBounds (growBounds b T) (ts ++ [T]) := by
  obtain ⟨a1, a2, a3, a4, a5, a6⟩ := h
  obtain ⟨b1, b2, b3, b4, b5, b6⟩ := ComputeAABB_tight T
  exact ⟨IsMinOver_append _ _ _ _ _ a1 b1, IsMinOver_append _ _ _ _ _ a2 b2,
    IsMinOver_append _ _ _ _ _ a3 b3, IsMaxOver_append _ _ _ _ _ a4 b4,
    IsMaxOver_append _ _ _ _ _ a5 b5, IsMaxOver_append _ _ _ _ _ a6 b6⟩

theorem foldl_growBounds_tight (rest acc : List (TriangleCombined F)) (b : AABB F)
    (h : TightBounds b acc) : TightBounds (rest.foldl growBounds b) (acc ++ rest) := by
  induction rest generalizing acc b with
  | nil => simpa using h
  | cons T rest ih =>
    have h2 := ih (acc ++ [T]) (growBounds b T) (growBounds_tight b acc T h)
    simpa [List.append_assoc] using h2

/-- The bounds computed by lines 80-89 are the tight box of the list. -/
theorem computeBounds_tight (first : TriangleCombined F) (rest : List (TriangleCombined F)) :
    TightBounds (computeBounds first rest) (first :: rest) := by
  have h := foldl_growBounds_tight rest [first] first.ComputeAABB (ComputeAABB_tight first)
  simpa [computeBounds] using h

/-- The root of a built tree: its bounds are the tight box of the input, and of its leaves. -/
theorem BuildBVH_root (S : StdSort F) (tris : List (TriangleCombined F)) (hne : tris ≠ []) :
    ∃ b l r ts, BuildBVH S tris = .node b l r ts ∧ TightBounds b tris ∧
      TightBounds b (extractTriangles (BuildBVH S tris)) ∧
      (l = .null ∨ ∃ tl, tl ≠ [] ∧ (∀ T ∈ tl, T ∈ tris) ∧ l = BuildBVH S tl) ∧
      (r = .null ∨ ∃ tr, tr ≠ [] ∧ (∀ T ∈ tr, T ∈ tris) ∧ r = BuildBVH S tr) := by
  have hperm := extractTriangles_BuildBVH_perm S tris hne
  have hT : ∀ b, TightBounds b tris → TightBounds b (extractTriangles (BuildBVH S tris)) :=
    fun b hb => TightBounds_congr b _ _ (fun T => (hperm.mem_iff).symm) hb
  cases tris with
  | nil => exact absurd rfl hne
  | cons first rest =>
    have ht := computeBounds_tight first rest
    by_cases h : (first :: rest).length ≤ LEAF_THRESHOLD
    · refine ⟨_, _, _, _, BuildBVH_leaf S first rest h, ht, hT _ ht, Or.inl rfl, Or.inl rfl⟩
    · have hp := S.perm (splitAxis S.fpu (computeBounds first rest)) (first :: rest)
      have hlen := hp.length_eq
      have h4 : 4 < (first :: rest).length := by
        unfold LEAF_THRESHOLD at h; omega
      refine ⟨_, _, _, _, BuildBVH_split S first rest h, ht, hT _ ht, Or.inr ⟨_, ?_, ?_, rfl⟩,
        Or.inr ⟨_, ?_, ?_, rfl⟩⟩
      · intro h0
        have := congrArg List.length h0
        rw [List.length_take, hlen] at this
        simp only [List.length_nil] at this
        omega
      · intro T hT2
        exact hp.mem_iff.mp (List.mem_of_mem_take hT2)
      · intro h0
        have := congrArg List.length h0
        rw [List.length_drop, hlen] at this
        simp only [List.length_nil] at this
        omega
      · intro T hT2
        exact hp.mem_iff.mp (List.mem_of_mem_drop hT2)

theorem TightBounds_inside (b b2 : AABB F) (ts ts2 : List (TriangleCombined F))
    (h : TightBounds b ts) (h2 : TightBounds b2 ts2) (hsub : ∀ T ∈ ts2, T ∈ ts) :
    AABB.Inside b2 b := by
  obtain ⟨a1, a2, a3, a4, a5, a6⟩ := h
  obtain ⟨b1, b2, b3, b4, b5, b6⟩ := h2
  refine ⟨?_, ?_, ?_, ?_, ?_, ?_⟩
  · obtain ⟨T, hT, v, hv, e⟩ := b1.2
    rw [← e]; exact a1.1 T (hsub T hT) v hv
  · obtain ⟨T, hT, v, hv, e⟩ := b2.2
    rw [← e]; exact a2.1 T (hsub T hT) v hv
  · obtain ⟨T, hT, v, hv, e⟩ := b3.2
    rw [← e]; exact a3.1 T (hsub T hT) v hv
  · obtain ⟨T, hT, v, hv, e⟩ := b4.2
    rw [← e]; exact a4.1 T (hsub T hT) v hv
  · obtain ⟨T, hT, v, hv, e⟩ := b5.2
    rw [← e]; exact a5.1 T (hsub T hT) v hv
  · obtain ⟨T, hT, v, hv, e⟩ := b6.2
    rw [← e]; exact a6.1 T (hsub T hT) v hv

theorem TightBounds_nonEmpty (b : AABB F) (ts : List (TriangleCombined F))
    (h : TightBounds b ts) : AABB.NonEmpty b := by
  obtain ⟨a1, a2, a3, a4, a5, a6⟩ := h
  refine ⟨?_, ?_, ?_⟩
  · obtain ⟨T, hT, v, hv, _⟩ := a1.2
    exact le_trans (a1.1 T hT v hv) (a4.1 T hT v hv)
  · obtain ⟨T, hT, v, hv, _⟩ := a2.2
    exact le_trans (a2.1 T hT v hv) (a5.1 T hT v hv)
  · obtain ⟨T, hT, v, hv, _⟩ := a3.2
    exact le_trans (a3.1 T hT v hv) (a6.1 T hT v hv)

theorem TightBounds_contains (b : AABB F) (ts : List (TriangleCombined F))
    (h : TightBounds b ts) (T : TriangleCombined F) (hT : T ∈ ts) (v : Vec3 F)
    (hv : v ∈ vertices T) : AABB.Contains b v := by
  obtain ⟨a1, a2, a3, a4, a5, a6⟩ := h
  exact ⟨a1.1 T hT v hv, a4.1 T hT v hv, a2.1 T hT v hv, a5.1 T hT v hv, a3.1 T hT v hv,
    a6.1 T hT v hv⟩

theorem TightBounds_triangle_inside (b : AABB F) (ts : List (TriangleCombined F))
    (h : TightBounds b ts) (T : TriangleCombined F) (hT : T ∈ ts) :
    AABB.Inside T.ComputeAABB b :=
  TightBounds_inside b T.ComputeAABB ts [T] h (ComputeAABB_tight T)
    (fun T2 h2 => by rw [List.mem_singleton] at h2; rw [h2]; exact hT)

/-- The tight-bounds statement holds at the root of every built tree. -/
theorem BuildBVH_root_tight (S : StdSort F) (tris : List (TriangleCombined F)) (hne : tris ≠ []) :
    TightNode (BuildBVH S tris) := by
  obtain ⟨b, l, r, ts, heq, ht, hte, hl, hr⟩ := BuildBVH_root S tris hne
  have hperm := extractTriangles_BuildBVH_perm S tris hne
  rw [heq] at hte hperm ⊢
  refine ⟨hte, TightBounds_nonEmpty b _ hte, fun T hT => TightBounds_triangle_inside b _ hte T hT,
    ?_, ?_⟩
  · rcases hl with rfl | ⟨tl, hne2, hsub, rfl⟩
    · trivial
    · obtain ⟨b2, l2, r2, ts2, heq2, ht2, _, _, _⟩ := BuildBVH_root S tl hne2
      rw [heq2]
      exact TightBounds_inside b b2 tris tl ht ht2 hsub
  · rcases hr with rfl | ⟨tr, hne2, hsub, rfl⟩
    · trivial
    · obtain ⟨b2, l2, r2, ts2, heq2, ht2, _, _, _⟩ := BuildBVH_root S tr hne2
      rw [heq2]
      exact TightBounds_inside b b2 tris tr ht ht2 hsub

/-- A built tree encloses its triangles at every node. -/
theorem BuildBVH_encloses (S : StdSort F) (tris : List (TriangleCombined F)) (hne : tris ≠ []) :
    Encloses (BuildBVH S tris) := by
  refine BuildBVH_induct S (fun ts n => n = BuildBVH S ts → Encloses n) ?_ ?_ tris hne rfl
  · intro first rest h heq
    have ht := BuildBVH_root_tight S (first :: rest) (List.cons_ne_nil _ _)
    rw [← heq] at ht
    exact ⟨fun T hT v hv => TightBounds_contains _ _ ht.1 T hT v hv, trivial, trivial⟩
  · intro first rest l r h _ _ _ _ _ _ ihl ihr heq
    have ht := BuildBVH_root_tight S (first :: rest) (List.cons_ne_nil _ _)
    rw [← heq] at ht
    exact ⟨fun T hT v hv => TightBounds_contains _ _ ht.1 T hT v hv, ihl rfl, ihr rfl⟩

/-- The shape of the root of a built tree. -/
theorem BuildBVH_root_shape (S : StdSort F) (tris : List (TriangleCombined F)) (hne : tris ≠ []) :
    WellShaped (BuildBVH S tris) ∧ (RootIsLeaf (BuildBVH S tris) ↔ tris.length ≤ 4) := by
  cases tris with
  | nil => exact absurd rfl hne
  | cons first rest =>
    by_cases h : (first :: rest).length ≤ LEAF_THRESHOLD
    · rw [BuildBVH_leaf S first rest h]
      refine ⟨Or.inr ⟨rfl, rfl, ?_, h⟩, ?_⟩
      · simp
      · simp only [RootIsLeaf, IsLeaf_null, true_iff]
        exact h
    · rw [BuildBVH_split S first rest h]
      refine ⟨Or.inl ⟨BuildBVH_ne_null S _, BuildBVH_ne_null S _, rfl⟩, ?_⟩
      simp only [RootIsLeaf, IsLeaf_left_ne _ _ (BuildBVH_ne_null S _), Bool.false_eq_true,
        false_iff]
      exact h

/-! ## The traversal -/

theorem convex_between (mn mx a b c u v : F) (ha : mn ≤ a ∧ a ≤ mx) (hb : mn ≤ b ∧ b ≤ mx)
    (hc : mn ≤ c ∧ c ≤ mx) (hu : 0 ≤ u) (hv : 0 ≤ v) (huv : u + v ≤ 1) :
    mn ≤ a + u * (b - a) + v * (c - a) ∧ a + u * (b - a) + v * (c - a) ≤ mx := by
  have hw : 0 ≤ 1 - u - v := by linarith
  constructor
  · have e : a + u * (b - a) + v * (c - a) - mn
        = (1 - u - v) * (a - mn) + u * (b - mn) + v * (c - mn) := by ring
    have p1 := mul_nonneg hw (sub_nonneg.mpr ha.1)
    have p2 := mul_nonneg hu (sub_nonneg.mpr hb.1)
    have p3 := mul_nonneg hv (sub_nonneg.mpr hc.1)
    linarith
  · have e : mx - (a + u * (b - a) + v * (c - a))
        = (1 - u - v) * (mx - a) + u * (mx - b) + v * (mx - c) := by ring
    have p1 := mul_nonneg hw (sub_nonneg.mpr ha.2)
    have p2 := mul_nonneg hu (sub_nonneg.mpr hb.2)
    have p3 := mul_nonneg hv (sub_nonneg.mpr hc.2)
    linarith

/-- The slab test never rejects a box that contains a triangle the ray hits at a parameter
up to `FLT_MAX`, when no quotient `1.0f / rayDirArr[i]` overflows. -/
theorem RayIntersects_of_hit (b : AABB F) (o d : Vec3 F) (T : TriangleCombined F) (t : F)
    (hb : ∀ v ∈ vertices T, AABB.Contains b v)
    (hit : RayIntersectsTriangle o d T = some t) (htM : t ≤ FLT_MAX) (hdir : DirExact d) :
    b.RayIntersects o d = true := by
  obtain ⟨h1, h2, h3, h4, h5, h6, h7⟩ := (RayIntersectsTriangle_eq_some o d T t).mp hit
  obtain ⟨px, py, pz⟩ := hit_point o d T (detA_ne_zero d T h1)
  have c0 := hb T.v0 (by simp [vertices])
  have c1 := hb T.v1 (by simp [vertices])
  have c2 := hb T.v2 (by simp [vertices])
  have hp : (0 : F) < EPSILON := EPSILON_pos
  have bx := convex_between b.min.x b.max.x T.v0.x T.v1.x T.v2.x _ _ ⟨c0.1, c0.2.1⟩
    ⟨c1.1, c1.2.1⟩ ⟨c2.1, c2.2.1⟩ h2 h4 h5
  have by1 := convex_between b.min.y b.max.y T.v0.y T.v1.y T.v2.y _ _ ⟨c0.2.2.1, c0.2.2.2.1⟩
    ⟨c1.2.2.1, c1.2.2.2.1⟩ ⟨c2.2.2.1, c2.2.2.2.1⟩ h2 h4 h5
  have bz := convex_between b.min.z b.max.z T.v0.z T.v1.z T.v2.z _ _ ⟨c0.2.2.2.2.1, c0.2.2.2.2.2⟩
    ⟨c1.2.2.2.2.1, c1.2.2.2.2.2⟩ ⟨c2.2.2.2.2.1, c2.2.2.2.2.2⟩ h2 h4 h5
  rw [← px] at bx
  rw [← py] at by1
  rw [← pz] at bz
  rw [← h7] at bx by1 bz h6
  exact RayIntersectsSigned_of_point false false false b o d t (by linarith) htM (Or.inr hdir)
    bx.1 bx.2 by1.1 by1.2 bz.1 bz.2

theorem leafStep_cases (o d : Vec3 F) (maxD : F) (st : Bool × F) (T : TriangleCombined F) :
    (leafStep o d maxD st T = st ∧
      ∀ t, RayIntersectsTriangle o d T = some t → t < maxD → st.2 ≤ t) ∨
    (∃ t, leafStep o d maxD st T = (true, t) ∧ RayIntersectsTriangle o d T = some t ∧
      t < maxD ∧ t < st.2) := by
  unfold leafStep
  cases hr : RayIntersectsTriangle o d T with
  | none => exact Or.inl ⟨rfl, fun t ht => by cases ht⟩
  | some t =>
    by_cases hc : t < maxD ∧ t < st.2
    · exact Or.inr ⟨t, by simp only [if_pos hc], rfl, hc.1, hc.2⟩
    · refine Or.inl ⟨by simp only [if_neg hc], fun t2 ht2 hlt => ?_⟩
      have := Option.some.inj ht2
      subst this
      exact not_lt.mp (fun h => hc ⟨hlt, h⟩)

/-- The loop over the triangles of a leaf, from any state. -/
theorem leafLoop_spec (o d : Vec3 F) (maxD : F) (ts : List (TriangleCombined F))
    (st : Bool × F) :
    ((ts.foldl (leafStep o d maxD) st = st) ∨
      ((ts.foldl (leafStep o d maxD) st).1 = true ∧ (ts.foldl (leafStep o d maxD) st).2 < st.2 ∧
        (ts.foldl (leafStep o d maxD) st).2 < maxD ∧
        ∃ T ∈ ts, RayIntersectsTriangle o d T = some (ts.foldl (leafStep o d maxD) st).2)) ∧
    (∀ T ∈ ts, ∀ t, RayIntersectsTriangle o d T = some t → t < maxD →
      (ts.foldl (leafStep o d maxD) st).2 ≤ t) := by
  induction ts generalizing st with
  | nil =>
    exact ⟨Or.inl rfl, fun T hT => by cases hT⟩
  | cons T ts ih =>
    simp only [List.foldl_cons]
    obtain ⟨ih1, ih2⟩ := ih (leafStep o d maxD st T)
    have hmono : (ts.foldl (leafStep o d maxD) (leafStep o d maxD st T)).2
        ≤ (leafStep o d maxD st T).2 := by
      rcases ih1 with e | ⟨_, e, _⟩
      · rw [e]
      · exact le_of_lt e
    rcases leafStep_cases o d maxD st T with ⟨e, hno⟩ | ⟨t, e, hr, h1, h2⟩
    · constructor
      · rw [e] at ih1 ⊢
        rcases ih1 with e2 | ⟨a, b, c, T2, hT2, e3⟩
        · exact Or.inl e2
        · exact Or.inr ⟨a, b, c, T2, List.mem_cons_of_mem _ hT2, e3⟩
      · intro T2 hT2 t2 hr2 hlt
        rcases List.mem_cons.mp hT2 with rfl | hmem
        · exact le_trans hmono (le_trans (le_of_eq (congrArg Prod.snd e)) (hno t2 hr2 hlt))
        · exact ih2 T2 hmem t2 hr2 hlt
    · constructor
      · right
        rw [e] at ih1 hmono ⊢
        rcases ih1 with e2 | ⟨a, b, c, T2, hT2, e3⟩
        · rw [e2]
          exact ⟨rfl, h2, h1, T, List.mem_cons_self _ _, hr⟩
        · exact ⟨a, lt_trans b h2, c, T2, List.mem_cons_of_mem _ hT2, e3⟩
      · intro T2 hT2 t2 hr2 hlt
        rcases List.mem_cons.mp hT2 with rfl | hmem
        · rw [hr] at hr2
          have := Option.some.inj hr2
          subst this
          exact le_trans hmono (le_of_eq (congrArg Prod.snd e))
        · exact ih2 T2 hmem t2 hr2 hlt

/-- What `IntersectBVH` returns, on every tree. -/
theorem IntersectBVH_outcome (n : BVHNode F) (o d : Vec3 F) (maxD h0 : F) :
    Outcome o d maxD h0 (extractTriangles n) (IntersectBVH n o d maxD h0) := by
  induction n generalizing h0 with
  | null => exact Or.inl ⟨rfl, rfl⟩
  | node b l r ts ihl ihr =>
    simp only [IntersectBVH, extractTriangles]
    by_cases hb : b.RayIntersects o d = true
    · simp only [hb, Bool.not_true, Bool.false_eq_true, if_false]
      by_cases hleaf : IsLeaf l r = true
      · simp only [hleaf, if_true]
        rcases (leafLoop_spec o d maxD ts (false, h0)).1 with e | ⟨a, b2, c, T, hT, e⟩
        · rw [e]; exact Or.inl ⟨rfl, rfl⟩
        · exact Or.inr ⟨a, b2, c, T, hT, e⟩
      · simp only [hleaf, Bool.false_eq_true, if_false]
        have o1 := ihl h0
        have o2 := ihr (IntersectBVH l o d maxD h0).2
        rcases o1 with ⟨a1, b1⟩ | ⟨a1, b1, c1, T1, hT1, e1⟩
        · rcases o2 with ⟨a2, b2⟩ | ⟨a2, b2, c2, T2, hT2, e2⟩
          · left
            simp only [a1, a2, Bool.or_self, true_and]
            rw [b2, b1]
          · right
            simp only [a1, a2, Bool.or_true, true_and]
            exact ⟨lt_of_lt_of_le b2 (le_of_eq b1), c2, T2, List.mem_append_right _ hT2, e2⟩
        · rcases o2 with ⟨a2, b2⟩ | ⟨a2, b2, c2, T2, hT2, e2⟩
          · right
            simp only [a1, a2, Bool.or_false, true_and]
            rw [b2]
            exact ⟨b1, c1, T1, List.mem_append_left _ hT1, e1⟩
          · right
            simp only [a1, a2, Bool.or_self, true_and]
            exact ⟨lt_trans b2 b1, c2, T2, List.mem_append_right _ hT2, e2⟩
    · simp only [hb, Bool.not_false, if_true]
      exact Or.inl ⟨rfl, rfl⟩

theorem IntersectBVH_le (n : BVHNode F) (o d : Vec3 F) (maxD h0 : F) :
    (IntersectBVH n o d maxD h0).2 ≤ h0 := by
  rcases IntersectBVH_outcome n o d maxD h0 with ⟨_, e⟩ | ⟨_, e, _⟩
  · rw [e]
  · exact le_of_lt e

/-- On a tree that encloses its triangles no hit up to `FLT_MAX` is pruned when no quotient
`1.0f / rayDirArr[i]` overflows: the final `hitDistance` is at most the parameter of every
triangle hit below `maxDistance`. -/
theorem IntersectBVH_complete (n : BVHNode F) (o d : Vec3 F) (maxD h0 : F) (henc : Encloses n)
    (hdir : DirExact d) (T : TriangleCombined F) (hT : T ∈ extractTriangles n) (t : F)
    (hit : RayIntersectsTriangle o d T = some t) (hlt : t < maxD) (htM : t ≤ FLT_MAX) :
    (IntersectBVH n o d maxD h0).2 ≤ t := by
  induction n generalizing h0 with
  | null => cases hT
  | node b l r ts ihl ihr =>
    obtain ⟨hbox, hel, her⟩ := henc
    have hb : b.RayIntersects o d = true :=
      RayIntersects_of_hit b o d T t (hbox T hT) hit htM hdir
    simp only [IntersectBVH, hb, Bool.not_true, Bool.false_eq_true, if_false]
    simp only [extractTriangles] at hT
    by_cases hleaf : IsLeaf l r = true
    · simp only [hleaf, if_true] at hT ⊢
      exact (leafLoop_spec o d maxD ts (false, h0)).2 T hT t hit hlt
    · simp only [hleaf, Bool.false_eq_true, if_false] at hT ⊢
      rcases List.mem_append.mp hT with hm | hm
      · exact le_trans (IntersectBVH_le r o d maxD _) (ihl h0 hel hm)
      · exact ihr _ her hm

/-! ## The query -/

/-- The loop of `IsVisible` over roots that enclose their triangles, when no quotient
`1.0f / rayDirArr[i]` overflows: it answers BLOCKED exactly when some triangle below some
root is hit under `distance` and under the current `hitDistance`. -/
theorem visibleLoop_false_iff (p dir : Vec3 F) (dist : F) (roots : List (BVHNode F)) (h0 : F)
    (henc : ∀ n ∈ roots, Encloses n) (hM : h0 ≤ FLT_MAX) (hdir : DirExact dir) :
    visibleLoop p dir dist roots h0 = false ↔
      ∃ n ∈ roots, ∃ T ∈ extractTriangles n, ∃ t,
        RayIntersectsTriangle p dir T = some t ∧ t < dist ∧ t < h0 := by
  induction roots generalizing h0 with
  | nil => simp [visibleLoop]
  | cons n roots ih =>
    have hrest : ∀ m ∈ roots, Encloses m := fun m hm => henc m (List.mem_cons_of_mem _ hm)
    cases n with
    | null =>
      simp only [visibleLoop]
      rw [ih h0 hrest hM]
      constructor
      · rintro ⟨m, hm, rest⟩
        exact ⟨m, List.mem_cons_of_mem _ hm, rest⟩
      · rintro ⟨m, hm, T, hT, rest⟩
        rcases List.mem_cons.mp hm with rfl | hm2
        · cases hT
        · exact ⟨m, hm2, T, hT, rest⟩
    | node b l r ts =>
      have hen : Encloses (BVHNode.node b l r ts) := henc _ (List.mem_cons_self _ _)
      simp only [visibleLoop]
      rcases IntersectBVH_outcome (BVHNode.node b l r ts) p dir dist h0 with
        ⟨a1, b1⟩ | ⟨a1, b1, c1, T1, hT1, e1⟩
      · simp only [a1, Bool.false_eq_true, if_false]
        rw [b1, ih h0 hrest hM]
        constructor
        · rintro ⟨m, hm, rest⟩
          exact ⟨m, List.mem_cons_of_mem _ hm, rest⟩
        · rintro ⟨m, hm, T, hT, t, hit, hlt, hlt0⟩
          rcases List.mem_cons.mp hm with rfl | hm2
          · exfalso
            have hc := IntersectBVH_complete (BVHNode.node b l r ts) p dir dist h0 hen hdir T hT
              t hit hlt (le_trans (le_of_lt hlt0) hM)
            rw [b1] at hc
            exact absurd hlt0 (not_lt.mpr hc)
          · exact ⟨m, hm2, T, hT, t, hit, hlt, hlt0⟩
      · simp only [a1, if_true, if_pos c1, true_iff]
        exact ⟨_, List.mem_cons_self _ _, T1, hT1, _, e1, c1, b1⟩

/-- The loop of `IsVisible` on any roots: a BLOCKED answer comes from a triangle below some
root that is hit under `distance` and under the current `hitDistance`. -/
theorem visibleLoop_false_hit (p dir : Vec3 F) (dist : F) (roots : List (BVHNode F)) (h0 : F)
    (h : visibleLoop p dir dist roots h0 = false) :
    ∃ n ∈ roots, ∃ T ∈ extractTriangles n, ∃ t,
      RayIntersectsTriangle p dir T = some t ∧ t < dist ∧ t < h0 := by
  induction roots generalizing h0 with
  | nil => simp [visibleLoop] at h
  | cons n roots ih =>
    cases n with
    | null =>
      simp only [visibleLoop] at h
      obtain ⟨m, hm, rest⟩ := ih h0 h
      exact ⟨m, List.mem_cons_of_mem _ hm, rest⟩
    | node b l r ts =>
      simp only [visibleLoop] at h
      rcases IntersectBVH_outcome (BVHNode.node b l r ts) p dir dist h0 with
        ⟨a1, b1⟩ | ⟨a1, b1, c1, T1, hT1, e1⟩
      · simp only [a1, Bool.false_eq_true, if_false] at h
        rw [b1] at h
        obtain ⟨m, hm, rest⟩ := ih h0 h
        exact ⟨m, List.mem_cons_of_mem _ hm, rest⟩
      · exact ⟨_, List.mem_cons_self _ _, T1, hT1, _, e1, c1, b1⟩

/-- The value of `IsVisible` on an engine whose trees enclose their triangles, when no
quotient `1.0f / rayDirArr[i]` overflows. -/
theorem IsVisible_false_iff (sqrt : F → F) (e : VisCheck F) (p1 p2 : Vec3 F)
    (hl : e.geometryLoaded = true) (hne : e.bvhNodes ≠ [])
    (henc : ∀ n ∈ e.bvhNodes, Encloses n) (hdir : DirExact (rayDirOf sqrt p1 p2)) :
    IsVisible sqrt e p1 p2 = false ↔
      LengthSquared (Subtract p2 p1) < OVERFLOW ∧
      (¬ distanceOf sqrt p1 p2 < MIN_DISTANCE) ∧
      ∃ n ∈ e.bvhNodes, ∃ T ∈ extractTriangles n, ∃ t,
        RayIntersectsTriangle p1 (rayDirOf sqrt p1 p2) T = some t ∧
          t < distanceOf sqrt p1 p2 ∧ t < FLT_MAX := by
  have hemp : e.bvhNodes.isEmpty = false := by
    cases hb : e.bvhNodes with
    | nil => exact absurd hb hne
    | cons _ _ => rfl
  simp only [IsVisible, hl, hemp, Bool.not_true, Bool.or_self, Bool.false_eq_true, if_false]
  by_cases ho : OVERFLOW ≤ LengthSquared (Subtract p2 p1)
  · simp only [ho, if_true, not_lt.mpr ho, false_and]
    simp
  · simp only [ho, if_false, not_le.mp ho, true_and]
    by_cases hd : distanceOf sqrt p1 p2 < MIN_DISTANCE
    · have hd2 := hd
      unfold distanceOf at hd2
      simp only [hd2, if_true, hd, not_true_eq_false, false_and]
      simp
    · have hd2 := hd
      unfold distanceOf at hd2
      simp only [hd2, if_false, hd, not_false_eq_true, true_and]
      exact visibleLoop_false_iff p1 (rayDirOf sqrt p1 p2) (distanceOf sqrt p1 p2) e.bvhNodes
        FLT_MAX henc (le_refl _) hdir

theorem foldl_loadStep (S : StdSort F) (meshes : List (List (TriangleCombined F)))
    (acc : List (BVHNode F)) :
    meshes.foldl (loadStep S) acc
      = acc ++ (meshes.filter (fun m => !m.isEmpty)).map (BuildBVH S) := by
  induction meshes generalizing acc with
  | nil => simp
  | cons m meshes ih =>
    simp only [List.foldl_cons, ih, loadStep, List.filter_cons]
    cases hm : m.isEmpty <;> simp

/-- The engine after a successful `LoadGeometry`. -/
theorem LoadGeometry_true (S : StdSort F) (e0 e : VisCheck F)
    (meshes : List (List (TriangleCombined F)))
    (h : LoadGeometry S e0 meshes = (true, e)) :
    e.geometryLoaded = true ∧ e.meshes = meshes ∧
      e.bvhNodes = (meshes.filter (fun m => !m.isEmpty)).map (BuildBVH S) ∧ e.bvhNodes ≠ [] := by
  unfold LoadGeometry at h
  by_cases hm : meshes.isEmpty = true
  · simp [hm] at h
  · simp only [hm, Bool.false_eq_true, if_false, foldl_loadStep, List.nil_append,
      Prod.mk.injEq] at h
    obtain ⟨h1, h2⟩ := h
    subst h2
    refine ⟨h1, rfl, rfl, ?_⟩
    simp only [Bool.and_eq_true, decide_eq_true_eq] at h1
    intro h0
    have := h1.2
    simp only at h0
    rw [h0] at this
    simp at this

/-- The triangles below the roots of a loaded engine are the triangles of the meshes. -/
theorem loaded_triangles (S : StdSort F) (meshes : List (List (TriangleCombined F)))
    (T : TriangleCombined F) :
    (∃ n ∈ (meshes.filter (fun m => !m.isEmpty)).map (BuildBVH S), T ∈ extractTriangles n) ↔
      ∃ mesh ∈ meshes, T ∈ mesh := by
  constructor
  · rintro ⟨n, hn, hT⟩
    obtain ⟨m, hm, rfl⟩ := List.mem_map.mp hn
    obtain ⟨hm1, hm2⟩ := List.mem_filter.mp hm
    have hne : m ≠ [] := by
      intro h0; subst h0; simp at hm2
    exact ⟨m, hm1, (extractTriangles_BuildBVH_perm S m hne).mem_iff.mp hT⟩
  · rintro ⟨m, hm, hT⟩
    have hne : m ≠ [] := List.ne_nil_of_mem hT
    have hf : m ∈ meshes.filter (fun m => !m.isEmpty) := by
      refine List.mem_filter.mpr ⟨hm, ?_⟩
      cases m with
      | nil => exact absurd rfl hne
      | cons _ _ => rfl
    exact ⟨BuildBVH S m, List.mem_map.mpr ⟨m, hf, rfl⟩,
      (extractTriangles_BuildBVH_perm S m hne).mem_iff.mpr hT⟩

theorem loaded_encloses (S : StdSort F) (meshes : List (List (TriangleCombined F))) :
    ∀ n ∈ (meshes.filter (fun m => !m.isEmpty)).map (BuildBVH S), Encloses n := by
  intro n hn
  obtain ⟨m, hm, rfl⟩ := List.mem_map.mp hn
  obtain ⟨_, hm2⟩ := List.mem_filter.mp hm
  have hne : m ≠ [] := by
    intro h0; subst h0; simp at hm2
  exact BuildBVH_encloses S m hne

/-- The answer of `IsVisible` after `LoadGeometry`, as a scan of all triangles, when no
quotient `1.0f / rayDirArr[i]` overflows. -/
theorem IsVisible_loaded (S : StdSort F) (sqrt : F → F) (e0 e : VisCheck F)
    (meshes : List (List (TriangleCombined F))) (p1 p2 : Vec3 F)
    (hload : LoadGeometry S e0 meshes = (true, e)) (hdir : DirExact (rayDirOf sqrt p1 p2)) :
    IsVisible sqrt e p1 p2 = false ↔
      LengthSquared (Subtract p2 p1) < OVERFLOW ∧
      (¬ distanceOf sqrt p1 p2 < MIN_DISTANCE) ∧
      ∃ mesh ∈ meshes, ∃ T ∈ mesh, ∃ t,
        RayIntersectsTriangle p1 (rayDirOf sqrt p1 p2) T = some t ∧
          t < distanceOf sqrt p1 p2 ∧ t < FLT_MAX := by
  obtain ⟨h1, _, h3, h4⟩ := LoadGeometry_true S e0 e meshes hload
  rw [IsVisible_false_iff sqrt e p1 p2 h1 h4 (by rw [h3]; exact loaded_encloses S meshes) hdir,
    h3]
  constructor
  · rintro ⟨ho, hd, n, hn, T, hT, rest⟩
    obtain ⟨m, hm, hTm⟩ := (loaded_triangles S meshes T).mp ⟨n, hn, hT⟩
    exact ⟨ho, hd, m, hm, T, hTm, rest⟩
  · rintro ⟨ho, hd, m, hm, T, hT, rest⟩
    obtain ⟨n, hn, hTn⟩ := (loaded_triangles S meshes T).mpr ⟨m, hm, hT⟩
    exact ⟨ho, hd, n, hn, T, hTn, rest⟩

/-! ## The reversed ray -/

theorem detA_reverse (D : Vec3 F) (T : TriangleCombined F) :
    detA ⟨-D.x, -D.y, -D.z⟩ T = -detA D T := by
  simp only [detA, Dot, Cross, Subtract]; ring

theorem baryU_reverse (p D : Vec3 F) (d : F) (T : TriangleCombined F) :
    baryU ⟨p.x + d * D.x, p.y + d * D.y, p.z + d * D.z⟩ ⟨-D.x, -D.y, -D.z⟩ T = baryU p D T := by
  unfold baryU
  rw [detA_reverse, one_div_neg_eq_neg_one_div]
  simp only [Dot, Cross, Subtract]; ring

theorem baryV_reverse (p D : Vec3 F) (d : F) (T : TriangleCombined F) :
    baryV ⟨p.x + d * D.x, p.y + d * D.y, p.z + d * D.z⟩ ⟨-D.x, -D.y, -D.z⟩ T = baryV p D T := by
  unfold baryV
  rw [detA_reverse, one_div_neg_eq_neg_one_div]
  simp only [Dot, Cross, Subtract]; ring

theorem paramT_reverse (p D : Vec3 F) (d : F) (T : TriangleCombined F) (ha : detA D T ≠ 0) :
    paramT ⟨p.x + d * D.x, p.y + d * D.y, p.z + d * D.z⟩ ⟨-D.x, -D.y, -D.z⟩ T
      = d - paramT p D T := by
  unfold paramT
  rw [detA_reverse, one_div_neg_eq_neg_one_div]
  have e : Dot (Subtract T.v2 T.v0)
      (Cross (Subtract ⟨p.x + d * D.x, p.y + d * D.y, p.z + d * D.z⟩ T.v0) (Subtract T.v1 T.v0))
      = Dot (Subtract T.v2 T.v0) (Cross (Subtract p T.v0) (Subtract T.v1 T.v0))
        - d * detA D T := by
    simp only [detA, Dot, Cross, Subtract]; ring
  rw [e]
  field_simp

/-- A hit at parameter `t` of the ray from `p`, seen from the point at parameter `d` looking
back, is a hit at parameter `d - t`, provided `d - t` passes the `EPSILON` test. -/
theorem reverse_hit (p D : Vec3 F) (d t : F) (T : TriangleCombined F)
    (hit : RayIntersectsTriangle p D T = some t) (hfar : EPSILON < d - t) :
    RayIntersectsTriangle ⟨p.x + d * D.x, p.y + d * D.y, p.z + d * D.z⟩ ⟨-D.x, -D.y, -D.z⟩ T
      = some (d - t) := by
  obtain ⟨h1, h2, h3, h4, h5, h6, h7⟩ := (RayIntersectsTriangle_eq_some p D T t).mp hit
  have ha := detA_ne_zero D T h1
  rw [RayIntersectsTriangle_eq_some, detA_reverse, baryU_reverse, baryV_reverse,
    paramT_reverse p D d T ha, ← h7]
  refine ⟨?_, h2, h3, h4, h5, hfar, rfl⟩
  intro hc
  apply h1
  constructor
  · linarith [hc.2]
  · linarith [hc.1]

theorem LengthSquared_swap (p q : Vec3 F) :
    LengthSquared (Subtract p q) = LengthSquared (Subtract q p) := by
  simp only [LengthSquared, Subtract]; ring

theorem distanceOf_swap (sqrt : F → F) (p q : Vec3 F) :
    distanceOf sqrt q p = distanceOf sqrt p q := by
  unfold distanceOf
  rw [LengthSquared_swap]

/-- The ray of `IsVisible(q, p)` is the ray of `IsVisible(p, q)` seen from its end. -/
theorem reverse_ray (sqrt : F → F) (p q : Vec3 F) (hd : distanceOf sqrt p q ≠ 0) :
    q = ⟨p.x + distanceOf sqrt p q * (rayDirOf sqrt p q).x,
         p.y + distanceOf sqrt p q * (rayDirOf sqrt p q).y,
         p.z + distanceOf sqrt p q * (rayDirOf sqrt p q).z⟩ ∧
    rayDirOf sqrt q p
      = ⟨-(rayDirOf sqrt p q).x, -(rayDirOf sqrt p q).y, -(rayDirOf sqrt p q).z⟩ := by
  have hs : sqrt (LengthSquared (Subtract p q)) = sqrt (LengthSquared (Subtract q p)) := by
    rw [LengthSquared_swap]
  unfold distanceOf at hd
  constructor
  · cases q with
    | mk qx qy qz =>
      simp only [rayDirOf, distanceOf, Subtract, Vec3.mk.injEq]
      simp only [Subtract] at hd
      refine ⟨?_, ?_, ?_⟩ <;> field_simp
  · simp only [rayDirOf, hs, Vec3.mk.injEq]
    simp only [Subtract]
    refine ⟨?_, ?_, ?_⟩ <;> field_simp

theorem RecipExact_zero : RecipExact (0 : F) := Or.inl rfl

theorem RecipExact_one : RecipExact (1 : F) :=
  Or.inr ⟨by unfold OVERFLOW; norm_num, by unfold OVERFLOW; norm_num⟩

theorem RecipExact_neg (d : F) (h : RecipExact d) : RecipExact (-d) := by
  rcases h with h | ⟨h1, h2⟩
  · left; rw [h, neg_zero]
  · right
    rw [one_div_neg_eq_neg_one_div]
    constructor <;> linarith

theorem DirExact_neg (D : Vec3 F) (h : DirExact D) : DirExact ⟨-D.x, -D.y, -D.z⟩ :=
  ⟨RecipExact_neg _ h.1, RecipExact_neg _ h.2.1, RecipExact_neg _ h.2.2⟩

theorem DirExact_z : DirExact (⟨0, 0, 1⟩ : Vec3 F) :=
  ⟨RecipExact_zero, RecipExact_zero, RecipExact_one⟩

theorem DirExact_neg_z : DirExact (⟨0, 0, -1⟩ : Vec3 F) :=
  ⟨RecipExact_zero, RecipExact_zero, RecipExact_neg _ RecipExact_one⟩

/-- The direction of `IsVisible(q, p)` is the opposite of the direction of
`IsVisible(p, q)`. -/
theorem rayDirOf_swap (sqrt : F → F) (p q : Vec3 F) :
    rayDirOf sqrt q p
      = ⟨-(rayDirOf sqrt p q).x, -(rayDirOf sqrt p q).y, -(rayDirOf sqrt p q).z⟩ := by
  have hs : sqrt (LengthSquared (Subtract p q)) = sqrt (LengthSquared (Subtract q p)) := by
    rw [LengthSquared_swap]
  simp only [rayDirOf, hs, Vec3.mk.injEq]
  simp only [Subtract]
  refine ⟨?_, ?_, ?_⟩ <;> rw [← neg_div, neg_sub]

theorem DirExact_swap (sqrt : F → F) (p q : Vec3 F) (h : DirExact (rayDirOf sqrt p q)) :
    DirExact (rayDirOf sqrt q p) := by
  rw [rayDirOf_swap]
  exact DirExact_neg _ h

/-- One direction of symmetry: a BLOCKED answer from `p` to `q` carried to the query from `q`
to `p`. -/
theorem blocked_reverse (sqrt : F → F) (e : VisCheck F) (p q : Vec3 F)
    (hl : e.geometryLoaded = true) (hne : e.bvhNodes ≠ [])
    (henc : ∀ n ∈ e.bvhNodes, Encloses n)
    (hrange : distanceOf sqrt p q ≤ FLT_MAX) (hdir : DirExact (rayDirOf sqrt p q))
    (hp : ∀ n ∈ e.bvhNodes, ∀ T ∈ extractTriangles n, ∀ t,
      RayIntersectsTriangle p (rayDirOf sqrt p q) T = some t → t < distanceOf sqrt p q →
      t < distanceOf sqrt p q - EPSILON)
    (hb : IsVisible sqrt e p q = false) : IsVisible sqrt e q p = false := by
  have heps : (0 : F) < EPSILON := EPSILON_pos
  obtain ⟨ho, hd, n, hn, T, hT, t, hit, hlt, _⟩ :=
    (IsVisible_false_iff sqrt e p q hl hne henc hdir).mp hb
  have hd0 : distanceOf sqrt p q ≠ 0 := by
    intro h0; apply hd; rw [h0]; exact MIN_DISTANCE_pos
  obtain ⟨hq, hdirq⟩ := reverse_ray sqrt p q hd0
  have hfar := hp n hn T hT t hit hlt
  have ht0 : EPSILON < t := ((RayIntersectsTriangle_eq_some p _ T t).mp hit).2.2.2.2.2.1.trans_eq
    ((RayIntersectsTriangle_eq_some p _ T t).mp hit).2.2.2.2.2.2.symm
  have hrev := reverse_hit p (rayDirOf sqrt p q) (distanceOf sqrt p q) t T hit (by linarith)
  rw [← hq, ← hdirq] at hrev
  rw [IsVisible_false_iff sqrt e q p hl hne henc (DirExact_swap sqrt p q hdir), distanceOf_swap]
  refine ⟨?_, hd, n, hn, T, hT, _, hrev, by linarith, by linarith⟩
  rw [LengthSquared_swap]
  exact ho

/-- What `LoadGeometry` leaves in the engine when it succeeds: trees that enclose their
triangles, whose leaves hold triangles of the meshes. -/
theorem loaded_leaves (S : StdSort F) (e0 e : VisCheck F)
    (meshes : List (List (TriangleCombined F)))
    (hload : LoadGeometry S e0 meshes = (true, e)) :
    (∀ n ∈ e.bvhNodes, Encloses n) ∧
    (∀ n ∈ e.bvhNodes, ∀ T ∈ extractTriangles n, ∃ mesh ∈ meshes, T ∈ mesh) := by
  obtain ⟨_, _, h3, _⟩ := LoadGeometry_true S e0 e meshes hload
  rw [h3]
  exact ⟨loaded_encloses S meshes, fun n hn T hT => (loaded_triangles S meshes T).mp ⟨n, hn, hT⟩⟩

/-! ## Evaluating queries -/

theorem LoadGeometry_eta (S : StdSort F) (e0 : VisCheck F)
    (meshes : List (List (TriangleCombined F)))
    (hl : (LoadGeometry S e0 meshes).1 = true) :
    LoadGeometry S e0 meshes = (true, (LoadGeometry S e0 meshes).2) := by
  rw [← hl]

theorem IsVisible_eval_blocked (S : StdSort F) (sqrt : F → F)
    (meshes : List (List (TriangleCombined F))) (p1 p2 D : Vec3 F) (d t : F)
    (mesh : List (TriangleCombined F)) (T : TriangleCombined F)
    (hl : (LoadGeometry S VisCheck.empty meshes).1 = true)
    (hd : distanceOf sqrt p1 p2 = d) (hD : rayDirOf sqrt p1 p2 = D)
    (hnear : ¬ d < MIN_DISTANCE)
    (hm : mesh ∈ meshes) (hT : T ∈ mesh) (hit : RayIntersectsTriangle p1 D T = some t)
    (hlt : t < d) (hM : t < FLT_MAX)
    (hlsq : LengthSquared (Subtract p2 p1) < OVERFLOW) (hdir : DirExact D) :
    IsVisible sqrt (LoadGeometry S VisCheck.empty meshes).2 p1 p2 = false := by
  rw [IsVisible_loaded S sqrt _ _ meshes p1 p2 (LoadGeometry_eta S _ meshes hl)
    (by rw [hD]; exact hdir), hd, hD]
  exact ⟨hlsq, hnear, mesh, hm, T, hT, t, hit, hlt, hM⟩

theorem IsVisible_eval_visible (S : StdSort F) (sqrt : F → F)
    (meshes : List (List (TriangleCombined F))) (p1 p2 D : Vec3 F) (d : F)
    (hl : (LoadGeometry S VisCheck.empty meshes).1 = true)
    (hd : distanceOf sqrt p1 p2 = d) (hD : rayDirOf sqrt p1 p2 = D)
    (h : d < MIN_DISTANCE ∨ ∀ mesh ∈ meshes, ∀ T ∈ mesh, ∀ t,
      RayIntersectsTriangle p1 D T = some t → d ≤ t ∨ FLT_MAX ≤ t) (hdir : DirExact D) :
    IsVisible sqrt (LoadGeometry S VisCheck.empty meshes).2 p1 p2 = true := by
  rw [← Bool.not_eq_false,
    IsVisible_loaded S sqrt _ _ meshes p1 p2 (LoadGeometry_eta S _ meshes hl)
      (by rw [hD]; exact hdir), hd, hD]
  rintro ⟨_, hnear, mesh, hm, T, hT, t, hit, hlt, hltM⟩
  rcases h with h | h
  · exact hnear h
  · rcases h mesh hm T hT t hit with h2 | h2
    · exact absurd hlt (not_lt.mpr h2)
    · exact absurd hltM (not_lt.mpr h2)

theorem LoadGeometry_fst (S : StdSort F) (e0 : VisCheck F)
    (meshes : List (List (TriangleCombined F))) :
    (LoadGeometry S e0 meshes).1 = true ↔ ∃ mesh ∈ meshes, mesh ≠ [] := by
  unfold LoadGeometry
  cases meshes with
  | nil => simp
  | cons m ms =>
    simp only [List.isEmpty_cons, Bool.false_eq_true, if_false, foldl_loadStep, List.nil_append,
      List.length_cons, List.length_map, Bool.and_eq_true, decide_eq_true_eq]
    constructor
    · rintro ⟨_, h⟩
      obtain ⟨x, hx⟩ := List.exists_mem_of_length_pos h
      obtain ⟨hx1, hx2⟩ := List.mem_filter.mp hx
      refine ⟨x, hx1, ?_⟩
      intro h0; subst h0; simp at hx2
    · rintro ⟨x, hx, hne⟩
      refine ⟨Nat.succ_pos _, List.length_pos_of_mem (a := x) (List.mem_filter.mpr ⟨hx, ?_⟩)⟩
      cases x with
      | nil => exact absurd rfl hne
      | cons _ _ => rfl

theorem demoScene_loads (S : StdSort F) :
    (LoadGeometry S VisCheck.empty (demoScene : List (List (TriangleCombined F)))).1 = true :=
  (LoadGeometry_fst S _ _).mpr ⟨demoGround, by simp [demoScene], by simp [demoGround]⟩

theorem mainScene_loads (S : StdSort F) :
    (LoadGeometry S VisCheck.empty (mainScene : List (List (TriangleCombined F)))).1 = true :=
  (LoadGeometry_fst S _ _).mpr ⟨demoGround ++ demoWall, by simp [mainScene], by simp [demoGround]⟩

theorem Rat_sqrt_sq (q : ℚ) (h : 0 ≤ q) : Rat.sqrt (q * q) = q := by
  rw [Rat.sqrt_eq, abs_of_nonneg h]

/-! ## Claims C1 to C4: visibility queries -/

/-- Claim C1.  In exact arithmetic, after a successful `LoadGeometry(meshes)`, for all
points `p1`, `p2`, with `d` the value of `distance` and `D = (p2 - p1) / d`:
`IsVisible(p1, p2)` returns false if and only if `d ≥ 0.001` and some triangle `T` of some
mesh makes `RayIntersectsTriangle(p1, D, T)` succeed with a hit parameter `t < d`; in every
other case it returns true.  So the answer of the BVH equals the brute-force scan, pruning
hides no occluding triangle, and a hit at `t = d` does not occlude.

Exact arithmetic is what the hypotheses say: the squared length and the distance are in
the float range, `d` is not strictly between `0.001` and the float `0.001f` (no float is),
and none of the quotients `1.0f / D[i]` of the slab test overflows.  `std::sqrt` is any
function. -/
theorem IsVisible_eq_bruteForce (S : StdSort F) (sqrt : F → F) (e0 e : VisCheck F)
    (meshes : List (List (TriangleCombined F))) (p1 p2 : Vec3 F)
    (hload : LoadGeometry S e0 meshes = (true, e))
    (hlsq : LengthSquared (Subtract p2 p1) < OVERFLOW)
    (hdist : distanceOf sqrt p1 p2 ≤ FLT_MAX)
    (hlit : 0.001 ≤ distanceOf sqrt p1 p2 → MIN_DISTANCE ≤ distanceOf sqrt p1 p2)
    (hdir : DirExact (rayDirOf sqrt p1 p2)) :
    (IsVisible sqrt e p1 p2 = false ↔
      0.001 ≤ distanceOf sqrt p1 p2 ∧
      BruteForceHit meshes p1 (rayDirOf sqrt p1 p2) (distanceOf sqrt p1 p2)) ∧
    (IsVisible sqrt e p1 p2 = true ↔
      ¬ (0.001 ≤ distanceOf sqrt p1 p2 ∧
      BruteForceHit meshes p1 (rayDirOf sqrt p1 p2) (distanceOf sqrt p1 p2))) := by
  have key : IsVisible sqrt e p1 p2 = false ↔
      0.001 ≤ distanceOf sqrt p1 p2 ∧
      BruteForceHit meshes p1 (rayDirOf sqrt p1 p2) (distanceOf sqrt p1 p2) := by
    rw [IsVisible_loaded S sqrt e0 e meshes p1 p2 hload hdir, not_lt]
    unfold BruteForceHit
    constructor
    · rintro ⟨_, hd, m, hm, T, hT, t, hit, hlt, _⟩
      exact ⟨le_trans (le_of_lt MIN_DISTANCE_gt) hd, m, hm, T, hT, t, hit, hlt⟩
    · rintro ⟨hd, m, hm, T, hT, t, hit, hlt⟩
      exact ⟨hlsq, hlit hd, m, hm, T, hT, t, hit, hlt, lt_of_lt_of_le hlt hdist⟩
  refine ⟨key, ?_⟩
  rw [← key, Bool.not_eq_false]

/-- The four triangles of the demo scene against the ray from `o` along `+z`: the hit
parameters, triangle by triangle. -/
theorem demo_hits (o : Vec3 F) (T : TriangleCombined F) (hT : T ∈ demoGround ++ demoWall) (t : F)
    (hit : RayIntersectsTriangle o ⟨0, 0, 1⟩ T = some t) :
    t = 500 - o.z ∧ -100 ≤ o.x ∧ o.x ≤ 100 ∧ 0 ≤ o.y ∧ o.y ≤ 1000 := by
  simp only [demoGround, demoWall, List.cons_append, List.nil_append, List.mem_cons,
    List.mem_singleton, List.not_mem_nil, or_false] at hT
  rcases hT with rfl | rfl | rfl | rfl
  · exfalso
    have h := (RayIntersectsTriangle_eq_some o _ _ t).mp hit
    apply h.1
    norm_num [detA, Subtract, Cross, Dot, EPSILON]
  · exfalso
    have h := (RayIntersectsTriangle_eq_some o _ _ t).mp hit
    apply h.1
    norm_num [detA, Subtract, Cross, Dot, EPSILON]
  · obtain ⟨_, h2, h3, h4, h5, _, h7⟩ := (RayIntersectsTriangle_eq_some o _ _ t).mp hit
    norm_num [baryU, baryV, paramT, detA, Subtract, Cross, Dot] at h2 h3 h4 h5 h7
    refine ⟨by rw [h7]; ring, ?_, ?_, ?_, ?_⟩ <;> linarith
  · obtain ⟨_, h2, h3, h4, h5, _, h7⟩ := (RayIntersectsTriangle_eq_some o _ _ t).mp hit
    norm_num [baryU, baryV, paramT, detA, Subtract, Cross, Dot] at h2 h3 h4 h5 h7
    refine ⟨by rw [h7]; ring, ?_, ?_, ?_, ?_⟩ <;> linarith

/-- The six queries of the spec on any grouping of the four demo triangles into meshes. -/
theorem demo_answers_aux (S : StdSort F) (sqrt : F → F)
    (meshes : List (List (TriangleCombined F)))
    (h0 : sqrt 0 = 0) (h1 : sqrt 40000 = 200) (h2 : sqrt 1000000 = 1000)
    (hl : (LoadGeometry S VisCheck.empty meshes).1 = true)
    (hsub : ∀ mesh ∈ meshes, ∀ T ∈ mesh, T ∈ demoGround ++ demoWall)
    (hwall : demoWall ∈ meshes ∨ demoGround ++ demoWall ∈ meshes) :
    IsVisible sqrt (LoadGeometry S VisCheck.empty meshes).2 ⟨0, 100, 0⟩ ⟨0, 100, 200⟩ = true ∧
    IsVisible sqrt (LoadGeometry S VisCheck.empty meshes).2 ⟨0, 100, 0⟩ ⟨0, 100, 1000⟩ = false ∧
    IsVisible sqrt (LoadGeometry S VisCheck.empty meshes).2 ⟨0, 100, 0⟩ ⟨0, 100, 0⟩ = true ∧
    IsVisible sqrt (LoadGeometry S VisCheck.empty meshes).2 ⟨0, 50, 400⟩ ⟨0, 50, 600⟩ = false ∧
    IsVisible sqrt (LoadGeometry S VisCheck.empty meshes).2 ⟨0, 1500, 400⟩ ⟨0, 1500, 600⟩ = true ∧
    IsVisible sqrt (LoadGeometry S VisCheck.empty meshes).2 ⟨500, 100, 0⟩ ⟨500, 100, 1000⟩
      = true := by
  have hw : ∃ mesh ∈ meshes,
      (⟨⟨-100, 0, 500⟩, ⟨100, 0, 500⟩, ⟨100, 1000, 500⟩⟩ : TriangleCombined F) ∈ mesh := by
    rcases hwall with h | h
    · exact ⟨_, h, by simp [demoWall]⟩
    · exact ⟨_, h, by simp [demoWall]⟩
  obtain ⟨wm, hwm, hwT⟩ := hw
  refine ⟨?_, ?_, ?_, ?_, ?_, ?_⟩
  · refine IsVisible_eval_visible S sqrt meshes _ _ ⟨0, 0, 1⟩ 200 hl
      (by norm_num [distanceOf, LengthSquared, Subtract, h1])
      (by norm_num [rayDirOf, LengthSquared, Subtract, h1]) (Or.inr ?_) DirExact_z
    intro mesh hm T hT t hit
    have := demo_hits _ T (hsub mesh hm T hT) t hit
    left
    rw [this.1]; norm_num
  · refine IsVisible_eval_blocked S sqrt meshes _ _ ⟨0, 0, 1⟩ 1000 500 wm _ hl
      (by norm_num [distanceOf, LengthSquared, Subtract, h2])
      (by norm_num [rayDirOf, LengthSquared, Subtract, h2]) (by norm_num [MIN_DISTANCE]) hwm hwT
      (by norm_num [RayIntersectsTriangle, Subtract, Cross, Dot, EPSILON]) (by norm_num)
      (by norm_num [FLT_MAX]) (by norm_num [LengthSquared, Subtract, OVERFLOW]) DirExact_z
  · refine IsVisible_eval_visible S sqrt meshes _ _ (rayDirOf sqrt ⟨0, 100, 0⟩ ⟨0, 100, 0⟩) 0 hl
      (by norm_num [distanceOf, LengthSquared, Subtract, h0]) rfl
      (Or.inl MIN_DISTANCE_pos) ?_
    simp only [rayDirOf, Subtract, sub_self, zero_div]
    exact ⟨RecipExact_zero, RecipExact_zero, RecipExact_zero⟩
  · refine IsVisible_eval_blocked S sqrt meshes _ _ ⟨0, 0, 1⟩ 200 100 wm _ hl
      (by norm_num [distanceOf, LengthSquared, Subtract, h1])
      (by norm_num [rayDirOf, LengthSquared, Subtract, h1]) (by norm_num [MIN_DISTANCE]) hwm hwT
      (by norm_num [RayIntersectsTriangle, Subtract, Cross, Dot, EPSILON]) (by norm_num)
      (by norm_num [FLT_MAX]) (by norm_num [LengthSquared, Subtract, OVERFLOW]) DirExact_z
  · refine IsVisible_eval_visible S sqrt meshes _ _ ⟨0, 0, 1⟩ 200 hl
      (by norm_num [distanceOf, LengthSquared, Subtract, h1])
      (by norm_num [rayDirOf, LengthSquared, Subtract, h1]) (Or.inr ?_) DirExact_z
    intro mesh hm T hT t hit
    have := demo_hits _ T (hsub mesh hm T hT) t hit
    norm_num at this
  · refine IsVisible_eval_visible S sqrt meshes _ _ ⟨0, 0, 1⟩ 1000 hl
      (by norm_num [distanceOf, LengthSquared, Subtract, h2])
      (by norm_num [rayDirOf, LengthSquared, Subtract, h2]) (Or.inr ?_) DirExact_z
    intro mesh hm T hT t hit
    have := demo_hits _ T (hsub mesh hm T hT) t hit
    norm_num at this

theorem Rat_sqrt_values :
    Rat.sqrt 0 = 0 ∧ Rat.sqrt 40000 = 200 ∧ Rat.sqrt 1000000 = 1000 := by
  have e0 : (0 : ℚ) = 0 * 0 := by norm_num
  have e1 : (40000 : ℚ) = 200 * 200 := by norm_num
  have e2 : (1000000 : ℚ) = 1000 * 1000 := by norm_num
  refine ⟨?_, ?_, ?_⟩
  · have h := Rat_sqrt_sq 0 (le_refl _)
    rw [← e0] at h
    exact h
  · rw [e1]; exact Rat_sqrt_sq 200 (by norm_num)
  · rw [e2]; exact Rat_sqrt_sq 1000 (by norm_num)

/-- Claim C2.  On the demo scene, loaded with `LoadGeometry` either as the spec groups it
(the ground quad as one mesh, the wall as a second mesh) or as `main.cpp` groups it (the
four triangles in one mesh), `IsVisible` answers VISIBLE for (0,100,0)→(0,100,200), BLOCKED
for (0,100,0)→(0,100,1000), VISIBLE for (0,100,0)→(0,100,0), BLOCKED for
(0,50,400)→(0,50,600), VISIBLE for (0,1500,400)→(0,1500,600) and VISIBLE for
(500,100,0)→(500,100,1000).  The rays have direction (0,0,1), so the slab test divides by
zero on two axes; the embedding gives `1/0` the value `+inf`.  `std::sqrt` is any function
that is exact on the three squared distances that occur. -/
theorem demo_scene_answers (S : StdSort F) (sqrt : F → F)
    (h0 : sqrt 0 = 0) (h1 : sqrt 40000 = 200) (h2 : sqrt 1000000 = 1000) :
    (LoadGeometry S VisCheck.empty demoScene).1 = true ∧
    demoAnswers S sqrt demoScene = [true, false, true, false, true, true] ∧
    (LoadGeometry S VisCheck.empty mainScene).1 = true ∧
    demoAnswers S sqrt mainScene = [true, false, true, false, true, true] := by
  refine ⟨demoScene_loads S, ?_, mainScene_loads S, ?_⟩
  · obtain ⟨a1, a2, a3, a4, a5, a6⟩ :=
      demo_answers_aux S sqrt demoScene h0 h1 h2 (demoScene_loads S)
        (by
          intro mesh hm T hT
          simp only [demoScene, List.mem_cons, List.mem_singleton, List.not_mem_nil,
            or_false] at hm
          rcases hm with rfl | rfl
          · exact List.mem_append_left _ hT
          · exact List.mem_append_right _ hT)
        (Or.inl (by simp [demoScene]))
    simp only [demoAnswers, demoQueries, List.map, a1, a2, a3, a4, a5, a6]
  · obtain ⟨a1, a2, a3, a4, a5, a6⟩ :=
      demo_answers_aux S sqrt mainScene h0 h1 h2 (mainScene_loads S)
        (by
          intro mesh hm T hT
          simp only [mainScene, List.mem_singleton] at hm
          rw [hm] at hT
          exact hT)
        (Or.inr (by simp [mainScene]))
    simp only [demoAnswers, demoQueries, List.map, a1, a2, a3, a4, a5, a6]

/-- Claim C2 at the rationals, with insertion sort and the rational square root. -/
theorem demo_scene_answers_witness :
    (Rat.sqrt 0 = 0 ∧ Rat.sqrt 40000 = 200 ∧ Rat.sqrt 1000000 = 1000) ∧
    (LoadGeometry (insertionSort : StdSort ℚ) VisCheck.empty demoScene).1 = true ∧
    demoAnswers insertionSort Rat.sqrt demoScene = [true, false, true, false, true, true] ∧
    (LoadGeometry (insertionSort : StdSort ℚ) VisCheck.empty mainScene).1 = true ∧
    demoAnswers insertionSort Rat.sqrt mainScene = [true, false, true, false, true, true] :=
  ⟨Rat_sqrt_values,
    demo_scene_answers insertionSort Rat.sqrt Rat_sqrt_values.1 Rat_sqrt_values.2.1
      Rat_sqrt_values.2.2⟩

/-- Claim C3, amended.  In exact arithmetic, for every engine whose trees enclose the
triangles in their leaves (the engines `LoadGeometry` and `LoadFromOptFile` make; a cache
file may hold any tree) and all points `p`, `q` whose distance `d` is in the float range
and for which no quotient `1.0f / D[i]` of the slab test overflows: if neither the ray
from `p` to `q` nor the ray from `q` to `p` hits a leaf triangle at a parameter in
`[d - EPSILON, d)`, that is within `EPSILON = 1e-7f` of its far end, then
`IsVisible(p, q) = IsVisible(q, p)`. -/
theorem IsVisible_symm (sqrt : F → F) (e : VisCheck F) (p q : Vec3 F)
    (henc : ∀ n ∈ e.bvhNodes, Encloses n)
    (hrange : distanceOf sqrt p q ≤ FLT_MAX) (hdir : DirExact (rayDirOf sqrt p q))
    (hp : ∀ n ∈ e.bvhNodes, ∀ T ∈ extractTriangles n, ∀ t,
      RayIntersectsTriangle p (rayDirOf sqrt p q) T = some t → t < distanceOf sqrt p q →
      t < distanceOf sqrt p q - EPSILON)
    (hq : ∀ n ∈ e.bvhNodes, ∀ T ∈ extractTriangles n, ∀ t,
      RayIntersectsTriangle q (rayDirOf sqrt q p) T = some t → t < distanceOf sqrt q p →
      t < distanceOf sqrt q p - EPSILON) :
    IsVisible sqrt e p q = IsVisible sqrt e q p := by
  by_cases hl : e.geometryLoaded = true
  · by_cases hne : e.bvhNodes = []
    · simp [IsVisible, hne]
    · cases h1 : IsVisible sqrt e p q with
      | false => exact (blocked_reverse sqrt e p q hl hne henc hrange hdir hp h1).symm
      | true =>
        cases h2 : IsVisible sqrt e q p with
        | true => rfl
        | false =>
          have h3 := blocked_reverse sqrt e q p hl hne henc
            (by rw [distanceOf_swap]; exact hrange) (DirExact_swap sqrt p q hdir) hq h2
          rw [h1] at h3
          exact h3
  · simp [IsVisible, hl]

/-- Claim C3, the claim as written fails: with one triangle in the plane `z = 2^-24`, less
than `EPSILON` away from `p = (0,0,0)` on the segment to `q = (0,0,1/512)`, the query from `p`
answers VISIBLE (the hit at `t = 2^-24` fails `t > EPSILON`) and the query from `q` answers
BLOCKED (the same crossing is at `t = 1/512 - 2^-24`).  Every number that occurs is a float
and every operation of the source on them is exact. -/
theorem IsVisible_symm_counterexample :
    (LoadGeometry insertionSort VisCheck.empty [nearWall]).1 = true ∧
    IsVisible Rat.sqrt (LoadGeometry insertionSort VisCheck.empty [nearWall]).2
      ⟨0, 0, 0⟩ ⟨0, 0, 1 / 512⟩ = true ∧
    IsVisible Rat.sqrt (LoadGeometry insertionSort VisCheck.empty [nearWall]).2
      ⟨0, 0, 1 / 512⟩ ⟨0, 0, 0⟩ = false := by
  have hl : (LoadGeometry insertionSort VisCheck.empty [nearWall]).1 = true :=
    (LoadGeometry_fst insertionSort _ _).mpr ⟨nearWall, by simp, by simp [nearWall]⟩
  have hs : Rat.sqrt (1 / 262144) = 1 / 512 := by
    have e1 : (1 / 262144 : ℚ) = 1 / 512 * (1 / 512) := by norm_num
    rw [e1]; exact Rat_sqrt_sq (1 / 512) (by norm_num)
  have hL1 : LengthSquared (Subtract (⟨0, 0, 1 / 512⟩ : Vec3 ℚ) ⟨0, 0, 0⟩) = 1 / 262144 := by
    norm_num [LengthSquared, Subtract]
  have hL2 : LengthSquared (Subtract (⟨0, 0, 0⟩ : Vec3 ℚ) ⟨0, 0, 1 / 512⟩) = 1 / 262144 := by
    norm_num [LengthSquared, Subtract]
  refine ⟨hl, ?_, ?_⟩
  · refine IsVisible_eval_visible insertionSort Rat.sqrt [nearWall] _ _ ⟨0, 0, 1⟩ (1 / 512) hl
      (by rw [distanceOf, hL1, hs])
      (by simp only [rayDirOf, hL1, hs]; norm_num [Subtract])
      (Or.inr ?_) DirExact_z
    simp only [nearWall, List.forall_mem_cons, List.mem_singleton, List.not_mem_nil, forall_eq,
      false_imp_iff, implies_true, and_true]
    norm_num [RayIntersectsTriangle, Subtract, Cross, Dot, EPSILON]
    intro t h
    cases h
  · refine IsVisible_eval_blocked insertionSort Rat.sqrt [nearWall] _ _ ⟨0, 0, -1⟩ (1 / 512)
      (1 / 512 - 1 / 16777216) nearWall _ hl
      (by rw [distanceOf, hL2, hs])
      (by simp only [rayDirOf, hL2, hs]; norm_num [Subtract])
      (by norm_num [MIN_DISTANCE]) (by simp) (List.mem_singleton_self _)
      (by norm_num [RayIntersectsTriangle, Subtract, Cross, Dot, EPSILON]) (by norm_num)
      (by norm_num [FLT_MAX]) (by rw [hL2]; norm_num [OVERFLOW]) DirExact_neg_z

/-- Claim C4, amended.  In exact arithmetic, occlusion is monotone in the scene for the
rays on which no quotient `1.0f / D[i]` of the slab test overflows (every component of the
direction `D` is zero or larger than `2^-128` in absolute value): if every triangle of
every mesh of `M` is a triangle of some mesh of `M2` (as when `M2` comes from `M` by adding
triangles to meshes or by adding meshes), `LoadGeometry` succeeds on both, and
`IsVisible(p, q)` is BLOCKED on the engine loaded with `M`, then it is BLOCKED on the
engine loaded with `M2`, whatever the two trees look like. -/
theorem occlusion_monotone (S S2 : StdSort F) (sqrt : F → F) (e0 e e1 e2 : VisCheck F)
    (M M2 : List (List (TriangleCombined F))) (p q : Vec3 F)
    (hload : LoadGeometry S e0 M = (true, e))
    (hload2 : LoadGeometry S2 e1 M2 = (true, e2))
    (hsub : ∀ mesh ∈ M, ∀ T ∈ mesh, ∃ mesh2 ∈ M2, T ∈ mesh2)
    (hdir : DirExact (rayDirOf sqrt p q))
    (hb : IsVisible sqrt e p q = false) : IsVisible sqrt e2 p q = false := by
  obtain ⟨ho, hd, m, hm, T, hT, rest⟩ := (IsVisible_loaded S sqrt e0 e M p q hload hdir).mp hb
  obtain ⟨m2, hm2, hT2⟩ := hsub m hm T hT
  exact (IsVisible_loaded S2 sqrt e1 e2 M2 p q hload2 hdir).mpr ⟨ho, hd, m2, hm2, T, hT2, rest⟩

theorem demo_query2 :
    distanceOf Rat.sqrt (⟨0, 100, 0⟩ : Vec3 ℚ) ⟨0, 100, 1000⟩ = 1000 ∧
    rayDirOf Rat.sqrt (⟨0, 100, 0⟩ : Vec3 ℚ) ⟨0, 100, 1000⟩ = ⟨0, 0, 1⟩ ∧
    distanceOf Rat.sqrt (⟨0, 100, 1000⟩ : Vec3 ℚ) ⟨0, 100, 0⟩ = 1000 ∧
    rayDirOf Rat.sqrt (⟨0, 100, 1000⟩ : Vec3 ℚ) ⟨0, 100, 0⟩ = ⟨0, 0, -1⟩ := by
  have hs := Rat_sqrt_values.2.2
  refine ⟨?_, ?_, ?_, ?_⟩
  · norm_num [distanceOf, LengthSquared, Subtract, hs]
  · norm_num [rayDirOf, LengthSquared, Subtract, hs]
  · norm_num [distanceOf, LengthSquared, Subtract, hs]
  · norm_num [rayDirOf, LengthSquared, Subtract, hs]

/-- Claim C1 on the two-mesh demo scene over the rationals, for the query
(0,100,0)→(0,100,1000): the distance is 1000 and the direction (0,0,1). -/
theorem IsVisible_eq_bruteForce_witness :
    LoadGeometry (insertionSort : StdSort ℚ) VisCheck.empty demoScene
      = (true, (LoadGeometry insertionSort VisCheck.empty demoScene).2) ∧
    LengthSquared (Subtract (⟨0, 100, 1000⟩ : Vec3 ℚ) ⟨0, 100, 0⟩) < OVERFLOW ∧
    distanceOf Rat.sqrt (⟨0, 100, 0⟩ : Vec3 ℚ) ⟨0, 100, 1000⟩ ≤ FLT_MAX ∧
    (0.001 ≤ distanceOf Rat.sqrt (⟨0, 100, 0⟩ : Vec3 ℚ) ⟨0, 100, 1000⟩ →
      MIN_DISTANCE ≤ distanceOf Rat.sqrt (⟨0, 100, 0⟩ : Vec3 ℚ) ⟨0, 100, 1000⟩) ∧
    DirExact (rayDirOf Rat.sqrt (⟨0, 100, 0⟩ : Vec3 ℚ) ⟨0, 100, 1000⟩) ∧
    ((IsVisible Rat.sqrt (LoadGeometry insertionSort VisCheck.empty demoScene).2
        ⟨0, 100, 0⟩ ⟨0, 100, 1000⟩ = false ↔
      0.001 ≤ distanceOf Rat.sqrt (⟨0, 100, 0⟩ : Vec3 ℚ) ⟨0, 100, 1000⟩ ∧
      BruteForceHit demoScene ⟨0, 100, 0⟩ (rayDirOf Rat.sqrt ⟨0, 100, 0⟩ ⟨0, 100, 1000⟩)
        (distanceOf Rat.sqrt (⟨0, 100, 0⟩ : Vec3 ℚ) ⟨0, 100, 1000⟩)) ∧
    (IsVisible Rat.sqrt (LoadGeometry insertionSort VisCheck.empty demoScene).2
        ⟨0, 100, 0⟩ ⟨0, 100, 1000⟩ = true ↔
      ¬ (0.001 ≤ distanceOf Rat.sqrt (⟨0, 100, 0⟩ : Vec3 ℚ) ⟨0, 100, 1000⟩ ∧
      BruteForceHit demoScene ⟨0, 100, 0⟩ (rayDirOf Rat.sqrt ⟨0, 100, 0⟩ ⟨0, 100, 1000⟩)
        (distanceOf Rat.sqrt (⟨0, 100, 0⟩ : Vec3 ℚ) ⟨0, 100, 1000⟩)))) := by
  obtain ⟨d1, r1, _, _⟩ := demo_query2
  have h1 := LoadGeometry_eta insertionSort VisCheck.empty
    (demoScene : List (List (TriangleCombined ℚ))) (demoScene_loads insertionSort)
  have h2 : LengthSquared (Subtract (⟨0, 100, 1000⟩ : Vec3 ℚ) ⟨0, 100, 0⟩) < OVERFLOW := by
    norm_num [LengthSquared, Subtract, OVERFLOW]
  have h3 : distanceOf Rat.sqrt (⟨0, 100, 0⟩ : Vec3 ℚ) ⟨0, 100, 1000⟩ ≤ FLT_MAX := by
    rw [d1]; norm_num [FLT_MAX]
  have h4 : 0.001 ≤ distanceOf Rat.sqrt (⟨0, 100, 0⟩ : Vec3 ℚ) ⟨0, 100, 1000⟩ →
      MIN_DISTANCE ≤ distanceOf Rat.sqrt (⟨0, 100, 0⟩ : Vec3 ℚ) ⟨0, 100, 1000⟩ := by
    intro _; rw [d1]; norm_num [MIN_DISTANCE]
  have h5 : DirExact (rayDirOf Rat.sqrt (⟨0, 100, 0⟩ : Vec3 ℚ) ⟨0, 100, 1000⟩) := by
    rw [r1]; exact DirExact_z
  exact ⟨h1, h2, h3, h4, h5,
    IsVisible_eq_bruteForce insertionSort Rat.sqrt VisCheck.empty _ demoScene ⟨0, 100, 0⟩
      ⟨0, 100, 1000⟩ h1 h2 h3 h4 h5⟩

/-- Claim C3 (amended) on the two-mesh demo scene over the rationals, for the points
(0,100,0) and (0,100,1000): the wall is crossed at `t = 500` from either side. -/
theorem IsVisible_symm_witness :
    (∀ n ∈ (LoadGeometry (insertionSort : StdSort ℚ) VisCheck.empty demoScene).2.bvhNodes,
      Encloses n) ∧
    distanceOf Rat.sqrt (⟨0, 100, 0⟩ : Vec3 ℚ) ⟨0, 100, 1000⟩ ≤ FLT_MAX ∧
    DirExact (rayDirOf Rat.sqrt (⟨0, 100, 0⟩ : Vec3 ℚ) ⟨0, 100, 1000⟩) ∧
    (∀ n ∈ (LoadGeometry (insertionSort : StdSort ℚ) VisCheck.empty demoScene).2.bvhNodes,
      ∀ T ∈ extractTriangles n, ∀ t,
      RayIntersectsTriangle ⟨0, 100, 0⟩ (rayDirOf Rat.sqrt ⟨0, 100, 0⟩ ⟨0, 100, 1000⟩) T
        = some t →
      t < distanceOf Rat.sqrt ⟨0, 100, 0⟩ ⟨0, 100, 1000⟩ →
      t < distanceOf Rat.sqrt ⟨0, 100, 0⟩ ⟨0, 100, 1000⟩ - EPSILON) ∧
    (∀ n ∈ (LoadGeometry (insertionSort : StdSort ℚ) VisCheck.empty demoScene).2.bvhNodes,
      ∀ T ∈ extractTriangles n, ∀ t,
      RayIntersectsTriangle ⟨0, 100, 1000⟩ (rayDirOf Rat.sqrt ⟨0, 100, 1000⟩ ⟨0, 100, 0⟩) T
        = some t →
      t < distanceOf Rat.sqrt ⟨0, 100, 1000⟩ ⟨0, 100, 0⟩ →
      t < distanceOf Rat.sqrt ⟨0, 100, 1000⟩ ⟨0, 100, 0⟩ - EPSILON) ∧
    IsVisible Rat.sqrt (LoadGeometry insertionSort VisCheck.empty demoScene).2
        ⟨0, 100, 0⟩ ⟨0, 100, 1000⟩
      = IsVisible Rat.sqrt (LoadGeometry insertionSort VisCheck.empty demoScene).2
        ⟨0, 100, 1000⟩ ⟨0, 100, 0⟩ := by
  obtain ⟨d1, r1, d2, r2⟩ := demo_query2
  have h1 := LoadGeometry_eta insertionSort VisCheck.empty (demoScene : List (List (TriangleCombined ℚ)))
    (demoScene_loads insertionSort)
  obtain ⟨henc, hleaves⟩ := loaded_leaves insertionSort VisCheck.empty _ demoScene h1
  have h2 : distanceOf Rat.sqrt (⟨0, 100, 0⟩ : Vec3 ℚ) ⟨0, 100, 1000⟩ ≤ FLT_MAX := by
    rw [d1]; norm_num [FLT_MAX]
  have hdir : DirExact (rayDirOf Rat.sqrt (⟨0, 100, 0⟩ : Vec3 ℚ) ⟨0, 100, 1000⟩) := by
    rw [r1]; exact DirExact_z
  have h3 : ∀ mesh ∈ (demoScene : List (List (TriangleCombined ℚ))), ∀ T ∈ mesh, ∀ t,
      RayIntersectsTriangle ⟨0, 100, 0⟩ (rayDirOf Rat.sqrt ⟨0, 100, 0⟩ ⟨0, 100, 1000⟩) T
        = some t →
      t < distanceOf Rat.sqrt ⟨0, 100, 0⟩ ⟨0, 100, 1000⟩ →
      t < distanceOf Rat.sqrt ⟨0, 100, 0⟩ ⟨0, 100, 1000⟩ - EPSILON := by
    rw [d1, r1]
    simp only [demoScene, demoGround, demoWall, List.forall_mem_cons, List.mem_singleton,
      List.not_mem_nil, forall_eq, false_imp_iff, implies_true, and_true]
    refine ⟨⟨?_, ?_⟩, ?_, ?_⟩ <;>
      norm_num [RayIntersectsTriangle, Subtract, Cross, Dot, EPSILON] <;>
      intro t h <;> cases h
  have h4 : ∀ mesh ∈ (demoScene : List (List (TriangleCombined ℚ))), ∀ T ∈ mesh, ∀ t,
      RayIntersectsTriangle ⟨0, 100, 1000⟩ (rayDirOf Rat.sqrt ⟨0, 100, 1000⟩ ⟨0, 100, 0⟩) T
        = some t →
      t < distanceOf Rat.sqrt ⟨0, 100, 1000⟩ ⟨0, 100, 0⟩ →
      t < distanceOf Rat.sqrt ⟨0, 100, 1000⟩ ⟨0, 100, 0⟩ - EPSILON := by
    rw [d2, r2]
    simp only [demoScene, demoGround, demoWall, List.forall_mem_cons, List.mem_singleton,
      List.not_mem_nil, forall_eq, false_imp_iff, implies_true, and_true]
    refine ⟨⟨?_, ?_⟩, ?_, ?_⟩ <;>
      norm_num [RayIntersectsTriangle, Subtract, Cross, Dot, EPSILON] <;>
      intro t h <;> cases h
  have h5 : ∀ n ∈ (LoadGeometry (insertionSort : StdSort ℚ) VisCheck.empty demoScene).2.bvhNodes,
      ∀ T ∈ extractTriangles n, ∀ t,
      RayIntersectsTriangle ⟨0, 100, 0⟩ (rayDirOf Rat.sqrt ⟨0, 100, 0⟩ ⟨0, 100, 1000⟩) T
        = some t →
      t < distanceOf Rat.sqrt ⟨0, 100, 0⟩ ⟨0, 100, 1000⟩ →
      t < distanceOf Rat.sqrt ⟨0, 100, 0⟩ ⟨0, 100, 1000⟩ - EPSILON := by
    intro n hn T hT
    obtain ⟨mesh, hm, hTm⟩ := hleaves n hn T hT
    exact h3 mesh hm T hTm
  have h6 : ∀ n ∈ (LoadGeometry (insertionSort : StdSort ℚ) VisCheck.empty demoScene).2.bvhNodes,
      ∀ T ∈ extractTriangles n, ∀ t,
      RayIntersectsTriangle ⟨0, 100, 1000⟩ (rayDirOf Rat.sqrt ⟨0, 100, 1000⟩ ⟨0, 100, 0⟩) T
        = some t →
      t < distanceOf Rat.sqrt ⟨0, 100, 1000⟩ ⟨0, 100, 0⟩ →
      t < distanceOf Rat.sqrt ⟨0, 100, 1000⟩ ⟨0, 100, 0⟩ - EPSILON := by
    intro n hn T hT
    obtain ⟨mesh, hm, hTm⟩ := hleaves n hn T hT
    exact h4 mesh hm T hTm
  exact ⟨henc, h2, hdir, h5, h6,
    IsVisible_symm Rat.sqrt _ ⟨0, 100, 0⟩ ⟨0, 100, 1000⟩ henc h2 hdir h5 h6⟩

/-- Claim C4 (amended) on the wall alone and the two-mesh demo scene, over the rationals,
for the query (0,100,0)→(0,100,1000). -/
theorem occlusion_monotone_witness :
    LoadGeometry (insertionSort : StdSort ℚ) VisCheck.empty [demoWall]
      = (true, (LoadGeometry insertionSort VisCheck.empty [demoWall]).2) ∧
    LoadGeometry (insertionSort : StdSort ℚ) VisCheck.empty demoScene
      = (true, (LoadGeometry insertionSort VisCheck.empty demoScene).2) ∧
    (∀ mesh ∈ ([demoWall] : List (List (TriangleCombined ℚ))), ∀ T ∈ mesh,
      ∃ mesh2 ∈ (demoScene : List (List (TriangleCombined ℚ))), T ∈ mesh2) ∧
    DirExact (rayDirOf Rat.sqrt (⟨0, 100, 0⟩ : Vec3 ℚ) ⟨0, 100, 1000⟩) ∧
    IsVisible Rat.sqrt (LoadGeometry insertionSort VisCheck.empty [demoWall]).2
      ⟨0, 100, 0⟩ ⟨0, 100, 1000⟩ = false ∧
    IsVisible Rat.sqrt (LoadGeometry insertionSort VisCheck.empty demoScene).2
      ⟨0, 100, 0⟩ ⟨0, 100, 1000⟩ = false := by
  obtain ⟨d1, r1, _, _⟩ := demo_query2
  have hl : (LoadGeometry (insertionSort : StdSort ℚ) VisCheck.empty [demoWall]).1 = true :=
    (LoadGeometry_fst insertionSort _ _).mpr ⟨demoWall, by simp, by simp [demoWall]⟩
  have h1 := LoadGeometry_eta insertionSort VisCheck.empty [(demoWall : List (TriangleCombined ℚ))] hl
  have h2 := LoadGeometry_eta insertionSort VisCheck.empty (demoScene : List (List (TriangleCombined ℚ)))
    (demoScene_loads insertionSort)
  have h3 : ∀ mesh ∈ ([demoWall] : List (List (TriangleCombined ℚ))), ∀ T ∈ mesh,
      ∃ mesh2 ∈ (demoScene : List (List (TriangleCombined ℚ))), T ∈ mesh2 := by
    intro mesh hm T hT
    rw [List.mem_singleton] at hm
    subst hm
    exact ⟨demoWall, by simp [demoScene], hT⟩
  have hdir : DirExact (rayDirOf Rat.sqrt (⟨0, 100, 0⟩ : Vec3 ℚ) ⟨0, 100, 1000⟩) := by
    rw [r1]; exact DirExact_z
  have h4 : IsVisible Rat.sqrt (LoadGeometry insertionSort VisCheck.empty [demoWall]).2
      ⟨0, 100, 0⟩ ⟨0, 100, 1000⟩ = false :=
    IsVisible_eval_blocked insertionSort Rat.sqrt [demoWall] _ _ ⟨0, 0, 1⟩ 1000 500 demoWall
      ⟨⟨-100, 0, 500⟩, ⟨100, 0, 500⟩, ⟨100, 1000, 500⟩⟩ hl d1 r1 (by norm_num [MIN_DISTANCE])
      (by simp) (by simp [demoWall])
      (by norm_num [RayIntersectsTriangle, Subtract, Cross, Dot, EPSILON]) (by norm_num)
      (by norm_num [FLT_MAX]) (by norm_num [LengthSquared, Subtract, OVERFLOW]) DirExact_z
  exact ⟨h1, h2, h3, hdir, h4,
    occlusion_monotone insertionSort insertionSort Rat.sqrt VisCheck.empty _ VisCheck.empty _
      [demoWall] demoScene ⟨0, 100, 0⟩ ⟨0, 100, 1000⟩ h1 h2 h3 hdir h4⟩

/-! ## A ray that grazes the plane `x = 0` -/

theorem grazing_sqrt :
    Rat.sqrt (1 / 113078212145816597093331040047546785012958969400039613319782796882727665664
      + 16384) = 128 := by
  have e : (1 / 113078212145816597093331040047546785012958969400039613319782796882727665664
      + 16384 : ℚ)
      = ((1852673427797059126777135760139006525652319754650249024631321344126610074238977 : ℤ) : ℚ)
        / ((113078212145816597093331040047546785012958969400039613319782796882727665664 : ℤ) : ℚ) := by
    norm_num
  have hn := Rat.num_div_eq_of_coprime
    (a := 1852673427797059126777135760139006525652319754650249024631321344126610074238977)
    (b := 113078212145816597093331040047546785012958969400039613319782796882727665664)
    (by norm_num) (by norm_num)
  have hd := Rat.den_div_eq_of_coprime
    (a := 1852673427797059126777135760139006525652319754650249024631321344126610074238977)
    (b := 113078212145816597093331040047546785012958969400039613319782796882727665664)
    (by norm_num) (by norm_num)
  have hd2 : (((1852673427797059126777135760139006525652319754650249024631321344126610074238977 : ℤ) : ℚ)
        / ((113078212145816597093331040047546785012958969400039613319782796882727665664 : ℤ) : ℚ)).den
      = 113078212145816597093331040047546785012958969400039613319782796882727665664 := by
    exact_mod_cast hd
  have h1 : Int.sqrt 1852673427797059126777135760139006525652319754650249024631321344126610074238977
      = 1361129467683753853853498429727072845824 := by
    rw [Int.sqrt]
    have : Nat.sqrt 1852673427797059126777135760139006525652319754650249024631321344126610074238977
        = 1361129467683753853853498429727072845824 := by
      symm
      rw [Nat.eq_sqrt]
      constructor <;> norm_num
    simp [this]
  have h2 : Nat.sqrt 113078212145816597093331040047546785012958969400039613319782796882727665664
      = 10633823966279326983230456482242756608 := by
    symm
    rw [Nat.eq_sqrt]
    constructor <;> norm_num
  rw [e, Rat.sqrt, hn, hd2, h1, h2, Rat.mkRat_eq_div]
  norm_num

theorem rank_fin_le (a b : F) :
    Flt.rank (Flt.fin a) ≤ Flt.rank (Flt.fin b) ↔ a ≤ b := by
  simp only [Flt.rank, WithBot.coe_le_coe, WithTop.coe_le_coe]

theorem exactUnit_round (x : ℚ) (h1 : -OVERFLOW < x) (h2 : x < OVERFLOW) :
    (exactUnit : FloatUnit ℚ).round x = Flt.fin x := by
  show (if OVERFLOW ≤ x then Flt.pinf else if x ≤ -OVERFLOW then Flt.ninf else Flt.fin x) = _
  rw [if_neg (not_le.mpr h2), if_neg (not_le.mpr h1)]

/-- The float key on the z axis of a triangle in a plane `z = c` near the origin is `c`. -/
theorem centerKey_flat (T : TriangleCombined ℚ) (z : ℚ) (h1 : -1000 ≤ z) (h2 : z ≤ 1000)
    (hmin : T.ComputeAABB.min.z = z) (hmax : T.ComputeAABB.max.z = z) :
    centerKey (exactUnit : FloatUnit ℚ) 2 T = Flt.fin z := by
  have e : centerKey (exactUnit : FloatUnit ℚ) 2 T
      = (exactUnit : FloatUnit ℚ).half ((exactUnit : FloatUnit ℚ).round
          (T.ComputeAABB.min.z + T.ComputeAABB.max.z)) := rfl
  rw [e, hmin, hmax, exactUnit_round _ (by unfold OVERFLOW; linarith)
    (by unfold OVERFLOW; linarith)]
  show (exactUnit : FloatUnit ℚ).round ((z + z) / 2) = _
  rw [exactUnit_round _ (by unfold OVERFLOW; linarith) (by unfold OVERFLOW; linarith)]
  congr 1
  ring

theorem grazing_ray :
    LengthSquared (Subtract grazingTarget (⟨0, 0, 0⟩ : Vec3 ℚ)) < OVERFLOW ∧
    distanceOf Rat.sqrt (⟨0, 0, 0⟩ : Vec3 ℚ) grazingTarget = 128 ∧
    rayDirOf Rat.sqrt (⟨0, 0, 0⟩ : Vec3 ℚ) grazingTarget
      = ⟨1 / 1361129467683753853853498429727072845824, 0, 1⟩ := by
  have hL : LengthSquared (Subtract grazingTarget (⟨0, 0, 0⟩ : Vec3 ℚ))
      = 1 / 113078212145816597093331040047546785012958969400039613319782796882727665664
        + 16384 := by
    norm_num [LengthSquared, Subtract, grazingTarget]
  refine ⟨by rw [hL]; norm_num [OVERFLOW], by rw [distanceOf, hL, grazing_sqrt], ?_⟩
  simp only [rayDirOf, hL, grazing_sqrt]
  norm_num [Subtract, grazingTarget]

theorem LoadGeometry_one_mesh (S : StdSort F)
    (first : TriangleCombined F) (rest : List (TriangleCombined F)) :
    LoadGeometry S VisCheck.empty [first :: rest]
      = (true, { meshes := [first :: rest], bvhNodes := [BuildBVH S (first :: rest)],
                 geometryLoaded := true }) := by
  simp [LoadGeometry, loadStep]

theorem IsVisible_eq_loop (sqrt : F → F) (e : VisCheck F)
    (p1 p2 : Vec3 F) (hl : e.geometryLoaded = true) (hne : e.bvhNodes ≠ [])
    (hlsq : LengthSquared (Subtract p2 p1) < OVERFLOW)
    (hd : ¬ distanceOf sqrt p1 p2 < MIN_DISTANCE) :
    IsVisible sqrt e p1 p2
      = visibleLoop p1 (rayDirOf sqrt p1 p2) (distanceOf sqrt p1 p2) e.bvhNodes FLT_MAX := by
  have hemp : e.bvhNodes.isEmpty = false := by
    cases hb : e.bvhNodes with
    | nil => exact absurd hb hne
    | cons _ _ => rfl
  have hd2 := hd
  unfold distanceOf at hd2
  simp only [IsVisible, hl, hemp, Bool.not_true, Bool.or_self, Bool.false_eq_true, if_false,
    not_le.mpr hlsq, hd2]
  rfl

theorem sparse_tree :
    BuildBVH (insertionSort : StdSort ℚ) [backWall, sliverWall 64]
      = .node ⟨⟨-8, -4, -200⟩, ⟨8, 4, 64⟩⟩ .null .null [backWall, sliverWall 64] := by
  rw [BuildBVH_leaf _ _ _ (by decide)]
  congr 1
  simp only [computeBounds, List.foldl, growBounds, TriangleCombined.ComputeAABB, backWall,
    sliverWall]
  norm_num

theorem dense_bounds :
    computeBounds backWall [sliverWall (-100), sliverWall 64, sliverWall 200, sliverWall 300]
      = ⟨⟨-8, -4, -200⟩, ⟨8, 4, 300⟩⟩ := by
  simp only [computeBounds, List.foldl, growBounds, TriangleCombined.ComputeAABB, backWall,
    sliverWall]
  norm_num

theorem dense_tree :
    BuildBVH (insertionSort : StdSort ℚ)
      [backWall, sliverWall (-100), sliverWall 64, sliverWall 200, sliverWall 300]
      = .node ⟨⟨-8, -4, -200⟩, ⟨8, 4, 300⟩⟩
          (.node ⟨⟨-8, -4, -200⟩, ⟨8, 4, -100⟩⟩ .null .null [backWall, sliverWall (-100)])
          (.node ⟨⟨1 / 42535295865117307932921825928971026432, -4, 64⟩, ⟨8, 4, 300⟩⟩ .null .null
            [sliverWall 64, sliverWall 200, sliverWall 300]) [] := by
  have hax : splitAxis (insertionSort : StdSort ℚ).fpu
      (computeBounds backWall
        [sliverWall (-100), sliverWall 64, sliverWall 200, sliverWall 300]) = 2 := by
    rw [dense_bounds]
    simp only [splitAxis, extent, insertionSort, exactUnit]
    norm_num [OVERFLOW, Flt.lt]
  have hsort : (insertionSort : StdSort ℚ).sort 2
      [backWall, sliverWall (-100), sliverWall 64, sliverWall 200, sliverWall 300]
      = [backWall, sliverWall (-100), sliverWall 64, sliverWall 200, sliverWall 300] := by
    show List.insertionSort _ _ = _
    apply List.Sorted.insertionSort_eq
    simp only [List.Sorted, List.pairwise_cons, List.mem_cons, List.mem_singleton,
      List.not_mem_nil, forall_eq_or_imp, forall_eq, List.Pairwise.nil, and_true,
      false_imp_iff, implies_true]
    have k0 : centerKey (exactUnit : FloatUnit ℚ) 2 backWall = Flt.fin (-200) :=
      centerKey_flat _ _ (by norm_num) (by norm_num)
        (by norm_num [TriangleCombined.ComputeAABB, backWall])
        (by norm_num [TriangleCombined.ComputeAABB, backWall])
    have k : ∀ z : ℚ, -1000 ≤ z → z ≤ 1000 →
        centerKey (exactUnit : FloatUnit ℚ) 2 (sliverWall z) = Flt.fin z := by
      intro z h1 h2
      exact centerKey_flat _ _ h1 h2
        (by simp only [TriangleCombined.ComputeAABB, sliverWall, min_self])
        (by simp only [TriangleCombined.ComputeAABB, sliverWall, max_self])
    have k1 := k (-100) (by norm_num) (by norm_num)
    have k2 := k 64 (by norm_num) (by norm_num)
    have k3 := k 200 (by norm_num) (by norm_num)
    have k4 := k 300 (by norm_num) (by norm_num)
    rw [k0, k1, k2, k3, k4]
    simp only [rank_fin_le]
    norm_num
  have hb := BuildBVH_split (insertionSort : StdSort ℚ) backWall
    [sliverWall (-100), sliverWall 64, sliverWall 200, sliverWall 300] (by decide)
  rw [hax, hsort, dense_bounds] at hb
  rw [hb]
  have h1 : List.take
      ([backWall, sliverWall (-100), sliverWall 64, sliverWall 200, sliverWall 300].length / 2)
      [backWall, sliverWall (-100), sliverWall 64, sliverWall 200, sliverWall 300]
      = [backWall, sliverWall (-100)] := rfl
  have h2 : List.drop
      ([backWall, sliverWall (-100), sliverWall 64, sliverWall 200, sliverWall 300].length / 2)
      [backWall, sliverWall (-100), sliverWall 64, sliverWall 200, sliverWall 300]
      = [sliverWall 64, sliverWall 200, sliverWall 300] := rfl
  rw [h1, h2, BuildBVH_leaf _ _ _ (by decide), BuildBVH_leaf _ _ _ (by decide)]
  congr 2
  · simp only [computeBounds, List.foldl, growBounds, TriangleCombined.ComputeAABB, backWall,
      sliverWall]
    norm_num
  · simp only [computeBounds, List.foldl, growBounds, TriangleCombined.ComputeAABB,
      sliverWall]
    norm_num

theorem grazing_boxes :
    (⟨⟨-8, -4, -200⟩, ⟨8, 4, 64⟩⟩ : AABB ℚ).RayIntersects ⟨0, 0, 0⟩
      ⟨1 / 1361129467683753853853498429727072845824, 0, 1⟩ = true ∧
    (⟨⟨-8, -4, -200⟩, ⟨8, 4, -100⟩⟩ : AABB ℚ).RayIntersects ⟨0, 0, 0⟩
      ⟨1 / 1361129467683753853853498429727072845824, 0, 1⟩ = false ∧
    (⟨⟨1 / 42535295865117307932921825928971026432, -4, 64⟩, ⟨8, 4, 300⟩⟩ : AABB ℚ).RayIntersects
      ⟨0, 0, 0⟩ ⟨1 / 1361129467683753853853498429727072845824, 0, 1⟩ = false := by
  have r1 : Flt.recip false (1 / 1361129467683753853853498429727072845824 : ℚ) = Flt.pinf := by
    norm_num [Flt.recip, OVERFLOW]
  have r2 : Flt.recip false (0 : ℚ) = Flt.pinf := by
    norm_num [Flt.recip]
  have r3 : Flt.recip false (1 : ℚ) = Flt.fin 1 := by
    norm_num [Flt.recip, OVERFLOW]
  refine ⟨?_, ?_, ?_⟩ <;>
    simp only [AABB.RayIntersects, AABB.RayIntersectsSigned, AABB.slabAxis, r1, r2, r3] <;>
    norm_num [Flt.mul, Flt.lt, Flt.ge, Flt.stdMax, Flt.stdMin, FLT_MAX]

theorem grazing_hits :
    RayIntersectsTriangle (⟨0, 0, 0⟩ : Vec3 ℚ)
      ⟨1 / 1361129467683753853853498429727072845824, 0, 1⟩ backWall = none ∧
    RayIntersectsTriangle (⟨0, 0, 0⟩ : Vec3 ℚ)
      ⟨1 / 1361129467683753853853498429727072845824, 0, 1⟩ (sliverWall 64) = some 64 := by
  constructor
  · norm_num [RayIntersectsTriangle, Subtract, Cross, Dot, EPSILON, backWall]
  · norm_num [RayIntersectsTriangle, Subtract, Cross, Dot, EPSILON, sliverWall]

/-- Claim C4 as stated fails when a quotient `1.0f / D[i]` of the slab test overflows.  The
scene `sparseScene` is one mesh of two triangles: a wall behind the observer and the
triangle `(2^-125, -4, 64), (8, -4, 64), (2^-125, 4, 64)`.  The query from the origin to
`(2^-123, 0, 128)` has `distance = 128` and direction `(2^-130, 0, 1)`; the single leaf
has `bounds.min.x = -8`, the slab test passes, the triangle is hit at `t = 64` and the
answer is BLOCKED.  `denseScene` adds three triangles to the same mesh.  Its five triangles
are split along `z`; the triangle that is hit now lies in the right leaf, whose
`bounds.min.x` is `2^-125`.  There `invDir = 1.0f / 2^-130` is `+inf`, both `t0` and `t1`
are `+inf`, `tmin` becomes `+inf`, `tmax` stays `FLT_MAX`, and `tmax >= tmin` fails: the
leaf is skipped.  The left leaf lies behind the observer, so the answer is VISIBLE. -/
theorem occlusion_monotone_counterexample :
    (LoadGeometry (insertionSort : StdSort ℚ) VisCheck.empty sparseScene).1 = true ∧
    (LoadGeometry (insertionSort : StdSort ℚ) VisCheck.empty denseScene).1 = true ∧
    (∀ mesh ∈ sparseScene, ∀ T ∈ mesh, ∃ mesh2 ∈ denseScene, T ∈ mesh2) ∧
    rayDirOf Rat.sqrt (⟨0, 0, 0⟩ : Vec3 ℚ) grazingTarget
      = ⟨1 / 1361129467683753853853498429727072845824, 0, 1⟩ ∧
    ¬ DirExact (rayDirOf Rat.sqrt (⟨0, 0, 0⟩ : Vec3 ℚ) grazingTarget) ∧
    IsVisible Rat.sqrt (LoadGeometry (insertionSort : StdSort ℚ) VisCheck.empty sparseScene).2
      ⟨0, 0, 0⟩ grazingTarget = false ∧
    IsVisible Rat.sqrt (LoadGeometry (insertionSort : StdSort ℚ) VisCheck.empty denseScene).2
      ⟨0, 0, 0⟩ grazingTarget = true := by
  obtain ⟨hlsq, hdist, hdir⟩ := grazing_ray
  obtain ⟨b1, b2, b3⟩ := grazing_boxes
  obtain ⟨t1, t2⟩ := grazing_hits
  have hnear : ¬ distanceOf Rat.sqrt (⟨0, 0, 0⟩ : Vec3 ℚ) grazingTarget < MIN_DISTANCE := by
    rw [hdist]; norm_num [MIN_DISTANCE]
  have hs := LoadGeometry_one_mesh (insertionSort : StdSort ℚ) backWall [sliverWall 64]
  have hd := LoadGeometry_one_mesh (insertionSort : StdSort ℚ) backWall
    [sliverWall (-100), sliverWall 64, sliverWall 200, sliverWall 300]
  refine ⟨?_, ?_, ?_, hdir, ?_, ?_, ?_⟩
  · rw [sparseScene, hs]
  · rw [denseScene, hd]
  · intro mesh hm T hT
    refine ⟨_, List.mem_singleton_self _, ?_⟩
    simp only [sparseScene, List.mem_singleton] at hm
    subst hm
    simp only [List.mem_cons, List.mem_singleton, List.not_mem_nil, or_false] at hT
    rcases hT with rfl | rfl
    · exact List.mem_cons_self _ _
    · exact List.mem_cons_of_mem _ (List.mem_cons_of_mem _ (List.mem_cons_self _ _))
  · rw [hdir]
    rintro ⟨hx, _⟩
    rcases hx with hx | hx
    · norm_num at hx
    · have := hx.2
      norm_num [OVERFLOW] at this
  · rw [sparseScene, hs, IsVisible_eq_loop Rat.sqrt _ _ _ rfl (List.cons_ne_nil _ _) hlsq hnear,
      hdir, hdist]
    simp only [sparse_tree, visibleLoop, IntersectBVH, b1, IsLeaf_null, List.foldl, leafStep,
      t1, t2]
    norm_num [FLT_MAX]
  · rw [denseScene, hd, IsVisible_eq_loop Rat.sqrt _ _ _ rfl (List.cons_ne_nil _ _) hlsq hnear,
      hdir, hdist]
    have hroot : IntersectBVH
        (.node ⟨⟨-8, -4, -200⟩, ⟨8, 4, 300⟩⟩
          (.node ⟨⟨-8, -4, -200⟩, ⟨8, 4, -100⟩⟩ .null .null [backWall, sliverWall (-100)])
          (.node ⟨⟨1 / 42535295865117307932921825928971026432, -4, 64⟩, ⟨8, 4, 300⟩⟩ .null .null
            [sliverWall 64, sliverWall 200, sliverWall 300]) [])
        (⟨0, 0, 0⟩ : Vec3 ℚ) ⟨1 / 1361129467683753853853498429727072845824, 0, 1⟩ 128 FLT_MAX
        = (false, FLT_MAX) := by
      rw [IntersectBVH]
      split_ifs
      · rfl
      · rfl
      · simp only [IntersectBVH, b2, b3, Bool.not_false, if_true, Bool.or_self]
    simp only [dense_tree, visibleLoop, hroot, Bool.false_eq_true, if_false]

/-! ## Claims C5 to C7: the built tree -/

/-- Claim C5.  For every non-empty triangle list `tris`, the triangle lists of the leaves of
`BuildBVH(tris)`, concatenated from left to right, are a permutation of `tris`: every
triangle occurs in the leaves exactly as often as in the input, none is lost, duplicated or
invented. -/
theorem BuildBVH_leaves_perm (S : StdSort F) (tris : List (TriangleCombined F))
    (hne : tris ≠ []) :
    List.Perm (extractTriangles (BuildBVH S tris)) tris ∧
    (∀ T, (extractTriangles (BuildBVH S tris)).count T = tris.count T) ∧
    (extractTriangles (BuildBVH S tris)).length = tris.length :=
  ⟨extractTriangles_BuildBVH_perm S tris hne,
    fun T => (extractTriangles_BuildBVH_perm S tris hne).count_eq T,
    (extractTriangles_BuildBVH_perm S tris hne).length_eq⟩

/-- Claim C5 on six triangles sorted by insertion sort. -/
theorem BuildBVH_leaves_perm_witness :
    sixTriangles ≠ [] ∧
    (List.Perm (extractTriangles (BuildBVH insertionSort sixTriangles)) sixTriangles ∧
    (∀ T, (extractTriangles (BuildBVH insertionSort sixTriangles)).count T
      = sixTriangles.count T) ∧
    (extractTriangles (BuildBVH insertionSort sixTriangles)).length = sixTriangles.length) :=
  ⟨List.cons_ne_nil _ _, BuildBVH_leaves_perm insertionSort sixTriangles (List.cons_ne_nil _ _)⟩

/-- Claim C6.  For every non-empty triangle list `tris`, every node of `BuildBVH(tris)` is
either an internal node with both children non-null and an empty triangle list, or a leaf
with no children holding between 1 and 4 triangles; the root is a leaf exactly when
`|tris| ≤ 4`. -/
theorem BuildBVH_shape (S : StdSort F) (tris : List (TriangleCombined F)) (hne : tris ≠ []) :
    (∀ n ∈ subnodes (BuildBVH S tris), WellShaped n) ∧
    (RootIsLeaf (BuildBVH S tris) ↔ tris.length ≤ 4) := by
  refine ⟨?_, (BuildBVH_root_shape S tris hne).2⟩
  intro n hn
  obtain ⟨ts, hts, rfl⟩ := subnodes_BuildBVH S tris hne n hn
  exact (BuildBVH_root_shape S ts hts).1

/-- Claim C6 on six triangles sorted by insertion sort. -/
theorem BuildBVH_shape_witness :
    sixTriangles ≠ [] ∧
    ((∀ n ∈ subnodes (BuildBVH insertionSort sixTriangles), WellShaped n) ∧
    (RootIsLeaf (BuildBVH insertionSort sixTriangles) ↔ sixTriangles.length ≤ 4)) :=
  ⟨List.cons_ne_nil _ _, BuildBVH_shape insertionSort sixTriangles (List.cons_ne_nil _ _)⟩

/-- Claim C7.  For every non-empty triangle list `tris`, the bounds of every node of
`BuildBVH(tris)` are tight: on each axis `bounds.min` is the minimum and `bounds.max` the
maximum of that coordinate over all vertices of all triangles in the leaves of the node's
subtree.  Consequently `min ≤ max` on every axis, the bounds contain the AABB of every
triangle below the node, and the bounds of an internal node contain the bounds of both
children (all of this is `TightNode`). -/
theorem BuildBVH_bounds_tight (S : StdSort F) (tris : List (TriangleCombined F))
    (hne : tris ≠ []) : ∀ n ∈ subnodes (BuildBVH S tris), TightNode n := by
  intro n hn
  obtain ⟨ts, hts, rfl⟩ := subnodes_BuildBVH S tris hne n hn
  exact BuildBVH_root_tight S ts hts

/-- Claim C7 on six triangles sorted by insertion sort. -/
theorem BuildBVH_bounds_tight_witness :
    sixTriangles ≠ [] ∧ ∀ n ∈ subnodes (BuildBVH insertionSort sixTriangles), TightNode n :=
  ⟨List.cons_ne_nil _ _, BuildBVH_bounds_tight insertionSort sixTriangles (List.cons_ne_nil _ _)⟩

/-! ## Claims C8 to C10: the two intersection tests -/

/-- Claim C8.  In exact arithmetic, if `RayIntersectsTriangle(O, D, T)` returns true with
output `t`, then `t > 1e-7` and there are `u ≥ 0`, `v ≥ 0` with `u + v ≤ 1` such that
`O + t·D = v0 + u·(v1 − v0) + v·(v2 − v0)`: the reported hit point lies in the triangle. -/
theorem RayIntersectsTriangle_hit_inside (o d : Vec3 F) (T : TriangleCombined F) (t : F)
    (hit : RayIntersectsTriangle o d T = some t) :
    1e-7 < t ∧ ∃ u v : F, 0 ≤ u ∧ 0 ≤ v ∧ u + v ≤ 1 ∧
      o.x + t * d.x = T.v0.x + u * (T.v1.x - T.v0.x) + v * (T.v2.x - T.v0.x) ∧
      o.y + t * d.y = T.v0.y + u * (T.v1.y - T.v0.y) + v * (T.v2.y - T.v0.y) ∧
      o.z + t * d.z = T.v0.z + u * (T.v1.z - T.v0.z) + v * (T.v2.z - T.v0.z) := by
  obtain ⟨h1, h2, _, h4, h5, h6, h7⟩ := (RayIntersectsTriangle_eq_some o d T t).mp hit
  obtain ⟨px, py, pz⟩ := hit_point o d T (detA_ne_zero d T h1)
  rw [← h7] at px py pz h6
  exact ⟨lt_trans EPSILON_gt h6, baryU o d T, baryV o d T, h2, h4, h5, px, py, pz⟩

/-- Claim C8 on the ray from (0,100,0) along `+z` and the first wall triangle of the demo
scene, hit at `t = 500`. -/
theorem RayIntersectsTriangle_hit_inside_witness :
    RayIntersectsTriangle (⟨0, 100, 0⟩ : Vec3 ℚ) ⟨0, 0, 1⟩
      ⟨⟨-100, 0, 500⟩, ⟨100, 0, 500⟩, ⟨100, 1000, 500⟩⟩ = some 500 ∧
    ((1e-7 : ℚ) < 500 ∧ ∃ u v : ℚ, 0 ≤ u ∧ 0 ≤ v ∧ u + v ≤ 1 ∧
      (0 : ℚ) + 500 * 0 = -100 + u * (100 - -100) + v * (100 - -100) ∧
      (100 : ℚ) + 500 * 0 = 0 + u * (0 - 0) + v * (1000 - 0) ∧
      (0 : ℚ) + 500 * 1 = 500 + u * (500 - 500) + v * (500 - 500)) :=
  ⟨by norm_num [RayIntersectsTriangle, Subtract, Cross, Dot, EPSILON],
    RayIntersectsTriangle_hit_inside (⟨0, 100, 0⟩ : Vec3 ℚ) ⟨0, 0, 1⟩
      ⟨⟨-100, 0, 500⟩, ⟨100, 0, 500⟩, ⟨100, 1000, 500⟩⟩ 500
      (by norm_num [RayIntersectsTriangle, Subtract, Cross, Dot, EPSILON])⟩

theorem detA_degenerate (d : Vec3 F) (T : TriangleCombined F) (h : Degenerate T) :
    detA d T = 0 := by
  obtain ⟨a, b, hab, hx, hy, hz⟩ := h
  have ea : a * detA d T = 0 := by
    simp only [detA, Dot, Cross, Subtract]
    linear_combination
      (d.y * (T.v2.z - T.v0.z) - d.z * (T.v2.y - T.v0.y)) * hx
      + (d.z * (T.v2.x - T.v0.x) - d.x * (T.v2.z - T.v0.z)) * hy
      + (d.x * (T.v2.y - T.v0.y) - d.y * (T.v2.x - T.v0.x)) * hz
  have eb : b * detA d T = 0 := by
    simp only [detA, Dot, Cross, Subtract]
    linear_combination
      (-(d.y * (T.v1.z - T.v0.z) - d.z * (T.v1.y - T.v0.y))) * hx
      + (-(d.z * (T.v1.x - T.v0.x) - d.x * (T.v1.z - T.v0.z))) * hy
      + (-(d.x * (T.v1.y - T.v0.y) - d.y * (T.v1.x - T.v0.x))) * hz
  rcases hab with h0 | h0
  · exact (mul_eq_zero.mp ea).resolve_left h0
  · exact (mul_eq_zero.mp eb).resolve_left h0

/-- Claim C9.  In exact arithmetic, for every degenerate triangle (collinear vertices,
coincident vertices included) and every ray origin and direction, `RayIntersectsTriangle`
returns false: the determinant `a = e1 · (D × e2)` is zero, so the parallelism test
`a > -EPSILON && a < EPSILON` rejects it. -/
theorem RayIntersectsTriangle_degenerate (o d : Vec3 F) (T : TriangleCombined F)
    (h : Degenerate T) :
    RayIntersectsTriangle o d T = none ∧
    Dot (Subtract T.v1 T.v0) (Cross d (Subtract T.v2 T.v0)) = 0 := by
  have ha : detA d T = 0 := detA_degenerate d T h
  have hp : (0 : F) < EPSILON := EPSILON_pos
  refine ⟨?_, ha⟩
  unfold detA at ha
  simp only [RayIntersectsTriangle, ha]
  rw [if_pos ⟨by linarith, hp⟩]

/-- Claim C9 on a triangle with three vertices on the line `y = z = 0`. -/
theorem RayIntersectsTriangle_degenerate_witness :
    Degenerate (⟨⟨0, 0, 0⟩, ⟨1, 0, 0⟩, ⟨2, 0, 0⟩⟩ : TriangleCombined ℚ) ∧
    (RayIntersectsTriangle (⟨1, 1, 0⟩ : Vec3 ℚ) ⟨0, -1, 0⟩ ⟨⟨0, 0, 0⟩, ⟨1, 0, 0⟩, ⟨2, 0, 0⟩⟩
      = none ∧
    Dot (Subtract (⟨1, 0, 0⟩ : Vec3 ℚ) ⟨0, 0, 0⟩)
      (Cross ⟨0, -1, 0⟩ (Subtract (⟨2, 0, 0⟩ : Vec3 ℚ) ⟨0, 0, 0⟩)) = 0) :=
  ⟨⟨2, -1, Or.inl (by norm_num), by norm_num, by norm_num, by norm_num⟩,
    RayIntersectsTriangle_degenerate (⟨1, 1, 0⟩ : Vec3 ℚ) ⟨0, -1, 0⟩
      ⟨⟨0, 0, 0⟩, ⟨1, 0, 0⟩, ⟨2, 0, 0⟩⟩
      ⟨2, -1, Or.inl (by norm_num), by norm_num, by norm_num, by norm_num⟩⟩

/-- Claim C10.  For every AABB and every ray whose origin lies inside the AABB
(`min ≤ origin ≤ max` on each axis), `AABB::RayIntersects(origin, dir)` returns true for
every direction, zero components included, whatever the sign bit of a zero component. -/
theorem RayIntersects_origin_inside (b : AABB F) (o d : Vec3 F) (h : AABB.Contains b o) :
    b.RayIntersects o d = true ∧
    ∀ nx ny nz : Bool, AABB.RayIntersectsSigned nx ny nz b o d = true := by
  have hM : (0 : F) < FLT_MAX := FLT_MAX_pos
  obtain ⟨x1, x2, y1, y2, z1, z2⟩ := h
  have key : ∀ nx ny nz : Bool, AABB.RayIntersectsSigned nx ny nz b o d = true := by
    intro nx ny nz
    refine RayIntersectsSigned_of_point nx ny nz b o d 0 (le_refl _) (le_of_lt hM) (Or.inl rfl)
      ?_ ?_ ?_ ?_ ?_ ?_ <;> simp only [zero_mul, add_zero] <;> assumption
  exact ⟨key false false false, key⟩

/-- Claim C10 on the unit box, the origin on its boundary and a direction along `-y`. -/
theorem RayIntersects_origin_inside_witness :
    AABB.Contains (⟨⟨0, 0, 0⟩, ⟨1, 1, 1⟩⟩ : AABB ℚ) ⟨0, 1, 1 / 2⟩ ∧
    ((⟨⟨0, 0, 0⟩, ⟨1, 1, 1⟩⟩ : AABB ℚ).RayIntersects ⟨0, 1, 1 / 2⟩ ⟨0, -1, 0⟩ = true ∧
    ∀ nx ny nz : Bool,
      AABB.RayIntersectsSigned nx ny nz (⟨⟨0, 0, 0⟩, ⟨1, 1, 1⟩⟩ : AABB ℚ) ⟨0, 1, 1 / 2⟩
        ⟨0, -1, 0⟩ = true) :=
  ⟨by norm_num [AABB.Contains],
    RayIntersects_origin_inside (⟨⟨0, 0, 0⟩, ⟨1, 1, 1⟩⟩ : AABB ℚ) ⟨0, 1, 1 / 2⟩ ⟨0, -1, 0⟩
      (by norm_num [AABB.Contains])⟩

/-! ## The order of float values -/

theorem Flt_lt_irrefl (a : Flt F) : Flt.lt a a = false := by
  cases a <;> simp [Flt.lt]

theorem Flt_lt_trans (a b c : Flt F) (h1 : Flt.lt a b = true) (h2 : Flt.lt b c = true) :
    Flt.lt a c = true := by
  cases a <;> cases b <;> cases c <;> simp [Flt.lt] at h1 h2 ⊢
  exact lt_trans h1 h2

theorem Flt_lt_asymm (a b : Flt F) (h : Flt.lt a b = true) : Flt.lt b a = false := by
  cases a <;> cases b <;> simp [Flt.lt] at h ⊢
  exact le_of_lt h

theorem Flt_lt_cotrans (a b c : Flt F) (hb : b ≠ Flt.nan) (h : Flt.lt a c = true) :
    Flt.lt a b = true ∨ Flt.lt b c = true := by
  cases a <;> cases b <;> cases c <;> simp [Flt.lt] at h hb ⊢
  exact h.lt_or_lt _

theorem Flt_eq_of_not_lt (a b : Flt F) (ha : a ≠ Flt.nan) (hb : b ≠ Flt.nan)
    (h1 : Flt.lt a b = false) (h2 : Flt.lt b a = false) : a = b := by
  cases a <;> cases b <;> simp [Flt.lt] at h1 h2 ha hb ⊢
  exact le_antisymm h2 h1

/-! ## The split axis -/

theorem extent_ne_nan (R : FloatUnit F) (b : AABB F) (i : Nat) : extent R b i ≠ Flt.nan := by
  unfold extent
  split_ifs <;> exact R.round_ne_nan _

theorem axis_choice (dx dy dz : Flt F) (a : Nat) (ext : Nat → Flt F) (hy : dy ≠ Flt.nan)
    (ha : a = if Flt.lt dy dx = true ∧ Flt.lt dz dx = true then 0
      else (if Flt.lt dz dy = true then 1 else 2))
    (hext : ∀ i, ext i = if i = 0 then dx else if i = 1 then dy else dz) :
    a ≤ 2 ∧ (∀ i, Flt.lt (ext a) (ext i) = false) ∧ (∀ i, i ≤ 2 → ext i = ext a → i ≤ a) ∧
    (a = 0 ↔ Flt.lt (ext 1) (ext 0) = true ∧ Flt.lt (ext 2) (ext 0) = true) ∧
    (a = 1 ↔ ¬ (Flt.lt (ext 1) (ext 0) = true ∧ Flt.lt (ext 2) (ext 0) = true) ∧
      Flt.lt (ext 2) (ext 1) = true) := by
  have e0 : ext 0 = dx := by rw [hext]; simp
  have e1 : ext 1 = dy := by rw [hext]; simp
  have e2 : ext 2 = dz := by rw [hext]; simp
  have hi : ∀ i, ext i = dx ∨ ext i = dy ∨ ext i = dz := by
    intro i
    rw [hext]
    split_ifs
    · exact Or.inl rfl
    · exact Or.inr (Or.inl rfl)
    · exact Or.inr (Or.inr rfl)
  have hcases : ∀ i, i ≤ 2 → i = 0 ∨ i = 1 ∨ i = 2 := by
    intro i h; omega
  rw [e0, e1, e2]
  by_cases c1 : Flt.lt dy dx = true ∧ Flt.lt dz dx = true
  · rw [if_pos c1] at ha
    subst ha
    rw [e0]
    refine ⟨by omega, ?_, ?_, ⟨fun _ => c1, fun _ => rfl⟩,
      ⟨fun h => absurd h (by omega), fun h => absurd c1 h.1⟩⟩
    · intro i
      rcases hi i with h | h | h <;> rw [h]
      · exact Flt_lt_irrefl dx
      · exact Flt_lt_asymm dy dx c1.1
      · exact Flt_lt_asymm dz dx c1.2
    · intro i hi2 heq
      rcases hcases i hi2 with rfl | rfl | rfl
      · exact le_refl _
      · rw [e1] at heq
        have := c1.1
        rw [heq, Flt_lt_irrefl] at this
        cases this
      · rw [e2] at heq
        have := c1.2
        rw [heq, Flt_lt_irrefl] at this
        cases this
  · rw [if_neg c1] at ha
    by_cases c2 : Flt.lt dz dy = true
    · rw [if_pos c2] at ha
      subst ha
      rw [e1]
      refine ⟨by omega, ?_, ?_, ⟨fun h => absurd h (by omega), fun h => absurd h c1⟩,
        ⟨fun _ => ⟨c1, c2⟩, fun _ => rfl⟩⟩
      · intro i
        rcases hi i with h | h | h <;> rw [h]
        · cases hyx : Flt.lt dy dx with
          | false => rfl
          | true => exact absurd ⟨hyx, Flt_lt_trans dz dy dx c2 hyx⟩ c1
        · exact Flt_lt_irrefl dy
        · exact Flt_lt_asymm dz dy c2
      · intro i hi2 heq
        rcases hcases i hi2 with rfl | rfl | rfl
        · omega
        · exact le_refl _
        · rw [e2] at heq
          rw [heq, Flt_lt_irrefl] at c2
          cases c2
    · rw [if_neg c2] at ha
      subst ha
      rw [e2]
      refine ⟨le_refl _, ?_, fun i hi2 _ => hi2,
        ⟨fun h => absurd h (by omega), fun h => absurd h c1⟩,
        ⟨fun h => absurd h (by omega), fun h => absurd h.2 c2⟩⟩
      intro i
      rcases hi i with h | h | h <;> rw [h]
      · cases hzx : Flt.lt dz dx with
        | false => rfl
        | true =>
          rcases Flt_lt_cotrans dz dy dx hy hzx with h1 | h1
          · exact absurd h1 c2
          · exact absurd ⟨h1, hzx⟩ c1
      · exact Bool.eq_false_iff.mpr c2
      · exact Flt_lt_irrefl dz

theorem splitAxis_spec (R : FloatUnit F) (b : AABB F) :
    splitAxis R b ≤ 2 ∧
    (∀ i, Flt.lt (extent R b (splitAxis R b)) (extent R b i) = false) ∧
    (∀ i, i ≤ 2 → extent R b i = extent R b (splitAxis R b) → i ≤ splitAxis R b) ∧
    (splitAxis R b = 0 ↔
      Flt.lt (extent R b 1) (extent R b 0) = true ∧ Flt.lt (extent R b 2) (extent R b 0) = true) ∧
    (splitAxis R b = 1 ↔
      ¬ (Flt.lt (extent R b 1) (extent R b 0) = true ∧
        Flt.lt (extent R b 2) (extent R b 0) = true) ∧
      Flt.lt (extent R b 2) (extent R b 1) = true) := by
  refine axis_choice (extent R b 0) (extent R b 1) (extent R b 2) (splitAxis R b) (extent R b)
    (extent_ne_nan R b 1) rfl ?_
  intro i
  by_cases h0 : i = 0
  · subst h0; simp
  · by_cases h1 : i = 1
    · subst h1; simp
    · simp only [extent, h0, h1, if_false]
      simp

theorem tieTriangles_bounds :
    computeBounds (⟨⟨0, 0, 0⟩, ⟨1, 0, 0⟩, ⟨0, 1, 0⟩⟩ : TriangleCombined ℚ)
      [⟨⟨1, 1, 0⟩, ⟨1, 0, 0⟩, ⟨0, 1, 0⟩⟩, ⟨⟨0, 0, 0⟩, ⟨1, 0, 0⟩, ⟨1, 1, 0⟩⟩,
       ⟨⟨0, 0, 0⟩, ⟨1, 1, 0⟩, ⟨0, 1, 0⟩⟩, ⟨⟨0, 0, 0⟩, ⟨1, 0, 0⟩, ⟨0, 1, 0⟩⟩]
      = ⟨⟨0, 0, 0⟩, ⟨1, 1, 0⟩⟩ := by
  simp [computeBounds, growBounds, TriangleCombined.ComputeAABB]

/-- Claim C20, amended.  For every triangle list with more than 4 triangles, `BuildBVH`
sorts by the key on the axis `splitAxis bounds` and splits there.  The axis is chosen from
the three float differences `diff = bounds.max − bounds.min` as the source computes them:
X only when `diff.x` is strictly larger than both others, otherwise Y only when `diff.y` is
strictly larger than `diff.z`, otherwise Z.  So no axis has a strictly larger `diff` than
the chosen one, and when two or three axes tie for the largest `diff`, also when rounding
made them tie, the highest-indexed of them is chosen (Z is preferred over Y and Y over X).
When the three differences are computed without rounding error, the chosen axis is an
axis of maximal extent, the highest-indexed of them. -/
theorem BuildBVH_split_axis (S : StdSort F) (first : TriangleCombined F)
    (rest : List (TriangleCombined F)) (h : 4 < (first :: rest).length) :
    BuildBVH S (first :: rest)
      = .node (computeBounds first rest)
          (BuildBVH S ((S.sort (splitAxis S.fpu (computeBounds first rest)) (first :: rest)).take
            ((S.sort (splitAxis S.fpu (computeBounds first rest)) (first :: rest)).length / 2)))
          (BuildBVH S ((S.sort (splitAxis S.fpu (computeBounds first rest)) (first :: rest)).drop
            ((S.sort (splitAxis S.fpu (computeBounds first rest)) (first :: rest)).length / 2)))
          [] ∧
    splitAxis S.fpu (computeBounds first rest) ≤ 2 ∧
    (∀ i, Flt.lt
      (extent S.fpu (computeBounds first rest) (splitAxis S.fpu (computeBounds first rest)))
      (extent S.fpu (computeBounds first rest) i) = false) ∧
    (∀ i, i ≤ 2 →
      extent S.fpu (computeBounds first rest) i
        = extent S.fpu (computeBounds first rest) (splitAxis S.fpu (computeBounds first rest)) →
      i ≤ splitAxis S.fpu (computeBounds first rest)) ∧
    (splitAxis S.fpu (computeBounds first rest) = 0 ↔
      Flt.lt (extent S.fpu (computeBounds first rest) 1)
        (extent S.fpu (computeBounds first rest) 0) = true ∧
      Flt.lt (extent S.fpu (computeBounds first rest) 2)
        (extent S.fpu (computeBounds first rest) 0) = true) ∧
    (splitAxis S.fpu (computeBounds first rest) = 1 ↔
      ¬ (Flt.lt (extent S.fpu (computeBounds first rest) 1)
          (extent S.fpu (computeBounds first rest) 0) = true ∧
        Flt.lt (extent S.fpu (computeBounds first rest) 2)
          (extent S.fpu (computeBounds first rest) 0) = true) ∧
      Flt.lt (extent S.fpu (computeBounds first rest) 2)
        (extent S.fpu (computeBounds first rest) 1) = true) ∧
    ((∀ i, extent S.fpu (computeBounds first rest) i
        = Flt.fin (exactExtent (computeBounds first rest) i)) →
      (∀ i, exactExtent (computeBounds first rest) i
        ≤ exactExtent (computeBounds first rest) (splitAxis S.fpu (computeBounds first rest))) ∧
      (∀ i, i ≤ 2 →
        exactExtent (computeBounds first rest) i
          = exactExtent (computeBounds first rest)
              (splitAxis S.fpu (computeBounds first rest)) →
        i ≤ splitAxis S.fpu (computeBounds first rest))) := by
  have hs := splitAxis_spec S.fpu (computeBounds first rest)
  refine ⟨BuildBVH_split S first rest ?_, hs.1, hs.2.1, hs.2.2.1, hs.2.2.2.1, hs.2.2.2.2, ?_⟩
  · unfold LEAF_THRESHOLD
    omega
  · intro hex
    constructor
    · intro i
      have h1 := hs.2.1 i
      rw [hex, hex] at h1
      simp only [Flt.lt, decide_eq_false_iff_not, not_lt] at h1
      exact h1
    · intro i hi heq
      refine hs.2.2.1 i hi ?_
      rw [hex, hex, heq]

/-- Claim C20 (amended) on five triangles over the rationals. -/
theorem BuildBVH_split_axis_witness :
    4 < ((⟨⟨0, 0, 0⟩, ⟨1, 0, 0⟩, ⟨0, 1, 0⟩⟩ : TriangleCombined ℚ) ::
      [⟨⟨1, 1, 0⟩, ⟨1, 0, 0⟩, ⟨0, 1, 0⟩⟩, ⟨⟨0, 0, 0⟩, ⟨1, 0, 0⟩, ⟨1, 1, 0⟩⟩,
       ⟨⟨0, 0, 0⟩, ⟨1, 1, 0⟩, ⟨0, 1, 0⟩⟩, ⟨⟨0, 0, 0⟩, ⟨1, 0, 0⟩, ⟨0, 1, 0⟩⟩]).length ∧
    splitAxis (insertionSort : StdSort ℚ).fpu
      (computeBounds (⟨⟨0, 0, 0⟩, ⟨1, 0, 0⟩, ⟨0, 1, 0⟩⟩ : TriangleCombined ℚ)
      [⟨⟨1, 1, 0⟩, ⟨1, 0, 0⟩, ⟨0, 1, 0⟩⟩, ⟨⟨0, 0, 0⟩, ⟨1, 0, 0⟩, ⟨1, 1, 0⟩⟩,
       ⟨⟨0, 0, 0⟩, ⟨1, 1, 0⟩, ⟨0, 1, 0⟩⟩, ⟨⟨0, 0, 0⟩, ⟨1, 0, 0⟩, ⟨0, 1, 0⟩⟩]) ≤ 2 :=
  ⟨by decide, (BuildBVH_split_axis insertionSort _ _ (by decide)).2.1⟩

/-- Claim C20, the claim as written fails: the bounds of `tieTriangles` (five triangles)
are `[0,1] × [0,1] × [0,0]`, so x and y tie for the largest extent (the float differences
`1`, `1`, `0` are exact), and `BuildBVH` splits on axis 1 (y), not on the lowest-indexed
axis 0 (x). -/
theorem BuildBVH_split_axis_counterexample :
    4 < tieTriangles.length ∧
    (∃ b l r, BuildBVH insertionSort tieTriangles = .node b l r [] ∧
      l = BuildBVH insertionSort
        ((insertionSort.sort (splitAxis insertionSort.fpu b) tieTriangles).take 2) ∧
      exactExtent b 0 = exactExtent b 1 ∧ exactExtent b 2 < exactExtent b 0 ∧
      extent insertionSort.fpu b 0 = Flt.fin 1 ∧ extent insertionSort.fpu b 1 = Flt.fin 1 ∧
      extent insertionSort.fpu b 2 = Flt.fin 0 ∧
      splitAxis insertionSort.fpu b = 1) := by
  refine ⟨by decide, _, _, _, BuildBVH_split insertionSort _ _ (by decide), ?_, ?_, ?_, ?_, ?_,
    ?_, ?_⟩
  · have hl : (insertionSort.sort (splitAxis insertionSort.fpu (computeBounds
        (⟨⟨0, 0, 0⟩, ⟨1, 0, 0⟩, ⟨0, 1, 0⟩⟩ : TriangleCombined ℚ)
        [⟨⟨1, 1, 0⟩, ⟨1, 0, 0⟩, ⟨0, 1, 0⟩⟩, ⟨⟨0, 0, 0⟩, ⟨1, 0, 0⟩, ⟨1, 1, 0⟩⟩,
         ⟨⟨0, 0, 0⟩, ⟨1, 1, 0⟩, ⟨0, 1, 0⟩⟩, ⟨⟨0, 0, 0⟩, ⟨1, 0, 0⟩, ⟨0, 1, 0⟩⟩]))
        tieTriangles).length = 5 :=
      (insertionSort.perm _ _).length_eq
    rw [tieTriangles] at hl ⊢
    rw [hl]
  · rw [tieTriangles_bounds]; norm_num [exactExtent]
  · rw [tieTriangles_bounds]; norm_num [exactExtent]
  · rw [tieTriangles_bounds]; norm_num [extent, insertionSort, exactUnit, OVERFLOW]
  · rw [tieTriangles_bounds]; norm_num [extent, insertionSort, exactUnit, OVERFLOW]
  · rw [tieTriangles_bounds]; norm_num [extent, insertionSort, exactUnit, OVERFLOW]
  · rw [tieTriangles_bounds]
    norm_num [splitAxis, extent, insertionSort, exactUnit, OVERFLOW, Flt.lt]

/-! ## Claims C14, C16 and C19: the engine state after `LoadGeometry` -/

theorem LoadGeometry_cons (S : StdSort F) (e0 : VisCheck F) (m : List (TriangleCombined F))
    (ms : List (List (TriangleCombined F))) :
    LoadGeometry S e0 (m :: ms)
      = (decide ((((m :: ms).filter (fun x => !x.isEmpty)).map (BuildBVH S)).length > 0),
          { meshes := m :: ms
            bvhNodes := ((m :: ms).filter (fun x => !x.isEmpty)).map (BuildBVH S)
            geometryLoaded :=
              decide ((((m :: ms).filter (fun x => !x.isEmpty)).map (BuildBVH S)).length
                > 0) }) := by
  have h := foldl_loadStep S (m :: ms) []
  rw [List.nil_append] at h
  unfold LoadGeometry
  simp only [List.isEmpty_cons, Bool.false_eq_true, if_false, h, List.length_cons,
    gt_iff_lt, Nat.zero_lt_succ, decide_True, Bool.true_and]

theorem LoadGeometry_nil (S : StdSort F) (e0 : VisCheck F) :
    LoadGeometry S e0 [] = (false, e0) := by
  simp [LoadGeometry]

/-- Claim C16.  `LoadGeometry(M)` returns true if and only if `M` contains at least one
non-empty mesh: the empty list and a list of only empty meshes return false, and an empty
mesh next to a non-empty one does not make the load fail.  When it returns true, `bvhNodes`
holds exactly one root per non-empty mesh, `BuildBVH` of that mesh, in mesh order. -/
theorem LoadGeometry_result (S : StdSort F) (e0 : VisCheck F)
    (M : List (List (TriangleCombined F))) :
    ((LoadGeometry S e0 M).1 = true ↔ ∃ mesh ∈ M, mesh ≠ []) ∧
    (LoadGeometry S e0 []).1 = false ∧
    ((∀ mesh ∈ M, mesh = []) → (LoadGeometry S e0 M).1 = false) ∧
    ((LoadGeometry S e0 M).1 = true →
      (LoadGeometry S e0 M).2.bvhNodes
        = (M.filter (fun mesh => !mesh.isEmpty)).map (BuildBVH S) ∧
      (LoadGeometry S e0 M).2.bvhNodes.length
        = (M.filter (fun mesh => !mesh.isEmpty)).length) := by
  refine ⟨LoadGeometry_fst S e0 M, by rw [LoadGeometry_nil], ?_, ?_⟩
  · intro hall
    rw [← Bool.not_eq_true, LoadGeometry_fst]
    rintro ⟨mesh, hm, hne⟩
    exact hne (hall mesh hm)
  · intro h
    have h3 := (LoadGeometry_true S e0 _ M (LoadGeometry_eta S e0 M h)).2.2.1
    exact ⟨h3, by rw [h3, List.length_map]⟩

/-- Claim C16 on a list holding an empty mesh and the wall of the demo scene. -/
theorem LoadGeometry_result_witness :
    (LoadGeometry (insertionSort : StdSort ℚ) VisCheck.empty [[], demoWall]).1 = true ∧
    (LoadGeometry (insertionSort : StdSort ℚ) VisCheck.empty [[], demoWall]).2.bvhNodes
      = [BuildBVH insertionSort demoWall] := by
  have h1 : (LoadGeometry (insertionSort : StdSort ℚ) VisCheck.empty [[], demoWall]).1 = true :=
    (LoadGeometry_fst insertionSort _ _).mpr ⟨demoWall, by simp, by simp [demoWall]⟩
  refine ⟨h1, ?_⟩
  rw [((LoadGeometry_result insertionSort VisCheck.empty [[], demoWall]).2.2.2 h1).1]
  simp [demoWall]

/-- Claim C14, the code at the failing input: `LoadGeometry` of an empty mesh followed by a
one-triangle mesh returns true and leaves two meshes and one root, so `meshes` and
`bvhNodes` are not parallel although `geometryLoaded` is true. -/
theorem LoadGeometry_not_parallel (S : StdSort F) (T : TriangleCombined F) :
    LoadGeometry S VisCheck.empty [[], [T]]
      = (true, { meshes := [[], [T]], bvhNodes := [BuildBVH S [T]], geometryLoaded := true }) ∧
    (LoadGeometry S VisCheck.empty [[], [T]]).2.geometryLoaded = true ∧
    (LoadGeometry S VisCheck.empty [[], [T]]).2.meshes.length = 2 ∧
    (LoadGeometry S VisCheck.empty [[], [T]]).2.bvhNodes.length = 1 := by
  have h : LoadGeometry S VisCheck.empty [[], [T]]
      = (true, { meshes := [[], [T]], bvhNodes := [BuildBVH S [T]], geometryLoaded := true }) := by
    rw [LoadGeometry_cons]
    simp
  rw [h]
  exact ⟨rfl, rfl, rfl, rfl⟩

/-- Claim C19.  On an engine whose geometry is not loaded (`geometryLoaded` false, or
`bvhNodes` empty), `IsVisible(p1, p2)` returns false for every pair of points, coincident
points included: the test of line 466 comes before the distance test. -/
theorem IsVisible_not_loaded (sqrt : F → F) (e : VisCheck F) (p1 p2 : Vec3 F)
    (h : e.geometryLoaded = false ∨ e.bvhNodes = []) :
    IsVisible sqrt e p1 p2 = false ∧ IsVisible sqrt e p1 p1 = false := by
  have key : ∀ a b : Vec3 F, IsVisible sqrt e a b = false := by
    intro a b
    unfold IsVisible
    rcases h with h | h
    · simp [h]
    · simp [h]
  exact ⟨key p1 p2, key p1 p1⟩

/-- Claim C19 on the empty engine, over the rationals. -/
theorem IsVisible_not_loaded_witness :
    ((VisCheck.empty : VisCheck ℚ).geometryLoaded = false ∨
      (VisCheck.empty : VisCheck ℚ).bvhNodes = []) ∧
    (IsVisible Rat.sqrt (VisCheck.empty : VisCheck ℚ) ⟨0, 100, 0⟩ ⟨0, 100, 200⟩ = false ∧
    IsVisible Rat.sqrt (VisCheck.empty : VisCheck ℚ) ⟨0, 100, 0⟩ ⟨0, 100, 0⟩ = false) :=
  ⟨Or.inl rfl, IsVisible_not_loaded Rat.sqrt VisCheck.empty ⟨0, 100, 0⟩ ⟨0, 100, 200⟩ (Or.inl rfl)⟩

/-! ## Object representations read back -/

theorem encodeLE_length (w n : Nat) : (encodeLE w n).length = w := by
  induction w generalizing n with
  | zero => rfl
  | succ w ih => simp [encodeLE, ih]

theorem decodeLE_encodeLE (w n : Nat) : decodeLE (encodeLE w n) = n % 256 ^ w := by
  induction w generalizing n with
  | zero => simp [encodeLE, decodeLE, Nat.mod_one]
  | succ w ih =>
    simp only [encodeLE, decodeLE, ih]
    rw [pow_succ, Nat.mul_comm (256 ^ w) 256, Nat.mod_mul]

theorem take_append_length (n : Nat) (bytes rest : List Byte) (h : bytes.length = n) :
    (bytes ++ rest).take n = bytes := by
  subst h
  exact List.take_left _ _

theorem drop_append_length (n : Nat) (bytes rest : List Byte) (h : bytes.length = n) :
    (bytes ++ rest).drop n = rest := by
  subst h
  exact List.drop_left _ _

theorem readBytes_append (n : Nat) (old bytes rest : List Byte) (h : bytes.length = n) :
    readBytes n old (bytes ++ rest) = (bytes, rest) := by
  unfold readBytes
  rw [if_pos (by rw [List.length_append]; omega), take_append_length n _ _ h,
    drop_append_length n _ _ h]

theorem readUInt_append (w n : Nat) (rest : List Byte) :
    readUInt w (encodeLE w n ++ rest) = some (n % 256 ^ w, rest) := by
  unfold readUInt
  have hl := encodeLE_length w n
  rw [if_pos (by rw [List.length_append]; omega)]
  rw [take_append_length w _ _ hl, drop_append_length w _ _ hl, decodeLE_encodeLE]

theorem readSizeT_append (n : Nat) (rest : List Byte) (h : n < 2 ^ 64) :
    readUInt 8 (writeSizeT n ++ rest) = some (n, rest) := by
  unfold writeSizeT
  rw [readUInt_append, Nat.mod_eq_of_lt (by norm_num at h ⊢; exact h)]

theorem readBool_append (b : Bool) (rest : List Byte) :
    readBool (writeBool b ++ rest) = some (b, rest) := by
  cases b <;> simp [readBool, writeBool]

omit [LinearOrderedField F] in
theorem readFloat_append (C : FloatCodec F) (old x : F) (rest : List Byte) (hx : C.Exact x) :
    readFloat C old (C.toBytes x ++ rest) = (x, rest) := by
  unfold readFloat
  have hl := C.toBytes_length x
  have hne : C.toBytes x ++ rest ≠ [] := by
    intro h0
    have := congrArg List.length h0
    rw [List.length_append, hl] at this
    simp at this
  rw [if_neg hne, readBytes_append 4 _ _ _ hl]
  exact Prod.ext hx rfl

omit [LinearOrderedField F] in
theorem readVec3_append (C : FloatCodec F) (old v : Vec3 F) (rest : List Byte)
    (hx : C.Exact v.x) (hy : C.Exact v.y) (hz : C.Exact v.z) :
    readVec3 C old (writeVec3 C v ++ rest) = (v, rest) := by
  unfold readVec3 writeVec3
  simp only [List.append_assoc]
  rw [readFloat_append C _ _ _ hx]
  simp only
  rw [readFloat_append C _ _ _ hy]
  simp only
  rw [readFloat_append C _ _ _ hz]

omit [LinearOrderedField F] in
theorem readTriangle_append (C : FloatCodec F) (old T : TriangleCombined F) (rest : List Byte)
    (hT : C.ExactTriangle T) :
    readTriangle C old (writeTriangle C T ++ rest) = (T, rest) := by
  have h0 := hT T.v0 (by simp [vertices])
  have h1 := hT T.v1 (by simp [vertices])
  have h2 := hT T.v2 (by simp [vertices])
  unfold readTriangle writeTriangle
  simp only [List.append_assoc]
  rw [readVec3_append C _ _ _ h0.1 h0.2.1 h0.2.2]
  simp only
  rw [readVec3_append C _ _ _ h1.1 h1.2.1 h1.2.2]
  simp only
  rw [readVec3_append C _ _ _ h2.1 h2.2.1 h2.2.2]

theorem readTriangles_append (C : FloatCodec F) (ts : List (TriangleCombined F))
    (rest : List Byte) (hts : ∀ T ∈ ts, C.ExactTriangle T) :
    readTriangles C ts.length (writeTriangles C ts ++ rest) = (ts, rest) := by
  induction ts with
  | nil => rfl
  | cons T ts ih =>
    simp only [List.length_cons, readTriangles, writeTriangles, List.append_assoc]
    rw [readTriangle_append C _ T _ (hts T (List.mem_cons_self _ _))]
    simp only
    rw [ih (fun T2 h2 => hts T2 (List.mem_cons_of_mem _ h2))]

/-! ## The cache file read back -/

theorem IsLeaf_eq_true (l r : BVHNode F) (h : IsLeaf l r = true) : l = .null ∧ r = .null := by
  simpa [IsLeaf] using h

theorem SerializeBVHNode_length_pos (C : FloatCodec F) (n : BVHNode F) :
    0 < (SerializeBVHNode C n).length := by
  cases n with
  | null => simp [SerializeBVHNode, writeBool]
  | node b l r ts => simp [SerializeBVHNode, writeBool]

/-- `DeserializeBVHNode` undoes `SerializeBVHNode` and leaves the stream right after the
bytes of the tree. -/
theorem DeserializeBVHNode_Serialize (C : FloatCodec F) (n : BVHNode F) (hn : Storable C n)
    (fuel : Nat) (rest : List Byte) (hf : (SerializeBVHNode C n).length < fuel) :
    DeserializeBVHNode C fuel (SerializeBVHNode C n ++ rest) = some (n, rest) := by
  induction n generalizing fuel rest with
  | null =>
    cases fuel with
    | zero => exact absurd hf (Nat.not_lt_zero _)
    | succ fuel =>
      simp only [SerializeBVHNode, DeserializeBVHNode, readBool_append, if_true]
  | node b l r ts ihl ihr =>
    cases fuel with
    | zero => exact absurd hf (Nat.not_lt_zero _)
    | succ fuel =>
      obtain ⟨hmin, hmax, hleaf, hint, hsl, hsr⟩ := hn
      simp only [SerializeBVHNode, List.append_assoc, DeserializeBVHNode, readBool_append,
        Bool.false_eq_true, if_false]
      rw [readVec3_append C _ _ _ hmin.1 hmin.2.1 hmin.2.2]
      simp only
      rw [readVec3_append C _ _ _ hmax.1 hmax.2.1 hmax.2.2]
      simp only [readBool_append]
      cases hL : IsLeaf l r with
      | true =>
        obtain ⟨hlen, hex⟩ := hleaf hL
        obtain ⟨rfl, rfl⟩ := IsLeaf_eq_true l r hL
        simp only [if_true, List.append_assoc]
        rw [readSizeT_append _ _ hlen]
        simp only
        rw [readTriangles_append C ts rest hex]
      | false =>
        have hts := hint hL
        subst hts
        simp only [Bool.false_eq_true, if_false, List.append_assoc]
        simp only [SerializeBVHNode, hL, Bool.false_eq_true, if_false, List.length_append,
          writeBool, List.length_singleton] at hf
        rw [ihl hsl fuel _ (by omega)]
        simp only
        rw [ihr hsr fuel _ (by omega)]

theorem readSizeTInto_append (old n : Nat) (rest : List Byte) :
    readSizeTInto old (writeSizeT n ++ rest) = (n % 2 ^ 64, rest) := by
  unfold readSizeTInto writeSizeT
  rw [readBytes_append 8 _ _ _ (encodeLE_length 8 n), decodeLE_encodeLE]
  norm_num

omit [LinearOrderedField F] in
theorem readCounts_append (ms : List (List (TriangleCombined F))) (rest : List Byte) :
    (readCounts ms.length (writeCounts ms ++ rest)).2 = rest := by
  induction ms with
  | nil => rfl
  | cons m ms ih =>
    simp only [List.length_cons, readCounts, writeCounts, List.append_assoc,
      readSizeTInto_append]
    exact ih

theorem readTrees_append (C : FloatCodec F) (roots acc : List (BVHNode F)) (rest : List Byte)
    (hne : ∀ n ∈ roots, n ≠ .null) (hst : ∀ n ∈ roots, Storable C n) :
    readTrees C roots.length acc (writeTrees C roots ++ rest) = some (true, acc ++ roots, rest) := by
  induction roots generalizing acc with
  | nil => simp [readTrees, writeTrees]
  | cons n roots ih =>
    have hn := hne n (List.mem_cons_self _ _)
    simp only [List.length_cons, readTrees, writeTrees, List.append_assoc]
    rw [DeserializeBVHNode_Serialize C n (hst n (List.mem_cons_self _ _)) _ _
      (by simp only [List.length_append]; omega)]
    cases n with
    | null => exact absurd rfl hn
    | node b l r ts =>
      simp only
      rw [ih _ (fun m hm => hne m (List.mem_cons_of_mem _ hm))
        (fun m hm => hst m (List.mem_cons_of_mem _ hm))]
      simp

/-- `LoadBVHCache` on the bytes `SaveBVHCache` wrote for an engine whose `meshes` and
`bvhNodes` are parallel. -/
theorem LoadBVHCache_saved (C : FloatCodec F) (e e1 : VisCheck F) (meshCount : Nat)
    (hpar : e.meshes.length = e.bvhNodes.length) (hpos : e.meshes.length ≠ 0)
    (hsize : e.meshes.length < 2 ^ 64)
    (hne : ∀ n ∈ e.bvhNodes, n ≠ .null) (hst : ∀ n ∈ e.bvhNodes, Storable C n) :
    LoadBVHCache C e1 (some (cacheFileBytes C e)) meshCount
      = some (true, { e1 with meshes := e.bvhNodes.map extractTriangles, bvhNodes := e.bvhNodes },
          e.meshes.length) := by
  unfold LoadBVHCache cacheFileBytes writeUInt32
  simp only [List.append_assoc]
  rw [readUInt_append]
  simp only [show (1 : Nat) % 256 ^ 4 = 1 from by norm_num, ne_eq, not_true_eq_false, if_false]
  rw [readSizeT_append _ _ hsize]
  simp only [if_neg hpos]
  rw [readCounts_append]
  have ht := readTrees_append C e.bvhNodes [] [] hne hst
  rw [List.append_nil, List.nil_append, ← hpar] at ht
  rw [ht]
  simp only [meshesFromTrees, ← hpar, le_refl, if_true, Nat.sub_self, List.replicate_zero,
    List.append_nil]

theorem natCodec_exact (n : Nat) (h : n < 2 ^ 32) : natCodec.Exact (n : ℚ) := by
  unfold FloatCodec.Exact natCodec
  simp only [Rat.num_natCast, Int.toNat_ofNat, decodeLE_encodeLE]
  rw [Nat.mod_eq_of_lt (by norm_num at h ⊢; exact h)]

theorem natCodec_exact_ofNat (n : Nat) [n.AtLeastTwo] (h : n < 2 ^ 32) :
    natCodec.Exact (OfNat.ofNat n : ℚ) := by
  have := natCodec_exact n h
  simpa using this

theorem natCodec_exact_zero : natCodec.Exact (0 : ℚ) := by
  have := natCodec_exact 0 (by norm_num)
  simpa using this

theorem natCodec_exact_one : natCodec.Exact (1 : ℚ) := by
  have := natCodec_exact 1 (by norm_num)
  simpa using this

theorem sixTriangles_exact : ∀ T ∈ sixTriangles, natCodec.ExactTriangle T := by
  intro T hT v hv
  simp only [sixTriangles, List.mem_cons, List.mem_singleton, List.not_mem_nil, or_false] at hT
  rcases hT with rfl | rfl | rfl | rfl | rfl | rfl <;>
    simp only [vertices, List.mem_cons, List.mem_singleton, List.not_mem_nil, or_false] at hv <;>
    rcases hv with rfl | rfl | rfl <;>
    refine ⟨?_, ?_, ?_⟩ <;>
    first
      | exact natCodec_exact_zero
      | exact natCodec_exact_one
      | exact natCodec_exact_ofNat _ (by norm_num)

theorem TightBounds_exact (C : FloatCodec F) (b : AABB F) (ts : List (TriangleCombined F))
    (ht : TightBounds b ts) (hex : ∀ T ∈ ts, C.ExactTriangle T) :
    C.ExactVec3 b.min ∧ C.ExactVec3 b.max := by
  obtain ⟨a1, a2, a3, a4, a5, a6⟩ := ht
  refine ⟨⟨?_, ?_, ?_⟩, ⟨?_, ?_, ?_⟩⟩
  · obtain ⟨T, hT, v, hv, e⟩ := a1.2
    rw [← e]; exact (hex T hT v hv).1
  · obtain ⟨T, hT, v, hv, e⟩ := a2.2
    rw [← e]; exact (hex T hT v hv).2.1
  · obtain ⟨T, hT, v, hv, e⟩ := a3.2
    rw [← e]; exact (hex T hT v hv).2.2
  · obtain ⟨T, hT, v, hv, e⟩ := a4.2
    rw [← e]; exact (hex T hT v hv).1
  · obtain ⟨T, hT, v, hv, e⟩ := a5.2
    rw [← e]; exact (hex T hT v hv).2.1
  · obtain ⟨T, hT, v, hv, e⟩ := a6.2
    rw [← e]; exact (hex T hT v hv).2.2

/-- A tree built from triangles that are floats of the codec can be stored as it is. -/
theorem BuildBVH_storable (S : StdSort F) (C : FloatCodec F) (tris : List (TriangleCombined F))
    (hne : tris ≠ []) (hex : ∀ T ∈ tris, C.ExactTriangle T) : Storable C (BuildBVH S tris) := by
  refine BuildBVH_induct S (fun ts n => (∀ T ∈ ts, C.ExactTriangle T) → Storable C n)
    ?_ ?_ tris hne hex
  · intro first rest hlen hex2
    obtain ⟨h1, h2⟩ := TightBounds_exact C _ _ (computeBounds_tight first rest) hex2
    refine ⟨h1, h2, fun _ => ⟨?_, hex2⟩, ?_, trivial, trivial⟩
    · unfold LEAF_THRESHOLD at hlen
      exact lt_of_le_of_lt hlen (by norm_num)
    · intro hf
      rw [IsLeaf_null] at hf
      cases hf
  · intro first rest l r _ _ _ _ _ _ hperm ihl ihr hex2
    obtain ⟨h1, h2⟩ := TightBounds_exact C _ _ (computeBounds_tight first rest) hex2
    have hl : ∀ T ∈ l, C.ExactTriangle T :=
      fun T hT => hex2 T (hperm.mem_iff.mp (List.mem_append_left _ hT))
    have hr : ∀ T ∈ r, C.ExactTriangle T :=
      fun T hT => hex2 T (hperm.mem_iff.mp (List.mem_append_right _ hT))
    refine ⟨h1, h2, ?_, fun _ => rfl, ihl hl, ihr hr⟩
    intro ht
    rw [IsLeaf_left_ne _ _ (BuildBVH_ne_null S l)] at ht
    cases ht

omit [LinearOrderedField F] in
theorem filter_nonempty_all (M : List (List (TriangleCombined F)))
    (hall : ∀ mesh ∈ M, mesh ≠ []) : M.filter (fun m => !m.isEmpty) = M := by
  rw [List.filter_eq_self]
  intro m hm
  have := hall m hm
  cases m with
  | nil => exact absurd rfl this
  | cons _ _ => rfl

theorem forall2_extract_perm (S : StdSort F) (M : List (List (TriangleCombined F)))
    (hall : ∀ mesh ∈ M, mesh ≠ []) :
    List.Forall₂ (fun mesh2 mesh => List.Perm mesh2 mesh)
      ((M.map (BuildBVH S)).map extractTriangles) M := by
  induction M with
  | nil => exact List.Forall₂.nil
  | cons m M ih =>
    simp only [List.map_cons]
    exact List.Forall₂.cons
      (extractTriangles_BuildBVH_perm S m (hall m (List.mem_cons_self _ _)))
      (ih (fun x hx => hall x (List.mem_cons_of_mem _ hx)))

/-- `LoadBVHFromFile` on a file `SaveBVHCache` wrote returns true on every engine: after
`LoadBVHCache` has replaced `meshes`, the test `meshCount == meshes.size()` compares the
count of the file with itself. -/
theorem LoadBVHFromFile_saved (C : FloatCodec F) (e e1 : VisCheck F)
    (hpar : e.meshes.length = e.bvhNodes.length) (hpos : e.meshes.length ≠ 0)
    (hsize : e.meshes.length < 2 ^ 64)
    (hne : ∀ n ∈ e.bvhNodes, n ≠ .null) (hst : ∀ n ∈ e.bvhNodes, Storable C n) :
    LoadBVHFromFile C e1 (some (cacheFileBytes C e))
      = some (true,
          { e1 with meshes := e.bvhNodes.map extractTriangles, bvhNodes := e.bvhNodes }) := by
  unfold LoadBVHFromFile
  rw [LoadBVHCache_saved C e e1 0 hpar hpos hsize hne hst]
  simp only [if_true, List.length_map, hpar]

/-- The engine after a successful `LoadGeometry` of non-empty meshes can be saved and
read back. -/
theorem loaded_savable (S : StdSort F) (C : FloatCodec F) (e0 e : VisCheck F)
    (M : List (List (TriangleCombined F)))
    (hload : LoadGeometry S e0 M = (true, e))
    (hall : ∀ mesh ∈ M, mesh ≠ [])
    (hexact : ∀ mesh ∈ M, ∀ T ∈ mesh, C.ExactTriangle T) :
    e.meshes = M ∧ e.bvhNodes = M.map (BuildBVH S) ∧ e.meshes.length = e.bvhNodes.length ∧
    e.meshes.length ≠ 0 ∧ (∀ n ∈ e.bvhNodes, n ≠ .null) ∧ (∀ n ∈ e.bvhNodes, Storable C n) := by
  obtain ⟨_, h2, h3, h4⟩ := LoadGeometry_true S e0 e M hload
  rw [filter_nonempty_all M hall] at h3
  refine ⟨h2, h3, by rw [h2, h3, List.length_map], ?_, ?_, ?_⟩
  · rw [h2]
    intro h0
    apply h4
    rw [h3, List.length_eq_zero.mp h0]
    rfl
  · intro n hn
    rw [h3] at hn
    obtain ⟨m, _, rfl⟩ := List.mem_map.mp hn
    exact BuildBVH_ne_null S m
  · intro n hn
    rw [h3] at hn
    obtain ⟨m, hm, rfl⟩ := List.mem_map.mp hn
    exact BuildBVH_storable S C m (hall m hm) (hexact m hm)

/-! ## The raw geometry file read back -/

theorem readMeshes_append (C : FloatCodec F) (ms acc : List (List (TriangleCombined F)))
    (rest : List Byte) (hsizes : ∀ mesh ∈ ms, mesh.length < 2 ^ 64)
    (hexact : ∀ mesh ∈ ms, ∀ T ∈ mesh, C.ExactTriangle T) :
    readMeshes C ms.length acc (writeMeshes C ms ++ rest) = some (acc ++ ms, rest) := by
  induction ms generalizing acc with
  | nil => simp [readMeshes, writeMeshes]
  | cons m ms ih =>
    simp only [List.length_cons, readMeshes, writeMeshes, List.append_assoc]
    rw [readSizeT_append _ _ (hsizes m (List.mem_cons_self _ _))]
    simp only
    rw [readTriangles_append C m _ (hexact m (List.mem_cons_self _ _))]
    simp only
    rw [ih _ (fun x hx => hsizes x (List.mem_cons_of_mem _ hx))
      (fun x hx => hexact x (List.mem_cons_of_mem _ hx))]
    simp

theorem readMeshesBuild_append (S : StdSort F) (C : FloatCodec F)
    (ms accM : List (List (TriangleCombined F))) (accB : List (BVHNode F))
    (rest : List Byte) (hsizes : ∀ mesh ∈ ms, mesh.length < 2 ^ 64)
    (hexact : ∀ mesh ∈ ms, ∀ T ∈ mesh, C.ExactTriangle T) :
    readMeshesBuild S C ms.length accM accB (writeMeshes C ms ++ rest)
      = some (accM ++ ms.filter (fun m => !m.isEmpty),
          accB ++ (ms.filter (fun m => !m.isEmpty)).map (BuildBVH S), rest) := by
  induction ms generalizing accM accB with
  | nil => simp [readMeshesBuild, writeMeshes]
  | cons m ms ih =>
    simp only [List.length_cons, readMeshesBuild, writeMeshes, List.append_assoc]
    rw [readSizeT_append _ _ (hsizes m (List.mem_cons_self _ _))]
    have ih2 := fun a b => ih a b (fun x hx => hsizes x (List.mem_cons_of_mem _ hx))
      (fun x hx => hexact x (List.mem_cons_of_mem _ hx))
    cases m with
    | nil =>
      simp only [List.length_nil, if_true, writeTriangles, List.nil_append]
      rw [ih2]
      simp
    | cons T ts =>
      simp only [List.length_cons, Nat.succ_ne_zero, if_false]
      have hr := readTriangles_append C (T :: ts) (writeMeshes C ms ++ rest)
        (hexact (T :: ts) (List.mem_cons_self _ _))
      rw [List.length_cons] at hr
      rw [hr]
      simp only
      rw [ih2]
      simp

/-- `OptimizedGeometry::LoadFromFile` on the bytes of `CreateOptimizedFile`. -/
theorem LoadFromFile_written (C : FloatCodec F) (og : OptimizedGeometry F)
    (M : List (List (TriangleCombined F))) (hsize : M.length < 2 ^ 64)
    (hsizes : ∀ mesh ∈ M, mesh.length < 2 ^ 64)
    (hexact : ∀ mesh ∈ M, ∀ T ∈ mesh, C.ExactTriangle T) :
    OptimizedGeometry.LoadFromFile C og (some (optFileBytes C M)) = some (true, { meshes := M }) := by
  unfold OptimizedGeometry.LoadFromFile optFileBytes
  simp only
  rw [readSizeT_append _ _ hsize]
  simp only
  have h := readMeshes_append C M [] [] hsizes hexact
  rw [List.append_nil, List.nil_append] at h
  rw [h]

/-- `VisCheck::LoadFromOptFile` on the bytes of `CreateOptimizedFile`. -/
theorem LoadFromOptFile_written (S : StdSort F) (C : FloatCodec F) (e : VisCheck F)
    (M : List (List (TriangleCombined F))) (hsize : M.length < 2 ^ 64)
    (hsizes : ∀ mesh ∈ M, mesh.length < 2 ^ 64)
    (hexact : ∀ mesh ∈ M, ∀ T ∈ mesh, C.ExactTriangle T) :
    ∃ b e2, LoadFromOptFile S C e (some (optFileBytes C M)) = some (b, e2) ∧
      e2.meshes = M.filter (fun mesh => !mesh.isEmpty) ∧
      e2.bvhNodes = (M.filter (fun mesh => !mesh.isEmpty)).map (BuildBVH S) ∧
      (b = true ↔ ∃ mesh ∈ M, mesh ≠ []) := by
  unfold LoadFromOptFile optFileBytes
  simp only
  rw [readSizeT_append _ _ hsize]
  simp only
  by_cases h0 : M.length = 0
  · have hM := List.length_eq_zero.mp h0
    subst hM
    refine ⟨false, { e with meshes := [], bvhNodes := [] }, ?_, rfl, rfl, ?_⟩
    · simp only [List.length_nil, if_true]
    · simp
  · rw [if_neg h0]
    have h := readMeshesBuild_append S C M [] [] [] hsizes hexact
    rw [List.append_nil, List.nil_append, List.nil_append] at h
    rw [h]
    refine ⟨_, _, rfl, rfl, rfl, ?_⟩
    simp only [List.length_map, Bool.and_self, decide_eq_true_eq, gt_iff_lt]
    constructor
    · intro hpos
      obtain ⟨x, hx⟩ := List.exists_mem_of_length_pos hpos
      obtain ⟨hx1, hx2⟩ := List.mem_filter.mp hx
      refine ⟨x, hx1, ?_⟩
      intro h0; subst h0; simp at hx2
    · rintro ⟨x, hx, hne⟩
      refine List.length_pos_of_mem (List.mem_filter.mpr ⟨hx, ?_⟩)
      cases x with
      | nil => exact absurd rfl hne
      | cons _ _ => rfl

theorem tieTriangles_exact : ∀ T ∈ tieTriangles, natCodec.ExactTriangle T := by
  intro T hT v hv
  simp only [tieTriangles, List.mem_cons, List.mem_singleton, List.not_mem_nil, or_false] at hT
  rcases hT with rfl | rfl | rfl | rfl | rfl <;>
    simp only [vertices, List.mem_cons, List.mem_singleton, List.not_mem_nil, or_false] at hv <;>
    rcases hv with rfl | rfl | rfl <;>
    refine ⟨?_, ?_, ?_⟩ <;>
    first
      | exact natCodec_exact_zero
      | exact natCodec_exact_one

/-! ## Claims C11 to C13: persistence -/

/-- Claim C11.  BVH cache round trip: for every list `M` of non-empty meshes (fewer than
`2^64` of them, their coordinates floats of the codec), after a successful `LoadGeometry`,
`SaveBVHToFile` returns true and writes a byte sequence from which `LoadBVHFromFile`, on
any engine (one holding the same geometry in particular), returns true, restores
`bvhNodes` to the saved trees, equal node for node: `DeserializeBVHNode` undoes
`SerializeBVHNode` and consumes exactly the bytes written for each tree; and sets
`meshes[i]` to the left-to-right concatenation of the leaves of tree `i`, a permutation of
the original mesh `i`. -/
theorem cache_round_trip (S : StdSort F) (C : FloatCodec F) (e0 e e1 : VisCheck F)
    (M : List (List (TriangleCombined F)))
    (hload : LoadGeometry S e0 M = (true, e))
    (hall : ∀ mesh ∈ M, mesh ≠ [])
    (hsize : M.length < 2 ^ 64)
    (hexact : ∀ mesh ∈ M, ∀ T ∈ mesh, C.ExactTriangle T) :
    SaveBVHCache C e true = (true, some (cacheFileBytes C e)) ∧
    LoadBVHFromFile C e1 (some (cacheFileBytes C e))
      = some (true,
          { e1 with meshes := e.bvhNodes.map extractTriangles, bvhNodes := e.bvhNodes }) ∧
    (∀ n ∈ e.bvhNodes, ∀ rest : List Byte,
      DeserializeBVHNode C ((SerializeBVHNode C n ++ rest).length + 1)
        (SerializeBVHNode C n ++ rest) = some (n, rest)) ∧
    List.Forall₂ (fun mesh2 mesh => List.Perm mesh2 mesh)
      (e.bvhNodes.map extractTriangles) M := by
  obtain ⟨h1, h2, h3, h4, h5, h6⟩ := loaded_savable S C e0 e M hload hall hexact
  refine ⟨rfl, LoadBVHFromFile_saved C e e1 h3 h4 (by rw [h1]; exact hsize) h5 h6, ?_, ?_⟩
  · intro n hn rest
    exact DeserializeBVHNode_Serialize C n (h6 n hn) _ rest
      (by simp only [List.length_append]; omega)
  · rw [h2]
    exact forall2_extract_perm S M hall

/-- Claim C11 on the one-mesh scene `[sixTriangles]` over the rationals. -/
theorem cache_round_trip_witness :
    LoadGeometry (insertionSort : StdSort ℚ) VisCheck.empty [sixTriangles]
      = (true, (LoadGeometry insertionSort VisCheck.empty [sixTriangles]).2) ∧
    (∀ mesh ∈ [sixTriangles], mesh ≠ []) ∧
    [sixTriangles].length < 2 ^ 64 ∧
    (∀ mesh ∈ [sixTriangles], ∀ T ∈ mesh, natCodec.ExactTriangle T) ∧
    LoadBVHFromFile natCodec (LoadGeometry insertionSort VisCheck.empty [sixTriangles]).2
        (some (cacheFileBytes natCodec
          (LoadGeometry insertionSort VisCheck.empty [sixTriangles]).2))
      = some (true,
          { (LoadGeometry insertionSort VisCheck.empty [sixTriangles]).2 with
            meshes := (LoadGeometry insertionSort VisCheck.empty
              [sixTriangles]).2.bvhNodes.map extractTriangles,
            bvhNodes := (LoadGeometry insertionSort VisCheck.empty [sixTriangles]).2.bvhNodes }) := by
  have h1 : LoadGeometry (insertionSort : StdSort ℚ) VisCheck.empty [sixTriangles]
      = (true, (LoadGeometry insertionSort VisCheck.empty [sixTriangles]).2) :=
    LoadGeometry_eta _ _ _
      ((LoadGeometry_fst insertionSort _ _).mpr ⟨sixTriangles, by simp, by simp [sixTriangles]⟩)
  have h2 : ∀ mesh ∈ [sixTriangles], mesh ≠ [] := by
    intro mesh hm
    rw [List.mem_singleton] at hm
    rw [hm]
    simp [sixTriangles]
  have h3 : [sixTriangles].length < 2 ^ 64 := by norm_num
  have h4 : ∀ mesh ∈ [sixTriangles], ∀ T ∈ mesh, natCodec.ExactTriangle T := by
    intro mesh hm
    rw [List.mem_singleton] at hm
    rw [hm]
    exact sixTriangles_exact
  exact ⟨h1, h2, h3, h4,
    (cache_round_trip insertionSort natCodec VisCheck.empty _ _ [sixTriangles] h1 h2 h3 h4).2.1⟩

/-- Claim C12.  Raw geometry round trip: for every mesh list `M` (fewer than `2^64` meshes
of fewer than `2^64` triangles each, the coordinates floats of the codec), the bytes the
`.opt` writer writes (the number of meshes, then per mesh the number of triangles and the
triangles) are read back by `OptimizedGeometry::LoadFromFile` as exactly `M`, empty meshes
included, and by `VisCheck::LoadFromOptFile` as `M` with the empty meshes removed and
everything else in the same order. -/
theorem opt_round_trip (S : StdSort F) (C : FloatCodec F) (og : OptimizedGeometry F)
    (e : VisCheck F) (M : List (List (TriangleCombined F))) (hsize : M.length < 2 ^ 64)
    (hsizes : ∀ mesh ∈ M, mesh.length < 2 ^ 64)
    (hexact : ∀ mesh ∈ M, ∀ T ∈ mesh, C.ExactTriangle T) :
    OptimizedGeometry.CreateOptimizedFile C M true
      = (true, { meshes := M }, some (optFileBytes C M)) ∧
    OptimizedGeometry.LoadFromFile C og (some (optFileBytes C M))
      = some (true, { meshes := M }) ∧
    ∃ b e2, LoadFromOptFile S C e (some (optFileBytes C M)) = some (b, e2) ∧
      e2.meshes = M.filter (fun mesh => !mesh.isEmpty) := by
  refine ⟨rfl, LoadFromFile_written C og M hsize hsizes hexact, ?_⟩
  obtain ⟨b, e2, h1, h2, _, _⟩ := LoadFromOptFile_written S C e M hsize hsizes hexact
  exact ⟨b, e2, h1, h2⟩

/-- Claim C12 on the list of `sixTriangles`, an empty mesh and `tieTriangles`, over the
rationals. -/
theorem opt_round_trip_witness :
    [sixTriangles, [], tieTriangles].length < 2 ^ 64 ∧
    (∀ mesh ∈ [sixTriangles, [], tieTriangles], mesh.length < 2 ^ 64) ∧
    (∀ mesh ∈ [sixTriangles, [], tieTriangles], ∀ T ∈ mesh, natCodec.ExactTriangle T) ∧
    OptimizedGeometry.LoadFromFile natCodec { meshes := [] }
        (some (optFileBytes natCodec [sixTriangles, [], tieTriangles]))
      = some (true, { meshes := [sixTriangles, [], tieTriangles] }) ∧
    ∃ b e2, LoadFromOptFile insertionSort natCodec VisCheck.empty
        (some (optFileBytes natCodec [sixTriangles, [], tieTriangles])) = some (b, e2) ∧
      e2.meshes = [sixTriangles, tieTriangles] := by
  have h1 : [sixTriangles, [], tieTriangles].length < 2 ^ 64 := by norm_num
  have h2 : ∀ mesh ∈ [sixTriangles, [], tieTriangles], mesh.length < 2 ^ 64 := by
    intro mesh hm
    simp only [List.mem_cons, List.mem_singleton, List.not_mem_nil, or_false] at hm
    rcases hm with rfl | rfl | rfl <;> norm_num [sixTriangles, tieTriangles]
  have h3 : ∀ mesh ∈ [sixTriangles, [], tieTriangles], ∀ T ∈ mesh, natCodec.ExactTriangle T := by
    intro mesh hm
    simp only [List.mem_cons, List.mem_singleton, List.not_mem_nil, or_false] at hm
    rcases hm with rfl | rfl | rfl
    · exact sixTriangles_exact
    · intro T hT; cases hT
    · exact tieTriangles_exact
  have h := opt_round_trip insertionSort natCodec { meshes := [] } VisCheck.empty
    [sixTriangles, [], tieTriangles] h1 h2 h3
  refine ⟨h1, h2, h3, h.2.1, ?_⟩
  obtain ⟨b, e2, e1, e3⟩ := h.2.2
  refine ⟨b, e2, e1, ?_⟩
  rw [e3]
  simp [sixTriangles, tieTriangles]

/-- Claim C13, the code at the failing input: the engine holds one mesh (`LoadGeometry` of
`[sixTriangles]`), the cache file was saved from an engine holding two meshes
(`[sixTriangles, tieTriangles]`), so the file records `numMeshes = 2`; `LoadBVHCache`
returns true with `meshCount = 2` and `LoadBVHFromFile` returns true, the engine now
holding two meshes. -/
theorem LoadBVHFromFile_count_unchecked :
    (LoadGeometry insertionSort VisCheck.empty [sixTriangles]).2.meshes.length = 1 ∧
    LoadBVHCache natCodec (LoadGeometry insertionSort VisCheck.empty [sixTriangles]).2
        (some (cacheFileBytes natCodec
          (LoadGeometry insertionSort VisCheck.empty [sixTriangles, tieTriangles]).2)) 0
      = some (true,
          { (LoadGeometry insertionSort VisCheck.empty [sixTriangles]).2 with
            meshes := (LoadGeometry insertionSort VisCheck.empty
              [sixTriangles, tieTriangles]).2.bvhNodes.map extractTriangles,
            bvhNodes := (LoadGeometry insertionSort VisCheck.empty
              [sixTriangles, tieTriangles]).2.bvhNodes }, 2) ∧
    LoadBVHFromFile natCodec (LoadGeometry insertionSort VisCheck.empty [sixTriangles]).2
        (some (cacheFileBytes natCodec
          (LoadGeometry insertionSort VisCheck.empty [sixTriangles, tieTriangles]).2))
      = some (true,
          { (LoadGeometry insertionSort VisCheck.empty [sixTriangles]).2 with
            meshes := (LoadGeometry insertionSort VisCheck.empty
              [sixTriangles, tieTriangles]).2.bvhNodes.map extractTriangles,
            bvhNodes := (LoadGeometry insertionSort VisCheck.empty
              [sixTriangles, tieTriangles]).2.bvhNodes }) ∧
    ((LoadGeometry insertionSort VisCheck.empty
      [sixTriangles, tieTriangles]).2.bvhNodes.map extractTriangles).length = 2 := by
  have hl2 : LoadGeometry (insertionSort : StdSort ℚ) VisCheck.empty [sixTriangles, tieTriangles]
      = (true, (LoadGeometry insertionSort VisCheck.empty [sixTriangles, tieTriangles]).2) :=
    LoadGeometry_eta _ _ _
      ((LoadGeometry_fst insertionSort _ _).mpr ⟨sixTriangles, by simp, by simp [sixTriangles]⟩)
  have hall : ∀ mesh ∈ [sixTriangles, tieTriangles], mesh ≠ [] := by
    intro mesh hm
    simp only [List.mem_cons, List.mem_singleton, List.not_mem_nil, or_false] at hm
    rcases hm with rfl | rfl <;> simp [sixTriangles, tieTriangles]
  have hex : ∀ mesh ∈ [sixTriangles, tieTriangles], ∀ T ∈ mesh, natCodec.ExactTriangle T := by
    intro mesh hm
    simp only [List.mem_cons, List.mem_singleton, List.not_mem_nil, or_false] at hm
    rcases hm with rfl | rfl
    · exact sixTriangles_exact
    · exact tieTriangles_exact
  obtain ⟨h1, h2, h3, h4, h5, h6⟩ :=
    loaded_savable insertionSort natCodec VisCheck.empty _ _ hl2 hall hex
  have hlen : (LoadGeometry (insertionSort : StdSort ℚ) VisCheck.empty
      [sixTriangles, tieTriangles]).2.meshes.length = 2 := by rw [h1]; rfl
  have hc := LoadBVHCache_saved natCodec _
    (LoadGeometry insertionSort VisCheck.empty [sixTriangles]).2 0 h3 h4
    (by rw [hlen]; norm_num) h5 h6
  rw [hlen] at hc
  refine ⟨?_, hc, LoadBVHFromFile_saved natCodec _ _ h3 h4 (by rw [hlen]; norm_num) h5 h6, ?_⟩
  · rw [LoadGeometry_cons]
    rfl
  · rw [List.length_map, ← h3, hlen]

/-! ## Claims C15, C17 and C18: loads that fail -/

theorem LoadFromOptFile_zero (S : StdSort F) (C : FloatCodec F) (e : VisCheck F)
    (rest : List Byte) :
    LoadFromOptFile S C e (some (writeSizeT 0 ++ rest))
      = some (false, { e with meshes := [], bvhNodes := [] }) := by
  unfold LoadFromOptFile
  simp only
  rw [readSizeT_append 0 rest (by norm_num)]
  simp only [if_true]

theorem LoadGeometry_single (S : StdSort F) (e0 : VisCheck F) (T : TriangleCombined F) :
    LoadGeometry S e0 [[T]]
      = (true, { meshes := [[T]], bvhNodes := [BuildBVH S [T]], geometryLoaded := true }) := by
  rw [LoadGeometry_cons]
  simp

/-- Claim C15, the code at the failing input: on the engine that `LoadGeometry` made of one
triangle (`geometryLoaded` true), `LoadFromOptFile` of the 8-byte file holding
`numMeshes = 0` returns false at line 232 with `meshes` and `bvhNodes` cleared and
`geometryLoaded` still true. -/
theorem LoadFromOptFile_stale_flag (S : StdSort F) (C : FloatCodec F) (T : TriangleCombined F) :
    (LoadGeometry S VisCheck.empty [[T]]).1 = true ∧
    (writeSizeT 0).length = 8 ∧
    LoadFromOptFile S C (LoadGeometry S VisCheck.empty [[T]]).2 (some (writeSizeT 0))
      = some (false, { meshes := [], bvhNodes := [], geometryLoaded := true }) := by
  have h := LoadFromOptFile_zero S C (LoadGeometry S VisCheck.empty [[T]]).2 []
  rw [List.append_nil] at h
  rw [h, LoadGeometry_single]
  exact ⟨rfl, encodeLE_length 8 0, rfl⟩

theorem readTriangles_nil (C : FloatCodec F) (n : Nat) :
    readTriangles C n [] = (List.replicate n TriangleCombined.zero, []) := by
  induction n with
  | zero => rfl
  | succ n ih =>
    have h : readTriangle C TriangleCombined.zero [] = (TriangleCombined.zero, []) := by
      simp [readTriangle, readVec3, readFloat, TriangleCombined.zero]
    simp only [readTriangles, h, ih, List.replicate_succ]

theorem readTriangles_ne_nil (C : FloatCodec F) (n : Nat) (data : List Byte) (hn : n ≠ 0) :
    (readTriangles C n data).1 ≠ [] := by
  cases n with
  | zero => exact absurd rfl hn
  | succ n => simp only [readTriangles]; exact List.cons_ne_nil _ _

theorem readMeshesBuild_encloses (S : StdSort F) (C : FloatCodec F) (n : Nat)
    (meshes : List (List (TriangleCombined F))) (bvhNodes : List (BVHNode F)) (data : List Byte)
    (r : List (List (TriangleCombined F)) × List (BVHNode F) × List Byte)
    (h0 : ∀ m ∈ bvhNodes, Encloses m)
    (h : readMeshesBuild S C n meshes bvhNodes data = some r) :
    ∀ m ∈ r.2.1, Encloses m := by
  induction n generalizing meshes bvhNodes data with
  | zero =>
    simp only [readMeshesBuild, Option.some.injEq] at h
    subst h
    exact h0
  | succ n ih =>
    simp only [readMeshesBuild] at h
    cases h1 : readUInt 8 data with
    | none => rw [h1] at h; cases h
    | some r1 =>
      obtain ⟨numTris, d1⟩ := r1
      rw [h1] at h
      simp only at h
      by_cases hz : numTris = 0
      · rw [if_pos hz] at h
        exact ih meshes bvhNodes d1 h0 h
      · rw [if_neg hz] at h
        refine ih _ _ _ ?_ h
        intro m hm
        rcases List.mem_append.mp hm with hm | hm
        · exact h0 m hm
        · rw [List.mem_singleton] at hm
          subst hm
          exact BuildBVH_encloses S _ (readTriangles_ne_nil C numTris d1 hz)

/-- The trees of an engine that `LoadFromOptFile` has loaded enclose the triangles in their
leaves: each is built by `BuildBVH` from a non-empty mesh. -/
theorem LoadFromOptFile_encloses (S : StdSort F) (C : FloatCodec F) (e e2 : VisCheck F)
    (file : Option (List Byte)) (h : LoadFromOptFile S C e file = some (true, e2)) :
    ∀ n ∈ e2.bvhNodes, Encloses n := by
  unfold LoadFromOptFile at h
  cases file with
  | none => simp at h
  | some data =>
    simp only at h
    cases h1 : readUInt 8 data with
    | none => rw [h1] at h; cases h
    | some r1 =>
      obtain ⟨numMeshes, d1⟩ := r1
      rw [h1] at h
      simp only at h
      by_cases hz : numMeshes = 0
      · rw [if_pos hz] at h
        simp at h
      · rw [if_neg hz] at h
        cases h2 : readMeshesBuild S C numMeshes [] [] d1 with
        | none => rw [h2] at h; cases h
        | some r2 =>
          obtain ⟨ms, bs, d2⟩ := r2
          rw [h2] at h
          simp only [Option.some.injEq, Prod.mk.injEq] at h
          obtain ⟨_, he⟩ := h
          subst he
          exact readMeshesBuild_encloses S C numMeshes [] [] d1 _ (by simp) h2

/-- `LoadFromOptFile` on the 16-byte file that announces one mesh of one triangle and holds
no triangle data. -/
theorem LoadFromOptFile_truncated (S : StdSort F) (C : FloatCodec F) (e : VisCheck F) :
    LoadFromOptFile S C e (some (writeSizeT 1 ++ writeSizeT 1))
      = some (true,
          { meshes := [[TriangleCombined.zero]],
            bvhNodes := [BuildBVH S [TriangleCombined.zero]],
            geometryLoaded := true }) := by
  have h2 := readSizeT_append 1 [] (by norm_num)
  rw [List.append_nil] at h2
  have hloop : readMeshesBuild S C 1 [] [] (writeSizeT 1)
      = some ([[TriangleCombined.zero]], [BuildBVH S [TriangleCombined.zero]], []) := by
    show (match readUInt 8 (writeSizeT 1) with
      | none => none
      | some (numTris, d1) =>
        if numTris = 0 then readMeshesBuild S C 0 [] [] d1
        else
          readMeshesBuild S C 0 ([] ++ [(readTriangles C numTris d1).1])
            ([] ++ [BuildBVH S (readTriangles C numTris d1).1]) (readTriangles C numTris d1).2) = _
    rw [h2]
    simp only [if_neg one_ne_zero, readTriangles_nil, List.nil_append]
    rfl
  unfold LoadFromOptFile
  simp only
  rw [readSizeT_append 1 _ (by norm_num)]
  simp only
  rw [if_neg one_ne_zero, hloop]
  rfl

/-- Claim C18, amended.  `LoadFromOptFile` returns false for a file that cannot be opened
and for a file whose `numMeshes` field is 0.  It never tests the stream after a read, so a
file that ends before the triangle data its counts announce is not rejected for that: the
16-byte file holding `numMeshes = 1` and `numTris = 1` and no triangle data returns true,
with one mesh of one value-initialised (all-zero) triangle. -/
theorem LoadFromOptFile_failures (S : StdSort F) (C : FloatCodec F) (e : VisCheck F) :
    LoadFromOptFile S C e none = some (false, e) ∧
    (∀ rest : List Byte, LoadFromOptFile S C e (some (writeSizeT 0 ++ rest))
      = some (false, { e with meshes := [], bvhNodes := [] })) ∧
    (writeSizeT 1 ++ writeSizeT 1).length = 16 ∧
    LoadFromOptFile S C e (some (writeSizeT 1 ++ writeSizeT 1))
      = some (true,
          { meshes := [[TriangleCombined.zero]],
            bvhNodes := [BuildBVH S [TriangleCombined.zero]],
            geometryLoaded := true }) := by
  refine ⟨rfl, LoadFromOptFile_zero S C e, ?_, LoadFromOptFile_truncated S C e⟩
  simp [writeSizeT, encodeLE_length]

/-- Claim C18, the claim as written fails: the 16-byte file holding `numMeshes = 1` and
`numTris = 1` and no triangle data makes `LoadFromOptFile` return true, the engine holding
one mesh of one all-zero triangle. -/
theorem LoadFromOptFile_failures_counterexample :
    (writeSizeT 1 ++ writeSizeT 1).length = 16 ∧
    readUInt 8 (writeSizeT 1 ++ writeSizeT 1) = some (1, writeSizeT 1) ∧
    readUInt 8 (writeSizeT 1) = some (1, []) ∧
    LoadFromOptFile (insertionSort : StdSort ℚ) natCodec VisCheck.empty
        (some (writeSizeT 1 ++ writeSizeT 1))
      = some (true,
          { meshes := [[TriangleCombined.zero]],
            bvhNodes := [BuildBVH insertionSort [TriangleCombined.zero]],
            geometryLoaded := true }) := by
  refine ⟨by simp [writeSizeT, encodeLE_length], readSizeT_append 1 _ (by norm_num), ?_, ?_⟩
  · have h := readSizeT_append 1 [] (by norm_num)
    rw [List.append_nil] at h
    exact h
  · exact LoadFromOptFile_truncated insertionSort natCodec VisCheck.empty

theorem LoadBVHFromFile_bad_version (C : FloatCodec F) (e : VisCheck F) (data d1 : List Byte)
    (version : Nat) (h : readUInt 4 data = some (version, d1)) (hv : version ≠ 1) :
    LoadBVHFromFile C e (some data) = some (false, e) := by
  unfold LoadBVHFromFile LoadBVHCache
  simp only [h, hv, ne_eq, not_false_eq_true, if_true, Bool.false_eq_true, if_false]

theorem LoadBVHFromFile_no_meshes (C : FloatCodec F) (e : VisCheck F) (data d1 d2 : List Byte)
    (h : readUInt 4 data = some (1, d1)) (h2 : readUInt 8 d1 = some (0, d2)) :
    LoadBVHFromFile C e (some data) = some (false, e) := by
  unfold LoadBVHFromFile LoadBVHCache
  simp only [h, h2, ne_eq, not_true_eq_false, if_false, if_true, Bool.false_eq_true]

/-- Claim C17, amended.  `LoadGeometry` returning false on an empty mesh list, and
`LoadBVHFromFile` returning false because the file cannot be opened, because its version is
not 1, or because its `numMeshes` field is 0, leave the engine state (`meshes`, `bvhNodes`,
`geometryLoaded`) exactly as it was before the call. -/
theorem failure_atomic (S : StdSort F) (C : FloatCodec F) (e : VisCheck F) :
    LoadGeometry S e [] = (false, e) ∧
    LoadBVHFromFile C e none = some (false, e) ∧
    (∀ (data d1 : List Byte) (version : Nat), readUInt 4 data = some (version, d1) →
      version ≠ 1 → LoadBVHFromFile C e (some data) = some (false, e)) ∧
    (∀ data d1 d2 : List Byte, readUInt 4 data = some (1, d1) → readUInt 8 d1 = some (0, d2) →
      LoadBVHFromFile C e (some data) = some (false, e)) :=
  ⟨LoadGeometry_nil S e, rfl, fun data d1 version h hv => LoadBVHFromFile_bad_version C e data d1
    version h hv, fun data d1 d2 h h2 => LoadBVHFromFile_no_meshes C e data d1 d2 h h2⟩

/-- Claim C17, the claim as written fails, for both functions.  On the engine `LoadGeometry`
made of the wall of the demo scene: `LoadGeometry` of a list holding one empty mesh returns
false and leaves `meshes = [[]]`, no root and `geometryLoaded` false; `LoadBVHFromFile` of
the 21-byte cache file holding version 1, `numMeshes = 1`, one count and a null root
returns false and leaves `bvhNodes` empty. -/
theorem failure_atomic_counterexample :
    (LoadGeometry (insertionSort : StdSort ℚ) VisCheck.empty [demoWall]).1 = true ∧
    LoadGeometry (insertionSort : StdSort ℚ) (LoadGeometry (insertionSort : StdSort ℚ) VisCheck.empty [demoWall]).2 [[]]
      = (false, { meshes := [[]], bvhNodes := [], geometryLoaded := false }) ∧
    ({ meshes := [[]], bvhNodes := [], geometryLoaded := false } : VisCheck ℚ)
      ≠ (LoadGeometry (insertionSort : StdSort ℚ) VisCheck.empty [demoWall]).2 ∧
    LoadBVHFromFile natCodec (LoadGeometry (insertionSort : StdSort ℚ) VisCheck.empty [demoWall]).2
        (some (writeUInt32 1 ++ (writeSizeT 1 ++ (writeSizeT 0 ++ writeBool true))))
      = some (false,
          { (LoadGeometry (insertionSort : StdSort ℚ) VisCheck.empty [demoWall]).2 with bvhNodes := [] }) ∧
    ({ (LoadGeometry (insertionSort : StdSort ℚ) VisCheck.empty [demoWall]).2 with bvhNodes := [] }
        : VisCheck ℚ)
      ≠ (LoadGeometry (insertionSort : StdSort ℚ) VisCheck.empty [demoWall]).2 := by
  have hl : LoadGeometry (insertionSort : StdSort ℚ) VisCheck.empty [demoWall]
      = (true, { meshes := [demoWall], bvhNodes := [BuildBVH insertionSort demoWall],
                 geometryLoaded := true }) := by
    rw [LoadGeometry_cons]
    simp [demoWall]
  rw [hl]
  refine ⟨rfl, ?_, ?_, ?_, ?_⟩
  · rw [LoadGeometry_cons]
    simp
  · intro h
    have := congrArg VisCheck.geometryLoaded h
    simp at this
  · unfold LoadBVHFromFile LoadBVHCache writeUInt32
    simp only
    rw [readUInt_append]
    simp only [show (1 : Nat) % 256 ^ 4 = 1 from by norm_num, ne_eq, not_true_eq_false, if_false]
    rw [readSizeT_append 1 _ (by norm_num)]
    simp only [one_ne_zero, if_false]
    have hc : (readCounts 1 (writeSizeT 0 ++ writeBool true)).2 = writeBool true := by
      show (readCounts 0 (readSizeTInto 0 (writeSizeT 0 ++ writeBool true)).2).2 = _
      rw [readSizeTInto_append]
      rfl
    rw [hc]
    have ht : readTrees natCodec 1 [] (writeBool true) = some (false, [], []) := by
      show (match DeserializeBVHNode natCodec ((writeBool true).length + 1) (writeBool true) with
        | none => none
        | some (BVHNode.null, d1) => some (false, [], d1)
        | some (BVHNode.node b l r ts, d1) =>
          readTrees natCodec 0 ([] ++ [BVHNode.node b l r ts]) d1) = _
      have hd := DeserializeBVHNode_Serialize natCodec (BVHNode.null : BVHNode ℚ) trivial
        ((writeBool true).length + 1) [] (by simp [SerializeBVHNode])
      simp only [SerializeBVHNode, List.append_nil] at hd
      rw [hd]
    rw [ht]
    rfl
  · intro h
    have := congrArg VisCheck.bvhNodes h
    simp at this

/-! ## The recursion depth of `DeserializeBVHNode` -/

theorem readBytes_length_le (n : Nat) (old data : List Byte) :
    (readBytes n old data).2.length ≤ data.length := by
  unfold readBytes
  split_ifs
  · simp
  · simp

omit [LinearOrderedField F] in
theorem readFloat_length_le (C : FloatCodec F) (old : F) (data : List Byte) :
    (readFloat C old data).2.length ≤ data.length := by
  unfold readFloat
  split_ifs
  · simp
  · exact readBytes_length_le _ _ _

omit [LinearOrderedField F] in
theorem readVec3_length_le (C : FloatCodec F) (old : Vec3 F) (data : List Byte) :
    (readVec3 C old data).2.length ≤ data.length := by
  have h1 := readFloat_length_le C old.x data
  have h2 := readFloat_length_le C old.y (readFloat C old.x data).2
  have h3 := readFloat_length_le C old.z (readFloat C old.y (readFloat C old.x data).2).2
  simp only [readVec3]
  omega

omit [LinearOrderedField F] in
theorem readTriangle_length_le (C : FloatCodec F) (old : TriangleCombined F) (data : List Byte) :
    (readTriangle C old data).2.length ≤ data.length := by
  have h1 := readVec3_length_le C old.v0 data
  have h2 := readVec3_length_le C old.v1 (readVec3 C old.v0 data).2
  have h3 := readVec3_length_le C old.v2 (readVec3 C old.v1 (readVec3 C old.v0 data).2).2
  simp only [readTriangle]
  omega

theorem readTriangles_length_le (C : FloatCodec F) (n : Nat) (data : List Byte) :
    (readTriangles C n data).2.length ≤ data.length := by
  induction n generalizing data with
  | zero => exact le_refl _
  | succ n ih =>
    have h1 := readTriangle_length_le C TriangleCombined.zero data
    have h2 := ih (readTriangle C TriangleCombined.zero data).2
    simp only [readTriangles]
    omega

theorem readBool_length (data rest : List Byte) (b : Bool) (h : readBool data = some (b, rest)) :
    rest.length + 1 = data.length := by
  cases data with
  | nil => cases h
  | cons x xs =>
    simp only [readBool, Option.some.injEq, Prod.mk.injEq] at h
    rw [← h.2]
    rfl

theorem readUInt_length_le (n : Nat) (data rest : List Byte) (v : Nat)
    (h : readUInt n data = some (v, rest)) : rest.length ≤ data.length := by
  unfold readUInt at h
  split_ifs at h
  simp only [Option.some.injEq, Prod.mk.injEq] at h
  rw [← h.2]
  simp

/-- A call of `DeserializeBVHNode` that returns leaves the stream shorter than it found it. -/
theorem DeserializeBVHNode_length (C : FloatCodec F) (fuel : Nat) (data rest : List Byte)
    (n : BVHNode F) (h : DeserializeBVHNode C fuel data = some (n, rest)) :
    rest.length < data.length := by
  induction fuel generalizing data rest n with
  | zero => cases h
  | succ fuel ih =>
    simp only [DeserializeBVHNode] at h
    cases h1 : readBool data with
    | none => rw [h1] at h; cases h
    | some r1 =>
      obtain ⟨isNull, d1⟩ := r1
      have l1 := readBool_length data d1 isNull h1
      rw [h1] at h
      simp only at h
      cases isNull with
      | true =>
        simp only [if_true, Option.some.injEq, Prod.mk.injEq] at h
        rw [← h.2]; omega
      | false =>
        simp only [Bool.false_eq_true, if_false] at h
        have l2 := readVec3_length_le C Vec3.zero d1
        have l3 := readVec3_length_le C Vec3.zero (readVec3 C Vec3.zero d1).2
        cases h2 : readBool (readVec3 C Vec3.zero (readVec3 C Vec3.zero d1).2).2 with
        | none => rw [h2] at h; cases h
        | some r2 =>
          obtain ⟨isLeaf, d4⟩ := r2
          have l4 := readBool_length _ d4 isLeaf h2
          rw [h2] at h
          simp only at h
          cases isLeaf with
          | true =>
            simp only [if_true] at h
            cases h3 : readUInt 8 d4 with
            | none => rw [h3] at h; cases h
            | some r3 =>
              obtain ⟨numTris, d5⟩ := r3
              have l5 := readUInt_length_le 8 d4 d5 numTris h3
              have l6 := readTriangles_length_le C numTris d5
              rw [h3] at h
              simp only [Option.some.injEq, Prod.mk.injEq] at h
              rw [← h.2]; omega
          | false =>
            simp only [Bool.false_eq_true, if_false] at h
            cases h3 : DeserializeBVHNode C fuel d4 with
            | none => rw [h3] at h; cases h
            | some r3 =>
              obtain ⟨left, d5⟩ := r3
              have l5 := ih d4 d5 left h3
              rw [h3] at h
              simp only at h
              cases h4 : DeserializeBVHNode C fuel d5 with
              | none => rw [h4] at h; cases h
              | some r4 =>
                obtain ⟨right, d6⟩ := r4
                have l6 := ih d5 d6 right h4
                rw [h4] at h
                simp only [Option.some.injEq, Prod.mk.injEq] at h
                rw [← h.2]; omega

/-- The recursion of `DeserializeBVHNode` never needs more depth than the number of bytes
left plus one: with that much fuel or more the result does not depend on the fuel. -/
theorem DeserializeBVHNode_fuel (C : FloatCodec F) (fuel fuel2 : Nat) (data : List Byte)
    (h1 : data.length < fuel) (h2 : data.length < fuel2) :
    DeserializeBVHNode C fuel data = DeserializeBVHNode C fuel2 data := by
  induction fuel generalizing data fuel2 with
  | zero => exact absurd h1 (Nat.not_lt_zero _)
  | succ fuel ih =>
    cases fuel2 with
    | zero => exact absurd h2 (Nat.not_lt_zero _)
    | succ fuel2 =>
      simp only [DeserializeBVHNode]
      cases hb : readBool data with
      | none => rfl
      | some r1 =>
        obtain ⟨isNull, d1⟩ := r1
        have l1 := readBool_length data d1 isNull hb
        simp only
        cases isNull with
        | true => rfl
        | false =>
          simp only [Bool.false_eq_true, if_false]
          have l2 := readVec3_length_le C Vec3.zero d1
          have l3 := readVec3_length_le C Vec3.zero (readVec3 C Vec3.zero d1).2
          cases hb2 : readBool (readVec3 C Vec3.zero (readVec3 C Vec3.zero d1).2).2 with
          | none => rfl
          | some r2 =>
            obtain ⟨isLeaf, d4⟩ := r2
            have l4 := readBool_length _ d4 isLeaf hb2
            simp only
            cases isLeaf with
            | true => rfl
            | false =>
              simp only [Bool.false_eq_true, if_false]
              rw [ih fuel2 d4 (by omega) (by omega)]
              cases h3 : DeserializeBVHNode C fuel2 d4 with
              | none => rfl
              | some r3 =>
                obtain ⟨left, d5⟩ := r3
                have l5 := DeserializeBVHNode_length C fuel2 d4 d5 left h3
                simp only
                rw [ih fuel2 d5 (by omega) (by omega)]

/-! ## Claim C21: the median split -/

theorem half_ne_nan (R : FloatUnit F) (x : Flt F) (hx : x ≠ Flt.nan) : R.half x ≠ Flt.nan := by
  cases x with
  | nan => exact absurd rfl hx
  | ninf => simp [FloatUnit.half]
  | pinf => simp [FloatUnit.half]
  | fin s => exact R.round_ne_nan _

theorem half_mono (R : FloatUnit F) (x y : Flt F) (h : Flt.lt y x = false) :
    Flt.lt (R.half y) (R.half x) = false := by
  cases x with
  | nan => cases hy : R.half y <;> rfl
  | ninf => cases hy : R.half y <;> rfl
  | pinf =>
    cases y with
    | nan => rfl
    | ninf => simp [Flt.lt] at h
    | pinf => rfl
    | fin t => simp [Flt.lt] at h
  | fin s =>
    cases y with
    | nan => simp only [FloatUnit.half]; cases R.round (s / 2) <;> rfl
    | ninf => simp [Flt.lt] at h
    | pinf => simp only [FloatUnit.half]; cases R.round (s / 2) <;> rfl
    | fin t =>
      simp only [Flt.lt, decide_eq_false_iff_not, not_lt] at h
      exact R.round_mono (s / 2) (t / 2) (by linarith)

theorem centerKey_ne_nan (R : FloatUnit F) (axis : Nat) (a : TriangleCombined F) :
    centerKey R axis a ≠ Flt.nan := by
  unfold centerKey
  simp only
  split_ifs <;> exact half_ne_nan R _ (R.round_ne_nan _)

/-- The float key keeps the order of the exact centroids, strictness apart. -/
theorem centerKey_mono (R : FloatUnit F) (axis : Nat) (a b : TriangleCombined F)
    (h : centroid axis a ≤ centroid axis b) :
    Flt.lt (centerKey R axis b) (centerKey R axis a) = false := by
  unfold centroid at h
  unfold centerKey
  simp only at h ⊢
  split_ifs at h ⊢ <;> exact half_mono R _ _ (R.round_mono _ _ (by linarith))

theorem BuildBVH_halves (S : StdSort F) (tris : List (TriangleCombined F))
    (h : 4 < tris.length) :
    ∃ bounds leftTris rightTris,
      BuildBVH S tris = .node bounds (BuildBVH S leftTris) (BuildBVH S rightTris) [] ∧
      leftTris.length = tris.length / 2 ∧
      rightTris.length = tris.length - tris.length / 2 ∧
      List.Perm (leftTris ++ rightTris) tris ∧
      ∀ a ∈ leftTris, ∀ b ∈ rightTris,
        Flt.lt (centerKey S.fpu (splitAxis S.fpu bounds) b)
          (centerKey S.fpu (splitAxis S.fpu bounds) a) = false := by
  cases tris with
  | nil => simp at h
  | cons first rest =>
    have hnl : ¬ (first :: rest).length ≤ LEAF_THRESHOLD := by
      unfold LEAF_THRESHOLD; omega
    have hp := S.perm (splitAxis S.fpu (computeBounds first rest)) (first :: rest)
    have hs := S.sorted (splitAxis S.fpu (computeBounds first rest)) (first :: rest)
    have hlen := hp.length_eq
    refine ⟨computeBounds first rest, _, _, BuildBVH_split S first rest hnl, ?_, ?_, ?_, ?_⟩
    · rw [List.length_take, hlen]; omega
    · rw [List.length_drop, hlen]
    · rw [List.take_append_drop]; exact hp
    · intro a ha b hb
      rw [← List.take_append_drop
        ((S.sort (splitAxis S.fpu (computeBounds first rest)) (first :: rest)).length / 2)
        (S.sort (splitAxis S.fpu (computeBounds first rest)) (first :: rest))] at hs
      exact (List.pairwise_append.mp hs).2.2 a ha b hb

/-- The bounds of the five far triangles. -/
theorem hugeTriangles_bounds :
    computeBounds (hugeWall 14) [hugeWall 12, hugeWall 10, hugeWall 9, hugeWall 15]
      = (⟨⟨191408831393027885698148216680369618944, 0, 0⟩,
          ⟨319014718988379809496913694467282698240, 1, 1⟩⟩ : AABB ℚ) := by
  simp only [computeBounds, List.foldl, growBounds, TriangleCombined.ComputeAABB, hugeWall]
  norm_num

/-- The float key of a wall at `x = k·2^124` with `k ≥ 8` is `+inf`, whatever the float
unit: the sum `k·2^125` is beyond the float range. -/
theorem hugeWall_key (R : FloatUnit ℚ) (k : ℚ) (hk : 8 ≤ k) :
    centerKey R 0 (hugeWall k) = Flt.pinf := by
  have hx : (hugeWall k).ComputeAABB.min.x + (hugeWall k).ComputeAABB.max.x
      = 2 * (k * 21267647932558653966460912964485513216) := by
    simp only [TriangleCombined.ComputeAABB, hugeWall, min_self, max_self]
    ring
  unfold centerKey
  simp only [if_true]
  rw [hx, R.round_pinf _ (by unfold OVERFLOW; linarith)]
  rfl

/-- Claim C21, amended.  For every triangle list of `n > 4` triangles, `BuildBVH` builds the
left child from exactly `⌊n/2⌋` triangles and the right child from the remaining
`n − ⌊n/2⌋` (together a rearrangement of the input), these are the triangles in the leaves
of the two subtrees, both sides are non-empty and their sizes differ by at most 1.  On the
split axis of the node the order is that of the float keys `(aabb.min + aabb.max) / 2.0f`
the comparator computes: the key of a triangle of the right subtree is never less than the
key of a triangle of the left subtree, and a left triangle whose exact centroid is larger
than that of a right triangle has the same float key as it.  When every key is computed
exactly, the exact centroid of every left triangle is `≤` that of every right triangle. -/
theorem BuildBVH_median_split (S : StdSort F) (tris : List (TriangleCombined F))
    (h : 4 < tris.length) :
    ∃ bounds leftTris rightTris,
      BuildBVH S tris = .node bounds (BuildBVH S leftTris) (BuildBVH S rightTris) [] ∧
      List.Perm (leftTris ++ rightTris) tris ∧
      List.Perm (extractTriangles (BuildBVH S leftTris)) leftTris ∧
      List.Perm (extractTriangles (BuildBVH S rightTris)) rightTris ∧
      leftTris.length = tris.length / 2 ∧
      rightTris.length = tris.length - tris.length / 2 ∧
      (extractTriangles (BuildBVH S leftTris)).length = tris.length / 2 ∧
      (extractTriangles (BuildBVH S rightTris)).length = tris.length - tris.length / 2 ∧
      1 ≤ leftTris.length ∧ leftTris.length ≤ rightTris.length ∧
      rightTris.length ≤ leftTris.length + 1 ∧
      (∀ a ∈ extractTriangles (BuildBVH S leftTris),
        ∀ b ∈ extractTriangles (BuildBVH S rightTris),
          Flt.lt (centerKey S.fpu (splitAxis S.fpu bounds) b)
            (centerKey S.fpu (splitAxis S.fpu bounds) a) = false ∧
          (centroid (splitAxis S.fpu bounds) b < centroid (splitAxis S.fpu bounds) a →
            centerKey S.fpu (splitAxis S.fpu bounds) a
              = centerKey S.fpu (splitAxis S.fpu bounds) b)) ∧
      ((∀ T ∈ tris, centerKey S.fpu (splitAxis S.fpu bounds) T
          = Flt.fin (centroid (splitAxis S.fpu bounds) T)) →
        ∀ a ∈ extractTriangles (BuildBVH S leftTris),
          ∀ b ∈ extractTriangles (BuildBVH S rightTris),
            centroid (splitAxis S.fpu bounds) a ≤ centroid (splitAxis S.fpu bounds) b) := by
  obtain ⟨bounds, l, r, hb, hl, hr, hp, hc⟩ := BuildBVH_halves S tris h
  have hlne : l ≠ [] := by
    intro h0; rw [h0] at hl; simp only [List.length_nil] at hl; omega
  have hrne : r ≠ [] := by
    intro h0; rw [h0] at hr; simp only [List.length_nil] at hr; omega
  have pl := extractTriangles_BuildBVH_perm S l hlne
  have pr := extractTriangles_BuildBVH_perm S r hrne
  refine ⟨bounds, l, r, hb, hp, pl, pr, hl, hr, ?_, ?_, ?_, ?_, ?_, ?_, ?_⟩
  · rw [pl.length_eq, hl]
  · rw [pr.length_eq, hr]
  · omega
  · omega
  · omega
  · intro a ha b hb2
    have h1 := hc a (pl.mem_iff.mp ha) b (pr.mem_iff.mp hb2)
    refine ⟨h1, fun hlt => ?_⟩
    exact Flt_eq_of_not_lt _ _ (centerKey_ne_nan _ _ _) (centerKey_ne_nan _ _ _)
      (centerKey_mono S.fpu _ b a (le_of_lt hlt)) h1
  · intro hex a ha b hb2
    have hal : a ∈ l := pl.mem_iff.mp ha
    have hbr : b ∈ r := pr.mem_iff.mp hb2
    have h1 := hc a hal b hbr
    have hat : a ∈ tris := hp.mem_iff.mp (List.mem_append_left _ hal)
    have hbt : b ∈ tris := hp.mem_iff.mp (List.mem_append_right _ hbr)
    rw [hex a hat, hex b hbt] at h1
    simpa [Flt.lt] using h1

/-- Claim C21, amended, on six triangles sorted by insertion sort. -/
theorem BuildBVH_median_split_witness :
    4 < sixTriangles.length ∧
    ∃ bounds leftTris rightTris,
      BuildBVH insertionSort sixTriangles
        = .node bounds (BuildBVH insertionSort leftTris) (BuildBVH insertionSort rightTris) [] ∧
      List.Perm (leftTris ++ rightTris) sixTriangles ∧
      List.Perm (extractTriangles (BuildBVH insertionSort leftTris)) leftTris ∧
      List.Perm (extractTriangles (BuildBVH insertionSort rightTris)) rightTris ∧
      leftTris.length = sixTriangles.length / 2 ∧
      rightTris.length = sixTriangles.length - sixTriangles.length / 2 ∧
      (extractTriangles (BuildBVH insertionSort leftTris)).length = sixTriangles.length / 2 ∧
      (extractTriangles (BuildBVH insertionSort rightTris)).length
        = sixTriangles.length - sixTriangles.length / 2 ∧
      1 ≤ leftTris.length ∧ leftTris.length ≤ rightTris.length ∧
      rightTris.length ≤ leftTris.length + 1 ∧
      (∀ a ∈ extractTriangles (BuildBVH insertionSort leftTris),
        ∀ b ∈ extractTriangles (BuildBVH insertionSort rightTris),
          Flt.lt (centerKey (insertionSort : StdSort ℚ).fpu
              (splitAxis (insertionSort : StdSort ℚ).fpu bounds) b)
            (centerKey (insertionSort : StdSort ℚ).fpu
              (splitAxis (insertionSort : StdSort ℚ).fpu bounds) a) = false ∧
          (centroid (splitAxis (insertionSort : StdSort ℚ).fpu bounds) b
              < centroid (splitAxis (insertionSort : StdSort ℚ).fpu bounds) a →
            centerKey (insertionSort : StdSort ℚ).fpu
                (splitAxis (insertionSort : StdSort ℚ).fpu bounds) a
              = centerKey (insertionSort : StdSort ℚ).fpu
                (splitAxis (insertionSort : StdSort ℚ).fpu bounds) b)) ∧
      ((∀ T ∈ sixTriangles, centerKey (insertionSort : StdSort ℚ).fpu
            (splitAxis (insertionSort : StdSort ℚ).fpu bounds) T
          = Flt.fin (centroid (splitAxis (insertionSort : StdSort ℚ).fpu bounds) T)) →
        ∀ a ∈ extractTriangles (BuildBVH insertionSort leftTris),
          ∀ b ∈ extractTriangles (BuildBVH insertionSort rightTris),
            centroid (splitAxis (insertionSort : StdSort ℚ).fpu bounds) a
              ≤ centroid (splitAxis (insertionSort : StdSort ℚ).fpu bounds) b) :=
  ⟨by decide, BuildBVH_median_split insertionSort sixTriangles (by decide)⟩

/-- Claim C21 as stated fails on five triangles far from the origin, at
`x = 1.75·2^127, 1.5·2^127, 1.25·2^127, 1.125·2^127, 1.875·2^127`: the split axis is
`x`, every float sum `aabb.min.x + aabb.max.x` overflows to `+inf`, so all five keys are
equal and the sort leaves the list as it is.  The left child gets the first two triangles,
the right child the other three, and the centroid `1.75·2^127` of the first triangle, in
the left subtree, is larger than the centroid `1.25·2^127` of the third, in the right
subtree. -/
theorem BuildBVH_median_split_counterexample :
    4 < hugeTriangles.length ∧
    splitAxis (insertionSort : StdSort ℚ).fpu
      (computeBounds (hugeWall 14) [hugeWall 12, hugeWall 10, hugeWall 9, hugeWall 15]) = 0 ∧
    (∀ T ∈ hugeTriangles, centerKey (insertionSort : StdSort ℚ).fpu 0 T = Flt.pinf) ∧
    BuildBVH insertionSort hugeTriangles
      = .node (computeBounds (hugeWall 14) [hugeWall 12, hugeWall 10, hugeWall 9, hugeWall 15])
          (BuildBVH insertionSort [hugeWall 14, hugeWall 12])
          (BuildBVH insertionSort [hugeWall 10, hugeWall 9, hugeWall 15]) [] ∧
    hugeWall 14 ∈ extractTriangles (BuildBVH insertionSort [hugeWall 14, hugeWall 12]) ∧
    hugeWall 10
      ∈ extractTriangles (BuildBVH insertionSort [hugeWall 10, hugeWall 9, hugeWall 15]) ∧
    ¬ centroid 0 (hugeWall 14) ≤ centroid 0 (hugeWall 10) := by
  have hax : splitAxis (insertionSort : StdSort ℚ).fpu
      (computeBounds (hugeWall 14) [hugeWall 12, hugeWall 10, hugeWall 9, hugeWall 15]) = 0 := by
    rw [hugeTriangles_bounds]
    simp only [splitAxis, extent, insertionSort, exactUnit]
    norm_num [OVERFLOW, Flt.lt]
  have hkeys : ∀ T ∈ hugeTriangles,
      centerKey (insertionSort : StdSort ℚ).fpu 0 T = Flt.pinf := by
    intro T hT
    simp only [hugeTriangles, List.mem_cons, List.mem_singleton, List.not_mem_nil,
      or_false] at hT
    rcases hT with rfl | rfl | rfl | rfl | rfl <;> exact hugeWall_key _ _ (by norm_num)
  have hsort : (insertionSort : StdSort ℚ).sort 0 hugeTriangles = hugeTriangles := by
    show List.insertionSort _ hugeTriangles = hugeTriangles
    apply List.Sorted.insertionSort_eq
    apply List.pairwise_of_forall_mem_list
    intro a ha b hb
    have ka := hkeys a ha
    have kb := hkeys b hb
    simp only [insertionSort] at ka kb
    show Flt.rank (centerKey exactUnit 0 a) ≤ Flt.rank (centerKey exactUnit 0 b)
    rw [ka, kb]
  refine ⟨by decide, hax, hkeys, ?_, ?_, ?_, ?_⟩
  · have hnl : ¬ (hugeWall 14 :: [hugeWall 12, hugeWall 10, hugeWall 9,
        hugeWall 15] : List (TriangleCombined ℚ)).length ≤ LEAF_THRESHOLD := by
      unfold LEAF_THRESHOLD; decide
    have hb := BuildBVH_split (insertionSort : StdSort ℚ) (hugeWall 14)
      [hugeWall 12, hugeWall 10, hugeWall 9, hugeWall 15] hnl
    rw [hax] at hb
    have hs2 : (insertionSort : StdSort ℚ).sort 0
        (hugeWall 14 :: [hugeWall 12, hugeWall 10, hugeWall 9, hugeWall 15])
        = [hugeWall 14, hugeWall 12, hugeWall 10, hugeWall 9, hugeWall 15] := hsort
    rw [hs2] at hb
    exact hb
  · rw [BuildBVH_leaf _ _ _ (by unfold LEAF_THRESHOLD; decide)]
    exact List.mem_cons_self _ _
  · rw [BuildBVH_leaf _ _ _ (by unfold LEAF_THRESHOLD; decide)]
    exact List.mem_cons_self _ _
  · norm_num [centroid, TriangleCombined.ComputeAABB, hugeWall]

/-! ## Claim C22: what a traversal returns -/

theorem hitParams_cons (o d : Vec3 F) (maxD : F) (T : TriangleCombined F)
    (ts : List (TriangleCombined F)) :
    hitParams o d maxD (T :: ts)
      = match RayIntersectsTriangle o d T with
        | some t => if t < maxD then t :: hitParams o d maxD ts else hitParams o d maxD ts
        | none => hitParams o d maxD ts := by
  unfold hitParams
  cases hr : RayIntersectsTriangle o d T with
  | none => simp only [List.filterMap_cons, hr]
  | some t =>
    by_cases hc : t < maxD
    · simp only [List.filterMap_cons, hr, if_pos hc]
    · simp only [List.filterMap_cons, hr, if_neg hc]

/-- The loop over the triangles of a leaf lowers `hitDistance` to the least accepted
parameter. -/
theorem leafLoop_min (o d : Vec3 F) (maxD : F) (ts : List (TriangleCombined F))
    (st : Bool × F) :
    (ts.foldl (leafStep o d maxD) st).2 = (hitParams o d maxD ts).foldl min st.2 := by
  induction ts generalizing st with
  | nil => rfl
  | cons T ts ih =>
    rw [List.foldl_cons, ih, hitParams_cons]
    unfold leafStep
    cases hr : RayIntersectsTriangle o d T with
    | none => rfl
    | some t =>
      by_cases hc : t < maxD
      · simp only [if_pos hc, List.foldl_cons]
        by_cases h2 : t < st.2
        · rw [if_pos ⟨hc, h2⟩, min_eq_right (le_of_lt h2)]
        · rw [if_neg (fun h => h2 h.2), min_eq_left (not_lt.mp h2)]
      · simp only [if_neg hc]
        rw [if_neg (fun h => hc h.1)]

theorem mem_hitParams (o d : Vec3 F) (maxD : F) (ts : List (TriangleCombined F)) (t : F) :
    t ∈ hitParams o d maxD ts ↔
      ∃ T ∈ ts, RayIntersectsTriangle o d T = some t ∧ t < maxD := by
  induction ts with
  | nil => simp [hitParams]
  | cons T ts ih =>
    rw [hitParams_cons]
    cases hr : RayIntersectsTriangle o d T with
    | none =>
      simp only [ih, List.mem_cons, exists_eq_or_imp, hr]
      constructor
      · intro h; exact Or.inr h
      · rintro (⟨h, _⟩ | h)
        · cases h
        · exact h
    | some t2 =>
      by_cases hc : t2 < maxD
      · simp only [if_pos hc, List.mem_cons, ih, exists_eq_or_imp, hr, Option.some.injEq]
        constructor
        · rintro (rfl | h)
          · exact Or.inl ⟨rfl, hc⟩
          · exact Or.inr h
        · rintro (⟨rfl, _⟩ | h)
          · exact Or.inl rfl
          · exact Or.inr h
      · simp only [if_neg hc, List.mem_cons, ih, exists_eq_or_imp, hr, Option.some.injEq]
        constructor
        · intro h; exact Or.inr h
        · rintro (⟨rfl, h⟩ | h)
          · exact absurd h hc
          · exact h

/-- Claim C22.  For every tree `n` (built or not), ray, `maxDistance` and initial
`hitDistance = h0`, `IntersectBVH` ends with `hitDistance = h1 ≤ h0`; it returns true if
and only if `h1 < h0`; when it returns true, `h1 < maxDistance` and `h1` is the parameter
`t` that `RayIntersectsTriangle` reports for a triangle stored in a leaf of the tree.  On a
leaf whose bounds the ray hits, `h1` is the minimum of `h0` and of the parameters
`t < maxDistance` of the triangles of the leaf that are hit. -/
theorem IntersectBVH_result (n : BVHNode F) (o d : Vec3 F) (maxD h0 : F) :
    (IntersectBVH n o d maxD h0).2 ≤ h0 ∧
    ((IntersectBVH n o d maxD h0).1 = true ↔ (IntersectBVH n o d maxD h0).2 < h0) ∧
    ((IntersectBVH n o d maxD h0).1 = true →
      (IntersectBVH n o d maxD h0).2 < maxD ∧
      ∃ T ∈ extractTriangles n,
        RayIntersectsTriangle o d T = some (IntersectBVH n o d maxD h0).2) ∧
    (∀ bounds left right triangles, n = .node bounds left right triangles →
      IsLeaf left right = true → bounds.RayIntersects o d = true →
      (IntersectBVH n o d maxD h0).2 = (hitParams o d maxD triangles).foldl min h0 ∧
      ∀ t, t ∈ hitParams o d maxD triangles ↔
        ∃ T ∈ triangles, RayIntersectsTriangle o d T = some t ∧ t < maxD) := by
  refine ⟨IntersectBVH_le n o d maxD h0, ?_, ?_, ?_⟩
  · rcases IntersectBVH_outcome n o d maxD h0 with ⟨a, e⟩ | ⟨a, e, _⟩
    · rw [a, e]; simp
    · exact ⟨fun _ => e, fun _ => a⟩
  · intro ht
    rcases IntersectBVH_outcome n o d maxD h0 with ⟨a, _⟩ | ⟨_, _, c, T, hT, e⟩
    · rw [a] at ht; cases ht
    · exact ⟨c, T, hT, e⟩
  · intro bounds left right triangles hn hleaf hb
    subst hn
    refine ⟨?_, mem_hitParams o d maxD triangles⟩
    simp only [IntersectBVH, hb, hleaf, Bool.not_true, Bool.false_eq_true, if_false, if_true]
    exact leafLoop_min o d maxD triangles (false, h0)

/-- Claim C22 on the leaf `BuildBVH` makes of the wall of the demo scene, for the ray from
`(0, 100, 0)` along `z`: the bounds are hit, the first wall triangle is hit at `t = 500`,
the second is missed, and `IntersectBVH` started with `hitDistance = FLT_MAX` returns true
with `hitDistance = min(FLT_MAX, 500) = 500`. -/
theorem IntersectBVH_result_witness :
    BuildBVH (insertionSort : StdSort ℚ) demoWall
      = .node ⟨⟨-100, 0, 500⟩, ⟨100, 1000, 500⟩⟩ .null .null demoWall ∧
    (⟨⟨-100, 0, 500⟩, ⟨100, 1000, 500⟩⟩ : AABB ℚ).RayIntersects ⟨0, 100, 0⟩ ⟨0, 0, 1⟩ = true ∧
    hitParams (⟨0, 100, 0⟩ : Vec3 ℚ) ⟨0, 0, 1⟩ 1000 demoWall = [500] ∧
    IntersectBVH (BuildBVH (insertionSort : StdSort ℚ) demoWall) ⟨0, 100, 0⟩ ⟨0, 0, 1⟩ 1000
      FLT_MAX = (true, 500) := by
  have hb : BuildBVH (insertionSort : StdSort ℚ) demoWall
      = .node ⟨⟨-100, 0, 500⟩, ⟨100, 1000, 500⟩⟩ .null .null demoWall := by
    have h := BuildBVH_leaf (insertionSort : StdSort ℚ) ⟨⟨-100, 0, 500⟩, ⟨100, 0, 500⟩,
      ⟨100, 1000, 500⟩⟩ [⟨⟨-100, 0, 500⟩, ⟨100, 1000, 500⟩, ⟨-100, 1000, 500⟩⟩] (by decide)
    have hc : computeBounds (⟨⟨-100, 0, 500⟩, ⟨100, 0, 500⟩, ⟨100, 1000, 500⟩⟩ :
        TriangleCombined ℚ) [⟨⟨-100, 0, 500⟩, ⟨100, 1000, 500⟩, ⟨-100, 1000, 500⟩⟩]
        = ⟨⟨-100, 0, 500⟩, ⟨100, 1000, 500⟩⟩ := by
      simp [computeBounds, growBounds, TriangleCombined.ComputeAABB]
    rw [hc] at h
    exact h
  have hp : hitParams (⟨0, 100, 0⟩ : Vec3 ℚ) ⟨0, 0, 1⟩ 1000 demoWall = [500] := by
    have e1 : RayIntersectsTriangle (⟨0, 100, 0⟩ : Vec3 ℚ) ⟨0, 0, 1⟩
        ⟨⟨-100, 0, 500⟩, ⟨100, 0, 500⟩, ⟨100, 1000, 500⟩⟩ = some 500 := by
      norm_num [RayIntersectsTriangle, Subtract, Cross, Dot, EPSILON]
    have e2 : RayIntersectsTriangle (⟨0, 100, 0⟩ : Vec3 ℚ) ⟨0, 0, 1⟩
        ⟨⟨-100, 0, 500⟩, ⟨100, 1000, 500⟩, ⟨-100, 1000, 500⟩⟩ = none := by
      norm_num [RayIntersectsTriangle, Subtract, Cross, Dot, EPSILON]
    rw [demoWall, hitParams_cons, e1, hitParams_cons, e2]
    norm_num [hitParams]
  have hr : (⟨⟨-100, 0, 500⟩, ⟨100, 1000, 500⟩⟩ : AABB ℚ).RayIntersects ⟨0, 100, 0⟩ ⟨0, 0, 1⟩
      = true := by
    refine RayIntersects_of_hit _ _ _
      ⟨⟨-100, 0, 500⟩, ⟨100, 0, 500⟩, ⟨100, 1000, 500⟩⟩ 500 ?_ ?_ ?_ DirExact_z
    · intro v hv
      simp only [vertices, List.mem_cons, List.mem_singleton, List.not_mem_nil, or_false] at hv
      rcases hv with rfl | rfl | rfl <;> norm_num [AABB.Contains]
    · norm_num [RayIntersectsTriangle, Subtract, Cross, Dot, EPSILON]
    · norm_num [FLT_MAX]
  have h := IntersectBVH_result (BuildBVH (insertionSort : StdSort ℚ) demoWall)
    ⟨0, 100, 0⟩ ⟨0, 0, 1⟩ 1000 FLT_MAX
  obtain ⟨_, hiff, _, hleaf⟩ := h
  have h2 := (hleaf _ _ _ _ hb IsLeaf_null hr).1
  rw [hp] at h2
  have h3 : (IntersectBVH (BuildBVH (insertionSort : StdSort ℚ) demoWall) ⟨0, 100, 0⟩
      ⟨0, 0, 1⟩ 1000 FLT_MAX).2 = 500 := by
    rw [h2]; norm_num [FLT_MAX]
  have h1 : (IntersectBVH (BuildBVH (insertionSort : StdSort ℚ) demoWall) ⟨0, 100, 0⟩
      ⟨0, 0, 1⟩ 1000 FLT_MAX).1 = true := by
    rw [hiff, h3]; norm_num [FLT_MAX]
  exact ⟨hb, hr, hp, Prod.ext h1 h3⟩

/-! ## Claim C23: termination and size of the built tree -/

theorem height_leaf (b : AABB F) (ts : List (TriangleCombined F)) :
    height (.node b .null .null ts) = 0 := by
  simp only [height, IsLeaf_null, if_true]

theorem height_split (S : StdSort F) (b : AABB F) (l r : List (TriangleCombined F)) :
    height (.node b (BuildBVH S l) (BuildBVH S r) [])
      = 1 + max (height (BuildBVH S l)) (height (BuildBVH S r)) := by
  simp only [height, IsLeaf_left_ne _ _ (BuildBVH_ne_null S l), Bool.false_eq_true, if_false]

theorem leafLists_leaf (b : AABB F) (ts : List (TriangleCombined F)) :
    leafLists (.node b .null .null ts) = [ts] := by
  simp only [leafLists, IsLeaf_null, if_true]

theorem leafLists_split (S : StdSort F) (b : AABB F) (l r : List (TriangleCombined F)) :
    leafLists (.node b (BuildBVH S l) (BuildBVH S r) [])
      = leafLists (BuildBVH S l) ++ leafLists (BuildBVH S r) := by
  simp only [leafLists, IsLeaf_left_ne _ _ (BuildBVH_ne_null S l), Bool.false_eq_true, if_false]

theorem internalCount_leaf (b : AABB F) (ts : List (TriangleCombined F)) :
    internalCount (.node b .null .null ts) = 0 := by
  simp only [internalCount, IsLeaf_null, if_true]

theorem internalCount_split (S : StdSort F) (b : AABB F) (l r : List (TriangleCombined F)) :
    internalCount (.node b (BuildBVH S l) (BuildBVH S r) [])
      = 1 + internalCount (BuildBVH S l) + internalCount (BuildBVH S r) := by
  simp only [internalCount, IsLeaf_left_ne _ _ (BuildBVH_ne_null S l), Bool.false_eq_true,
    if_false]

/-- The height of the built tree is the least `h` with `n ≤ 4 * 2 ^ h`. -/
theorem BuildBVH_height_least (S : StdSort F) (tris : List (TriangleCombined F))
    (hne : tris ≠ []) :
    tris.length ≤ 4 * 2 ^ height (BuildBVH S tris) ∧
    ∀ h, tris.length ≤ 4 * 2 ^ h → height (BuildBVH S tris) ≤ h := by
  refine BuildBVH_induct S
    (fun ts t => ts.length ≤ 4 * 2 ^ height t ∧ ∀ h, ts.length ≤ 4 * 2 ^ h → height t ≤ h)
    ?_ ?_ tris hne
  · intro first rest h
    rw [height_leaf]
    unfold LEAF_THRESHOLD at h
    exact ⟨by simpa using h, fun _ _ => Nat.zero_le _⟩
  · intro first rest l r h _ _ _ _ hl hp ihl ihr
    unfold LEAF_THRESHOLD at h
    have hlen := hp.length_eq
    rw [List.length_append] at hlen
    rw [height_split]
    obtain ⟨l1, l2⟩ := ihl
    obtain ⟨r1, r2⟩ := ihr
    constructor
    · have e1 : 2 ^ height (BuildBVH S l)
          ≤ 2 ^ max (height (BuildBVH S l)) (height (BuildBVH S r)) :=
        Nat.pow_le_pow_right (by norm_num) (le_max_left _ _)
      have e2 : 2 ^ height (BuildBVH S r)
          ≤ 2 ^ max (height (BuildBVH S l)) (height (BuildBVH S r)) :=
        Nat.pow_le_pow_right (by norm_num) (le_max_right _ _)
      have e3 : 2 ^ (1 + max (height (BuildBVH S l)) (height (BuildBVH S r)))
          = 2 * 2 ^ max (height (BuildBVH S l)) (height (BuildBVH S r)) := by
        rw [Nat.add_comm, pow_succ]; ring
      rw [e3]
      omega
    · intro k hk
      cases k with
      | zero => simp only [pow_zero, mul_one] at hk; omega
      | succ k =>
        have e3 : 2 ^ (k + 1) = 2 * 2 ^ k := by rw [pow_succ]; ring
        rw [e3] at hk
        have a1 := l2 k (by omega)
        have a2 := r2 k (by omega)
        have := max_le a1 a2
        omega

theorem BuildBVH_height_log (S : StdSort F) (tris : List (TriangleCombined F))
    (hne : tris ≠ []) : height (BuildBVH S tris) ≤ Nat.log 2 tris.length := by
  have hmin := (BuildBVH_height_least S tris hne).2
  have hlt := Nat.lt_pow_succ_log_self (by norm_num : 1 < 2) tris.length
  cases hL : Nat.log 2 tris.length with
  | zero =>
    rw [hL] at hlt
    exact hmin 0 (by norm_num at hlt ⊢; omega)
  | succ k =>
    rw [hL] at hlt
    have e3 : 2 ^ (k + 1 + 1) = 4 * 2 ^ k := by rw [pow_succ, pow_succ]; ring
    rw [Nat.succ_eq_add_one, e3] at hlt
    exact le_trans (hmin k (le_of_lt hlt)) (Nat.le_succ k)

/-- A run of `BuildBVH` nests its calls exactly as deep as the height of the result plus
one: with a smaller limit it does not finish, with that limit or a larger one it returns
the tree. -/
theorem BuildBVHWithin_spec (S : StdSort F) (depth : Nat) (tris : List (TriangleCombined F)) :
    BuildBVHWithin S depth tris
      = if height (BuildBVH S tris) < depth then some (BuildBVH S tris) else none := by
  induction depth generalizing tris with
  | zero => rw [if_neg (Nat.not_lt_zero _)]; rfl
  | succ depth ih =>
    cases tris with
    | nil =>
      rw [BuildBVH, height_leaf, if_pos (Nat.succ_pos _)]; rfl
    | cons first rest =>
      by_cases hl : (first :: rest).length ≤ LEAF_THRESHOLD
      · rw [BuildBVH_leaf S first rest hl, height_leaf, if_pos (Nat.succ_pos _)]
        simp only [BuildBVHWithin, if_pos hl]
      · rw [BuildBVH_split S first rest hl, height_split]
        simp only [BuildBVHWithin, if_neg hl]
        rw [ih, ih]
        generalize height (BuildBVH S
          ((S.sort (splitAxis S.fpu (computeBounds first rest)) (first :: rest)).take
            ((S.sort (splitAxis S.fpu (computeBounds first rest)) (first :: rest)).length / 2))) = a
        generalize height (BuildBVH S
          ((S.sort (splitAxis S.fpu (computeBounds first rest)) (first :: rest)).drop
            ((S.sort (splitAxis S.fpu (computeBounds first rest)) (first :: rest)).length / 2))) = b
        have key : (1 + max a b < depth + 1) ↔ (a < depth ∧ b < depth) := by
          rw [Nat.add_comm, Nat.succ_lt_succ_iff, max_lt_iff]
        by_cases c1 : a < depth
        · by_cases c2 : b < depth
          · rw [if_pos c1, if_pos c2, if_pos (key.mpr ⟨c1, c2⟩)]
          · rw [if_pos c1, if_neg c2, if_neg (fun h => c2 (key.mp h).2)]
        · rw [if_neg c1, if_neg (fun h => c1 (key.mp h).1)]

theorem BuildBVHWithin_eq (S : StdSort F) (depth : Nat) (tris : List (TriangleCombined F))
    (h : height (BuildBVH S tris) < depth) :
    BuildBVHWithin S depth tris = some (BuildBVH S tris) := by
  rw [BuildBVHWithin_spec, if_pos h]

/-- The leaves of a tree built from at least two triangles hold at least two triangles
each, and the tree has one internal node fewer than leaves. -/
theorem BuildBVH_leaf_sizes (S : StdSort F) (tris : List (TriangleCombined F))
    (hne : tris ≠ []) :
    (2 ≤ tris.length →
      (∀ ts ∈ leafLists (BuildBVH S tris), 2 ≤ ts.length) ∧
      2 * (leafLists (BuildBVH S tris)).length ≤ tris.length) ∧
    internalCount (BuildBVH S tris) + 1 = (leafLists (BuildBVH S tris)).length := by
  refine BuildBVH_induct S
    (fun ts t => (2 ≤ ts.length →
      (∀ x ∈ leafLists t, 2 ≤ x.length) ∧ 2 * (leafLists t).length ≤ ts.length) ∧
      internalCount t + 1 = (leafLists t).length) ?_ ?_ tris hne
  · intro first rest _
    rw [leafLists_leaf, internalCount_leaf]
    refine ⟨fun h2 => ⟨?_, ?_⟩, rfl⟩
    · intro x hx
      rw [List.mem_singleton] at hx
      rw [hx]; exact h2
    · simpa using h2
  · intro first rest l r h _ _ _ _ hl hp ihl ihr
    unfold LEAF_THRESHOLD at h
    have hlen := hp.length_eq
    rw [List.length_append] at hlen
    rw [leafLists_split, internalCount_split, List.length_append]
    obtain ⟨l1, l2⟩ := ihl
    obtain ⟨r1, r2⟩ := ihr
    refine ⟨fun _ => ?_, by omega⟩
    obtain ⟨l3, l4⟩ := l1 (by omega)
    obtain ⟨r3, r4⟩ := r1 (by omega)
    refine ⟨?_, by omega⟩
    intro x hx
    rcases List.mem_append.mp hx with hx | hx
    · exact l3 x hx
    · exact r3 x hx

/-- Claim C23.  `BuildBVH` terminates on every triangle list, whatever the centroids are:
run with its nested calls limited to `⌊log₂ n⌋ + 1` it returns its tree.  For a list of
`n ≥ 1` triangles the height of the tree is the least `h` with `n ≤ 4 * 2 ^ h` (so `0` for
`n ≤ 4`), hence at most `⌊log₂ n⌋`.  For `n > 4` every leaf holds at least 2 triangles, the
tree has at most `⌊n/2⌋` leaves, and one internal node fewer than leaves. -/
theorem BuildBVH_terminates (S : StdSort F) (tris : List (TriangleCombined F)) :
    BuildBVHWithin S (Nat.log 2 tris.length + 1) tris = some (BuildBVH S tris) ∧
    (tris ≠ [] →
      tris.length ≤ 4 * 2 ^ height (BuildBVH S tris) ∧
      (∀ h, tris.length ≤ 4 * 2 ^ h → height (BuildBVH S tris) ≤ h) ∧
      (tris.length ≤ 4 → height (BuildBVH S tris) = 0) ∧
      height (BuildBVH S tris) ≤ Nat.log 2 tris.length) ∧
    (4 < tris.length →
      (∀ ts ∈ leafLists (BuildBVH S tris), 2 ≤ ts.length) ∧
      (leafLists (BuildBVH S tris)).length ≤ tris.length / 2 ∧
      internalCount (BuildBVH S tris) + 1 = (leafLists (BuildBVH S tris)).length) := by
  refine ⟨?_, ?_, ?_⟩
  · apply BuildBVHWithin_eq
    cases tris with
    | nil =>
      rw [BuildBVH, height_leaf]; exact Nat.succ_pos _
    | cons first rest =>
      exact Nat.lt_succ_of_le (BuildBVH_height_log S _ (List.cons_ne_nil _ _))
  · intro hne
    obtain ⟨h1, h2⟩ := BuildBVH_height_least S tris hne
    refine ⟨h1, h2, fun h4 => ?_, BuildBVH_height_log S tris hne⟩
    exact Nat.le_zero.mp (h2 0 (by simpa using h4))
  · intro h4
    have hne : tris ≠ [] := by
      intro h0; rw [h0] at h4; simp at h4
    obtain ⟨a, b⟩ := BuildBVH_leaf_sizes S tris hne
    obtain ⟨a1, a2⟩ := a (by omega)
    exact ⟨a1, by omega, b⟩

/-- Claim C23 on nine copies of one triangle (all centroids equal), sorted by insertion
sort: the tree has height 2. -/
theorem BuildBVH_terminates_witness :
    sameTriangles ≠ [] ∧ 4 < sameTriangles.length ∧
    BuildBVHWithin insertionSort (Nat.log 2 sameTriangles.length + 1) sameTriangles
      = some (BuildBVH insertionSort sameTriangles) ∧
    height (BuildBVH insertionSort sameTriangles) = 2 ∧
    (∀ ts ∈ leafLists (BuildBVH insertionSort sameTriangles), 2 ≤ ts.length) ∧
    (leafLists (BuildBVH insertionSort sameTriangles)).length ≤ 4 ∧
    internalCount (BuildBVH insertionSort sameTriangles) + 1
      = (leafLists (BuildBVH insertionSort sameTriangles)).length := by
  have hlen : sameTriangles.length = 9 := by simp [sameTriangles]
  have hne : sameTriangles ≠ [] := by
    intro h0; rw [h0] at hlen; simp at hlen
  have h4 : 4 < sameTriangles.length := by rw [hlen]; norm_num
  obtain ⟨a, b, c⟩ := BuildBVH_terminates insertionSort sameTriangles
  obtain ⟨b1, b2, _, _⟩ := b hne
  obtain ⟨c1, c2, c3⟩ := c h4
  refine ⟨hne, h4, a, ?_, c1, ?_, c3⟩
  · have hle := b2 2 (by rw [hlen]; norm_num)
    rw [hlen] at b1
    generalize height (BuildBVH insertionSort sameTriangles) = h at hle b1
    interval_cases h
    · norm_num at b1
    · norm_num at b1
    · rfl
  · rw [hlen] at c2
    omega

end Theorems

end Vis
